import Mathlib

/-!
# Rivendell: marker editor widget and batch importer

A shallow embedding of

* `lib/rdmarkerview.cpp` (classes `RDMarkerHandle` and `RDMarkerView`): the pointer table
  `d_pointers`, the handle table `d_handles` with the limit stops of each handle, the
  context-menu state, and the operations that read and write them;
* `utils/rdimport/rdimport.h`: the dropbox constants, the `DropboxList` entry and the
  `Result` enum. The bodies of `VerifyFile`, `GetCachedTimestamp`, `WriteTimestampCache`,
  `VerifyPattern` and `RunPattern` are in rdimport.cpp, which is not part of the source at
  hand; they are modelled from the specification, and each such definition says so in its
  doc comment.

Conventions of the embedding.

* A C++ `int` is an `Int`; the explicit casts of the source are `toInt32` / `toInt64`
  (two's-complement wrap), `/` on integers is `Int.tdiv` (truncation toward zero).
* A division by 0 stops the program: `Frame`, whose divisor is a wrapped `int` product, and
  the divisions of `setCut` have no result when their divisor is 0. `setCut` has no result
  for a sample rate of 0, so the later divisions by the sample rate (`Msec`,
  `mouseMoveEvent`) are written with `Int.tdiv` alone.
* `d_pointers[LastRole]` is an array of ten `int`; it is a function on `Fin 10`.
  `d_handles[LastRole][2]` is a table of pointers to handles; an entry is `none` for `NULL`.
* An operation that dereferences a `NULL` handle or scene, or indexes a table with
  `LastRole`, has no resulting state: it returns `none`.
* Scene coordinates (`qreal` in Qt) are integers (whole pixels).
* Qt signals, painting, tool tips and polygons are not part of the state.
-/

/-! ## Machine integers -/

/-- The value of an integer after conversion to a 32-bit `int`. -/
def toInt32 (z : Int) : Int :=
  (z + 2147483648) % 4294967296 - 2147483648

/-- The value of an integer after conversion to `int64_t`. -/
def toInt64 (z : Int) : Int :=
  (z + 9223372036854775808) % 18446744073709551616 - 9223372036854775808

/-- The constant `LEFT_MARGIN` of rdmarkerview.cpp. -/
def LEFT_MARGIN : Int := 20

/-! ## RDMarkerHandle -/

/-- The enumeration `RDMarkerHandle::PointerRole`. Its declaration is in rdmarkerview.h;
the members are the case labels of `pointerRoleText`, and their numbering is the order of
`d_pointer_fields` (column `i` of `LoadCutData` is `d_pointers[i]`), with `LastRole` the
number of roles. -/
inductive RDMarkerHandle.PointerRole where
  | CutStart
  | CutEnd
  | TalkStart
  | TalkEnd
  | SegueStart
  | SegueEnd
  | HookStart
  | HookEnd
  | FadeUp
  | FadeDown
  | LastRole
  deriving DecidableEq, Repr

/-- The enumeration `RDMarkerHandle::PointerType`. -/
inductive RDMarkerHandle.PointerType where
  | Start
  | End
  deriving DecidableEq, Repr

open RDMarkerHandle (PointerRole PointerType)

/-- The integer value of a role. -/
def RDMarkerHandle.PointerRole.toNat : PointerRole → Nat
  | .CutStart => 0
  | .CutEnd => 1
  | .TalkStart => 2
  | .TalkEnd => 3
  | .SegueStart => 4
  | .SegueEnd => 5
  | .HookStart => 6
  | .HookEnd => 7
  | .FadeUp => 8
  | .FadeDown => 9
  | .LastRole => 10

/-- The cast `(RDMarkerHandle::PointerRole)i` for the values the source casts (0..10). -/
def RDMarkerHandle.PointerRole.cast : Nat → PointerRole
  | 0 => .CutStart
  | 1 => .CutEnd
  | 2 => .TalkStart
  | 3 => .TalkEnd
  | 4 => .SegueStart
  | 5 => .SegueEnd
  | 6 => .HookStart
  | 7 => .HookEnd
  | 8 => .FadeUp
  | 9 => .FadeDown
  | _ => .LastRole

/-- The slot of a role in the tables `d_pointers` and `d_handles`; `LastRole` is one past
the end of both tables. -/
def RDMarkerHandle.PointerRole.slot (role : PointerRole) : Option (Fin 10) :=
  if h : role.toNat < 10 then some ⟨role.toNat, h⟩ else none

/-- Slot of `RDMarkerHandle::CutStart`. -/
abbrev ixCutStart : Fin 10 := 0

/-- Slot of `RDMarkerHandle::CutEnd`. -/
abbrev ixCutEnd : Fin 10 := 1

/-- Slot of `RDMarkerHandle::TalkStart`. -/
abbrev ixTalkStart : Fin 10 := 2

/-- Slot of `RDMarkerHandle::TalkEnd`. -/
abbrev ixTalkEnd : Fin 10 := 3

/-- Slot of `RDMarkerHandle::SegueStart`. -/
abbrev ixSegueStart : Fin 10 := 4

/-- Slot of `RDMarkerHandle::SegueEnd`. -/
abbrev ixSegueEnd : Fin 10 := 5

/-- Slot of `RDMarkerHandle::HookStart`. -/
abbrev ixHookStart : Fin 10 := 6

/-- Slot of `RDMarkerHandle::HookEnd`. -/
abbrev ixHookEnd : Fin 10 := 7

/-- Slot of `RDMarkerHandle::FadeUp`. -/
abbrev ixFadeUp : Fin 10 := 8

/-- Slot of `RDMarkerHandle::FadeDown`. -/
abbrev ixFadeDown : Fin 10 := 9

/-- The state of one `RDMarkerHandle`. `pos_x` is `pos().x()`. The constructor assigns
neither limit stop, so a stop field is `none` until `setMinimum` / `setMaximum` stores it.
`d_peers` lists the rows of `d_handles[d_role]` among the peer items (the scene items with
this handle's tool tip); it is empty until the first left button press. -/
structure RDMarkerHandle where
  d_role : PointerRole
  pos_x : Int
  d_x_diff : Int
  d_minimum_pos : Option Int
  d_minimum_ptr : Option Int
  d_maximum_pos : Option Int
  d_maximum_ptr : Option Int
  d_peers : List (Fin 2)
  deriving DecidableEq, Repr

/-- `RDMarkerHandle::setMinimum(pos,ptr)` -/
def RDMarkerHandle.setMinimum (h : RDMarkerHandle) (pos ptr : Int) : RDMarkerHandle :=
  { h with d_minimum_pos := some pos, d_minimum_ptr := some ptr }

/-- `RDMarkerHandle::setMaximum(pos,ptr)` -/
def RDMarkerHandle.setMaximum (h : RDMarkerHandle) (pos ptr : Int) : RDMarkerHandle :=
  { h with d_maximum_pos := some pos, d_maximum_ptr := some ptr }

/-! ## RDMarkerView: state, markers and interlocks -/

/-- The state of an `RDMarkerView`. `d_scene` is `true` when the scene pointer is not
`NULL`. The five `*_action` fields are the enabled state of the menu actions. -/
structure RDMarkerView where
  d_width : Int
  d_height : Int
  d_scene : Bool
  d_sample_rate : Nat
  d_right_margin : Int
  d_pointers : Fin 10 → Int
  d_handles : Fin 10 → Fin 2 → Option RDMarkerHandle
  d_shrink_factor : Int
  d_max_shrink_factor : Int
  d_pad_size : Int
  d_audio_gain : Int
  d_audio_length : Int
  d_wheel_angle : Int
  d_has_unsaved_changes : Bool
  d_marker_menu_used : Bool
  d_selected_marker : PointerRole
  d_deleting_roles : List PointerRole
  d_mouse_pos : Int
  d_cart_number : Nat
  d_cut_number : Int
  d_channels : Int
  d_delete_marker_action : Bool
  d_add_talk_action : Bool
  d_add_segue_action : Bool
  d_add_hook_action : Bool
  d_add_fadeup_action : Bool
  d_add_fadedown_action : Bool

/-- `RDMarkerView::pointerValue(role)` -/
def RDMarkerView.pointerValue (v : RDMarkerView) (role : PointerRole) : Option Int :=
  role.slot.map v.d_pointers

/-- `RDMarkerView::selectedMarker()` -/
def RDMarkerView.selectedMarker (v : RDMarkerView) : PointerRole :=
  v.d_selected_marker

/-- `RDMarkerView::hasUnsavedChanges()` -/
def RDMarkerView.hasUnsavedChanges (v : RDMarkerView) : Bool :=
  v.d_has_unsaved_changes

/-- `RDMarkerView::sampleRate()` -/
def RDMarkerView.sampleRate (v : RDMarkerView) : Nat :=
  v.d_sample_rate

/-- `RDMarkerView::shrinkFactor()` -/
def RDMarkerView.shrinkFactor (v : RDMarkerView) : Int :=
  v.d_shrink_factor

/-- `RDMarkerView::Frame(msec)`: the product is formed in `int64_t`, the divisor
`d_shrink_factor*1152000` in `int`. The division has no result when that divisor is 0
(the program is stopped by the division), which the wrapped product is for the shrink
factors that are multiples of 2^22. -/
def RDMarkerView.Frame (v : RDMarkerView) (msec : Int) : Option Int :=
  if toInt32 (v.d_shrink_factor * 1152000) = 0 then none
  else
    some (toInt32 (Int.tdiv (toInt64 (msec * (v.d_sample_rate : Int)))
      (toInt32 (v.d_shrink_factor * 1152000))))

/-- `RDMarkerView::Msec(frame)`: product and quotient are formed in `int64_t`. -/
def RDMarkerView.Msec (v : RDMarkerView) (frame : Int) : Int :=
  toInt32 (Int.tdiv (toInt64 (frame * v.d_shrink_factor * 1152000)) (v.d_sample_rate : Int))

/-- `RDMarkerView::clear()`; the cursor item is graphics only. -/
def RDMarkerView.clear (v : RDMarkerView) : RDMarkerView :=
  { v with
    d_wheel_angle := 0
    d_scene := false
    d_pointers := fun _ => -1
    d_handles := fun _ _ => none
    d_shrink_factor := 1
    d_max_shrink_factor := 1
    d_pad_size := 0
    d_audio_gain := 900
    d_audio_length := 0
    d_has_unsaved_changes := false
    d_marker_menu_used := false
    d_selected_marker := .LastRole }

/-- `RDMarkerView::RDMarkerView(width,height,parent)` with the system sample rate
`sample_rate`. Members that the constructor does not assign (`d_mouse_pos`, `d_cart_number`,
`d_cut_number`, `d_channels`) are given as 0; the list `d_deleting_roles` starts empty and
the menu actions start enabled. -/
def RDMarkerView.new (width height : Int) (sample_rate : Nat) : RDMarkerView :=
  RDMarkerView.clear
    { d_width := width, d_height := height, d_scene := false, d_sample_rate := sample_rate,
      d_right_margin := 0, d_pointers := fun _ => 0, d_handles := fun _ _ => none,
      d_shrink_factor := 0, d_max_shrink_factor := 0, d_pad_size := 0, d_audio_gain := 0,
      d_audio_length := 0, d_wheel_angle := 0, d_has_unsaved_changes := false,
      d_marker_menu_used := false, d_selected_marker := .LastRole, d_deleting_roles := [],
      d_mouse_pos := 0, d_cart_number := 0, d_cut_number := 0, d_channels := 0,
      d_delete_marker_action := true, d_add_talk_action := true, d_add_segue_action := true,
      d_add_hook_action := true, d_add_fadeup_action := true, d_add_fadedown_action := true }

/-- Store a handle in `d_handles[i][j]`. -/
def RDMarkerView.setHandle (v : RDMarkerView) (i : Fin 10) (j : Fin 2) (h : RDMarkerHandle) :
    RDMarkerView :=
  { v with d_handles := Function.update v.d_handles i (Function.update (v.d_handles i) j (some h)) }

/-- `RDMarkerView::RemoveMarker(role)`: the pointer becomes -1, the items of the role are
taken out of the scene (which must exist), both handle entries become `NULL`. -/
def RDMarkerView.RemoveMarker (v : RDMarkerView) (role : PointerRole) : Option RDMarkerView :=
  match role.slot with
  | none => none
  | some i =>
    if v.d_scene then
      some { v with
        d_pointers := Function.update v.d_pointers i (-1)
        d_handles := Function.update v.d_handles i (fun _ => none) }
    else none

/-- `RDMarkerView::DrawMarker(type,role,handle_pos)`: when the pointer is set, two new
handles are put at `LEFT_MARGIN+Frame(d_pointers[role])`; there is no result without a
scene or when `Frame` has none. The vertical position (`handle_pos`) and the handle shape
(`type`) are graphics only. -/
def RDMarkerView.DrawMarker (v : RDMarkerView) (_type : PointerType) (role : PointerRole)
    (_handle_pos : Int) : Option RDMarkerView :=
  match role.slot with
  | none => none
  | some i =>
    if v.d_pointers i ≥ 0 then
      if v.d_scene then
        (v.Frame (v.d_pointers i)).map fun x =>
          (v.setHandle i 0
            { d_role := role, pos_x := LEFT_MARGIN + x, d_x_diff := 0,
              d_minimum_pos := none, d_minimum_ptr := none,
              d_maximum_pos := none, d_maximum_ptr := none, d_peers := [] }).setHandle i 1
            { d_role := role, pos_x := LEFT_MARGIN + x, d_x_diff := 0,
              d_minimum_pos := none, d_minimum_ptr := none,
              d_maximum_pos := none, d_maximum_ptr := none, d_peers := [] }
      else none
    else some v

/-- The first `if` of the loop body of `RDMarkerView::InterlockMarkerPair` for one `i`: the
limit stops of the start handle (slot `s`; `e` is the slot of start marker + 1). -/
def RDMarkerView.interlockStartAt (v : RDMarkerView) (s e : Fin 10) (i : Fin 2) :
    Option RDMarkerView :=
  match v.d_handles s i with
  | none => some v
  | some hs =>
    (v.d_handles ixCutStart i).bind fun cs =>
      match v.d_handles e i with
      | none =>
        (v.d_handles ixCutEnd i).bind fun ce =>
          some (v.setHandle s i
            ((hs.setMinimum (cs.pos_x - LEFT_MARGIN) (v.d_pointers ixCutStart)).setMaximum
              (ce.pos_x - LEFT_MARGIN) (v.d_pointers ixCutEnd)))
      | some he =>
        some (v.setHandle s i
          ((hs.setMinimum (cs.pos_x - LEFT_MARGIN) (v.d_pointers ixCutStart)).setMaximum
            (he.pos_x - LEFT_MARGIN) (v.d_pointers e)))

/-- The second `if` of the loop body of `RDMarkerView::InterlockMarkerPair` for one `i`:
the limit stops of the end handle. -/
def RDMarkerView.interlockEndAt (v : RDMarkerView) (s e : Fin 10) (i : Fin 2) :
    Option RDMarkerView :=
  match v.d_handles e i with
  | none => some v
  | some he =>
    match v.d_handles s i with
    | none =>
      (v.d_handles ixCutStart i).bind fun cs =>
        (v.d_handles ixCutEnd i).bind fun ce =>
          some (v.setHandle e i
            ((he.setMinimum (cs.pos_x - LEFT_MARGIN) (v.d_pointers ixCutStart)).setMaximum
              (ce.pos_x - LEFT_MARGIN) (v.d_pointers ixCutEnd)))
    | some hs =>
      (v.d_handles ixCutEnd i).bind fun ce =>
        some (v.setHandle e i
          ((he.setMinimum (hs.pos_x - LEFT_MARGIN) (v.d_pointers s)).setMaximum
            (ce.pos_x - LEFT_MARGIN) (v.d_pointers ixCutEnd)))

/-- One pass `i` of the loop of `RDMarkerView::InterlockMarkerPair`. -/
def RDMarkerView.interlockMarkerPairAt (v : RDMarkerView) (s e : Fin 10) (i : Fin 2) :
    Option RDMarkerView :=
  (v.interlockStartAt s e i).bind fun v1 => v1.interlockEndAt s e i

/-- `RDMarkerView::InterlockMarkerPair(start_marker)` -/
def RDMarkerView.InterlockMarkerPair (v : RDMarkerView) (start_marker : PointerRole) :
    Option RDMarkerView :=
  start_marker.slot.bind fun s =>
    (PointerRole.cast (start_marker.toNat + 1)).slot.bind fun e =>
      (v.interlockMarkerPairAt s e 0).bind fun v0 => v0.interlockMarkerPairAt s e 1

/-- One pass `i` of the first loop (FadeUp) of `RDMarkerView::InterlockFadeMarkerPair`. -/
def RDMarkerView.interlockFadeUpAt (v : RDMarkerView) (i : Fin 2) : Option RDMarkerView :=
  match v.d_handles ixFadeUp i with
  | none => some v
  | some hu =>
    (v.d_handles ixCutStart i).bind fun cs =>
      match v.d_handles ixFadeDown i with
      | some hd =>
        some (v.setHandle ixFadeUp i
          ((hu.setMinimum (cs.pos_x - LEFT_MARGIN) (v.d_pointers ixCutStart)).setMaximum
            (hd.pos_x - LEFT_MARGIN) (v.d_pointers ixFadeDown)))
      | none =>
        (v.d_handles ixCutEnd i).bind fun ce =>
          some (v.setHandle ixFadeUp i
            ((hu.setMinimum (cs.pos_x - LEFT_MARGIN) (v.d_pointers ixCutStart)).setMaximum
              (ce.pos_x - LEFT_MARGIN) (v.d_pointers ixCutEnd)))

/-- One pass `i` of the second loop (FadeDown) of `RDMarkerView::InterlockFadeMarkerPair`. -/
def RDMarkerView.interlockFadeDownAt (v : RDMarkerView) (i : Fin 2) : Option RDMarkerView :=
  match v.d_handles ixFadeDown i with
  | none => some v
  | some hd =>
    (v.d_handles ixCutEnd i).bind fun ce =>
      match v.d_handles ixFadeUp i with
      | some hu =>
        some (v.setHandle ixFadeDown i
          ((hd.setMaximum (ce.pos_x - LEFT_MARGIN) (v.d_pointers ixCutEnd)).setMinimum
            (hu.pos_x - LEFT_MARGIN) (v.d_pointers ixFadeUp)))
      | none =>
        (v.d_handles ixCutStart i).bind fun cs =>
          some (v.setHandle ixFadeDown i
            ((hd.setMaximum (ce.pos_x - LEFT_MARGIN) (v.d_pointers ixCutEnd)).setMinimum
              (cs.pos_x - LEFT_MARGIN) (v.d_pointers ixCutStart)))

/-- `RDMarkerView::InterlockFadeMarkerPair()` -/
def RDMarkerView.InterlockFadeMarkerPair (v : RDMarkerView) : Option RDMarkerView :=
  (v.interlockFadeUpAt 0).bind fun v0 =>
    (v0.interlockFadeUpAt 1).bind fun v1 =>
      (v1.interlockFadeDownAt 0).bind fun v2 => v2.interlockFadeDownAt 1

/-- The body of the first loop of `RDMarkerView::updateInterlocks` for one `i`: a set
pointer outside `[CutStart, CutEnd]` is removed, with its partner for the paired roles. -/
def RDMarkerView.swipeStep (v : RDMarkerView) (i : Fin 10) : Option RDMarkerView :=
  let role := PointerRole.cast i.val
  if v.d_pointers i ≥ 0 ∧
      (v.d_pointers i < v.d_pointers ixCutStart ∨ v.d_pointers i > v.d_pointers ixCutEnd) then
    (v.RemoveMarker role).bind fun v1 =>
      match role with
      | .TalkStart | .SegueStart | .HookStart => v1.RemoveMarker (PointerRole.cast (i.val + 1))
      | .TalkEnd | .SegueEnd | .HookEnd => v1.RemoveMarker (PointerRole.cast (i.val - 1))
      | .CutStart | .CutEnd | .FadeUp | .FadeDown | .LastRole => some v1
  else some v

/-- The first loop of `RDMarkerView::updateInterlocks`, `i` from 2 to `LastRole`-1. -/
def RDMarkerView.swipeLoop (v : RDMarkerView) : Option RDMarkerView :=
  ([2, 3, 4, 5, 6, 7, 8, 9] : List (Fin 10)).foldlM RDMarkerView.swipeStep v

/-- The body of the second loop of `RDMarkerView::updateInterlocks` for one `i`: the limit
stops of the Cut Start and Cut End handles. -/
def RDMarkerView.cutStopsAt (v : RDMarkerView) (i : Fin 2) : Option RDMarkerView :=
  (v.d_handles ixCutStart i).bind fun hs =>
    (v.d_handles ixCutEnd i).bind fun he =>
      some ((v.setHandle ixCutStart i
          ((hs.setMinimum 0 0).setMaximum (he.pos_x - LEFT_MARGIN) (v.d_pointers ixCutEnd))).setHandle
        ixCutEnd i
          ((he.setMinimum (hs.pos_x - LEFT_MARGIN) (v.d_pointers ixCutStart)).setMaximum
            (v.d_right_margin - LEFT_MARGIN) v.d_audio_length))

/-- The second half of `RDMarkerView::updateInterlocks` ("Update the limit stops"). -/
def RDMarkerView.limitStops (v : RDMarkerView) : Option RDMarkerView :=
  (v.cutStopsAt 0).bind fun v2 =>
    (v2.cutStopsAt 1).bind fun v3 =>
      (v3.InterlockMarkerPair .TalkStart).bind fun v4 =>
        (v4.InterlockMarkerPair .SegueStart).bind fun v5 =>
          (v5.InterlockMarkerPair .HookStart).bind fun v6 => v6.InterlockFadeMarkerPair

/-- `RDMarkerView::updateInterlocks()` -/
def RDMarkerView.updateInterlocks (v : RDMarkerView) : Option RDMarkerView :=
  v.swipeLoop.bind fun v1 => v1.limitStops

/-- `RDMarkerView::updatePosition(role,ptr)` -/
def RDMarkerView.updatePosition (v : RDMarkerView) (role : PointerRole) (ptr : Int) :
    Option RDMarkerView :=
  role.slot.bind fun i =>
    RDMarkerView.updateInterlocks
      { v with d_pointers := Function.update v.d_pointers i ptr, d_has_unsaved_changes := true }

/-- The ten `DrawMarker` calls of `RDMarkerView::WriteWave`, in source order. -/
def RDMarkerView.drawMarkers (v : RDMarkerView) : Option RDMarkerView :=
  (v.DrawMarker .Start .FadeDown 100).bind fun v1 =>
  (v1.DrawMarker .End .FadeUp 100).bind fun v2 =>
  (v2.DrawMarker .Start .HookStart 80).bind fun v3 =>
  (v3.DrawMarker .End .HookEnd 80).bind fun v4 =>
  (v4.DrawMarker .Start .TalkStart 60).bind fun v5 =>
  (v5.DrawMarker .End .TalkEnd 60).bind fun v6 =>
  (v6.DrawMarker .Start .SegueStart 40).bind fun v7 =>
  (v7.DrawMarker .End .SegueEnd 40).bind fun v8 =>
  (v8.DrawMarker .Start .CutStart 20).bind fun v9 =>
  v9.DrawMarker .End .CutEnd 20

/-- `RDMarkerView::WriteWave()`, for a waveform pixmap of width `wave_width` (the pixmap
comes from the wave factory): a new scene, the right margin, the ten markers, then
`updateInterlocks`. -/
def RDMarkerView.WriteWave (v : RDMarkerView) (wave_width : Int) : Option RDMarkerView :=
  (RDMarkerView.drawMarkers
    { v with d_scene := true, d_right_margin := LEFT_MARGIN + wave_width }).bind
    fun v1 => v1.updateInterlocks

/-- `RDMarkerView::setSelectedMarker(role)`; the enlarged polygon of a selected handle is
graphics only. -/
def RDMarkerView.setSelectedMarker (v : RDMarkerView) (role : PointerRole) : RDMarkerView :=
  { v with d_selected_marker := role }

/-! ## Dragging a handle -/

/-- Move the peer items of a handle to `x` (`peer->setPos(x, peer->pos().y())`). -/
def RDMarkerView.movePeers (v : RDMarkerView) (i : Fin 10) (peers : List (Fin 2)) (x : Int) :
    RDMarkerView :=
  { v with d_handles := fun a b =>
      if a = i ∧ b ∈ peers then (v.d_handles a b).map (fun p => { p with pos_x := x })
      else v.d_handles a b }

/-- `RDMarkerHandle::mousePressEvent` with the left button, on the handle
`d_handles[role][j]`, at scene position `scene_x`. -/
def RDMarkerHandle.mousePressEvent (v : RDMarkerView) (role : PointerRole) (j : Fin 2)
    (scene_x : Int) : Option RDMarkerView :=
  role.slot.bind fun i =>
    (v.d_handles i j).bind fun h =>
      some ((v.setHandle i j
        { h with
          d_x_diff := h.pos_x - scene_x
          d_peers := if h.d_peers = [] then
              (([0, 1] : List (Fin 2)).filter fun b => (v.d_handles i b).isSome)
            else h.d_peers }).setSelectedMarker h.d_role)

/-- The "Check Limit Stops" part of `RDMarkerHandle::mouseMoveEvent`, for the raw position
`x = scenePos().x()+d_x_diff-LEFT_MARGIN`: the position used, the new `d_x_diff` and
`limit_ptr`. Reading a stop that was never stored has no result. -/
def RDMarkerHandle.checkLimitStops (h : RDMarkerHandle) (scene_x : Int) :
    Option (Int × Int × Int) :=
  h.d_minimum_pos.bind fun minimum_pos =>
    if minimum_pos ≥ 0 ∧ scene_x + h.d_x_diff - LEFT_MARGIN < minimum_pos then
      h.d_minimum_ptr.bind fun minimum_ptr =>
        some (minimum_pos, minimum_pos - scene_x + LEFT_MARGIN, minimum_ptr)
    else
      h.d_maximum_pos.bind fun maximum_pos =>
        if maximum_pos ≥ 0 ∧ scene_x + h.d_x_diff - LEFT_MARGIN > maximum_pos then
          h.d_maximum_ptr.bind fun maximum_ptr =>
            some (maximum_pos, maximum_pos - scene_x + LEFT_MARGIN, maximum_ptr)
        else some (scene_x + h.d_x_diff - LEFT_MARGIN, h.d_x_diff, -1)

/-- The pointer value that `RDMarkerHandle::mouseMoveEvent` hands to `updatePosition`:
`1000*pframes/sampleRate` with `pframes=1152*x*shrinkFactor` (formed in `int`) when no
limit stop is hit, the pointer of the stop otherwise. -/
def RDMarkerHandle.dragPointer (v : RDMarkerView) (x limit_ptr : Int) : Int :=
  if limit_ptr < 0 then
    toInt32 (Int.tdiv (toInt64 (1000 * toInt64 (toInt32 (1152 * x * v.shrinkFactor))))
      (toInt64 (v.sampleRate : Int)))
  else limit_ptr

/-- `RDMarkerHandle::mouseMoveEvent` on the handle `d_handles[role][j]`, at scene position
`scene_x`. -/
def RDMarkerHandle.mouseMoveEvent (v : RDMarkerView) (role : PointerRole) (j : Fin 2)
    (scene_x : Int) : Option RDMarkerView :=
  role.slot.bind fun i =>
    (v.d_handles i j).bind fun h =>
      (h.checkLimitStops scene_x).bind fun r =>
        RDMarkerView.updatePosition
          ((v.setHandle i j { h with d_x_diff := r.2.1 }).movePeers i h.d_peers
            (scene_x + r.2.1))
          h.d_role (RDMarkerHandle.dragPointer v r.1 r.2.2)

/-! ## The context menu -/

/-- `RDMarkerView::updateMenuData()` -/
def RDMarkerView.updateMenuData (v : RDMarkerView) : RDMarkerView :=
  let can_add : Bool :=
    decide (v.d_deleting_roles.length = 0) &&
    decide (v.Msec v.d_mouse_pos ≥ v.d_pointers ixCutStart) &&
    decide (v.Msec v.d_mouse_pos < v.d_pointers ixCutEnd)
  let can_delete : Bool :=
    v.d_marker_menu_used &&
    !decide (PointerRole.CutStart ∈ v.d_deleting_roles) &&
    !decide (PointerRole.CutEnd ∈ v.d_deleting_roles)
  { v with
    d_delete_marker_action := can_delete
    d_add_fadedown_action :=
      can_add && decide (v.d_pointers ixFadeDown < 0) &&
        (decide (v.d_pointers ixFadeUp < 0) ||
          decide (v.d_pointers ixFadeUp < v.Msec v.d_mouse_pos))
    d_add_fadeup_action :=
      can_add && decide (v.d_pointers ixFadeUp < 0) &&
        (decide (v.d_pointers ixFadeDown < 0) ||
          decide (v.d_pointers ixFadeDown > v.Msec v.d_mouse_pos))
    d_add_hook_action := can_add && decide (v.d_pointers ixHookStart < 0)
    d_add_segue_action := can_add && decide (v.d_pointers ixSegueStart < 0)
    d_add_talk_action := can_add && decide (v.d_pointers ixTalkStart < 0) }

/-- `RDMarkerView::processRightClick(role,pos)` up to the display of the menu:
`d_main_menu->exec()` emits `aboutToShow()`, which is connected to `updateMenuData()`. The
action the user then picks is a separate step. -/
def RDMarkerView.processRightClick (v : RDMarkerView) (role : PointerRole) : RDMarkerView :=
  RDMarkerView.updateMenuData
    { v with
      d_deleting_roles :=
        ([role] ++
          (if role = .SegueStart ∨ role = .TalkStart ∨ role = .HookStart then
            [PointerRole.cast (role.toNat + 1)] else [])) ++
          (if role = .SegueEnd ∨ role = .TalkEnd ∨ role = .HookEnd then
            [PointerRole.cast (role.toNat - 1)] else [])
      d_marker_menu_used := true }

/-- The mouse buttons that `RDMarkerView::mousePressEvent` distinguishes. -/
inductive MouseButton where
  | LeftButton
  | MidButton
  | RightButton
  | OtherButton
  deriving DecidableEq, Repr

/-- `RDMarkerView::mousePressEvent(e)` for a press at widget position `e_x`, up to the
display of the menu (which runs `updateMenuData`). -/
def RDMarkerView.mousePressEvent (v : RDMarkerView) (e_x : Int) (button : MouseButton) :
    RDMarkerView :=
  if e_x ≤ LEFT_MARGIN ∨ e_x > v.d_right_margin then v
  else if v.d_marker_menu_used then
    { v with d_mouse_pos := e_x - LEFT_MARGIN, d_marker_menu_used := false }
  else
    match button with
    | .RightButton =>
      RDMarkerView.updateMenuData
        { v with d_mouse_pos := e_x - LEFT_MARGIN, d_deleting_roles := [] }
    | _ => { v with d_mouse_pos := e_x - LEFT_MARGIN }

/-- `RDMarkerView::deleteMarkerData()` -/
def RDMarkerView.deleteMarkerData (v : RDMarkerView) : Option RDMarkerView :=
  (v.d_deleting_roles.foldlM RDMarkerView.RemoveMarker v).map fun v1 =>
    { v1 with d_deleting_roles := [], d_has_unsaved_changes := true }

/-! ## Saving and loading the pointers -/

/-- The field names that the constructor pushes to `d_pointer_fields`, in order. -/
def RDMarkerView.d_pointer_fields : List String :=
  ["START_POINT", "END_POINT", "TALK_START_POINT", "TALK_END_POINT", "SEGUE_START_POINT",
   "SEGUE_END_POINT", "HOOK_START_POINT", "HOOK_END_POINT", "FADEUP_POINT", "FADEDOWN_POINT"]

/-- The values 0..`LastRole`-1 of the loop variable of `save()` and `LoadCutData()`. -/
def allSlots : List (Fin 10) := [0, 1, 2, 3, 4, 5, 6, 7, 8, 9]

/-- `QString::left(n)`: the `n` leftmost characters; the whole string when `n` is negative
or not less than the length. -/
def QString.left (s : String) (n : Int) : String :=
  if n < 0 ∨ n ≥ s.length then s else String.mk (s.data.take n.toNat)

/-- The text `d_pointer_fields.at(i)+QString().sprintf("=%d,",d_pointers[i])` that one pass
of the loop of `save()` appends. -/
def RDMarkerView.saveField (v : RDMarkerView) (i : Fin 10) : String :=
  RDMarkerView.d_pointer_fields.getD i.val "" ++ ("=" ++ toString (v.d_pointers i) ++ ",")

/-- The statement text that `RDMarkerView::save()` hands to `RDSqlQuery::apply`. `cut_name`
stands for `RDEscapeString(RDCut::cutName(d_cart_number,d_cut_number))`. -/
def RDMarkerView.saveSql (v : RDMarkerView) (cut_name : String) : String :=
  QString.left (allSlots.foldl (fun sql i => sql ++ v.saveField i) "update CUTS set ")
      (((allSlots.foldl (fun sql i => sql ++ v.saveField i) "update CUTS set ").length : Int) - 1)
    ++ " where " ++ "CUT_NAME=\"" ++ cut_name ++ "\""

/-- Modelled from the spec: the catalog collaborator is not in this source; a record of the
CUTS table is a map from field name to integer ("one persisted integer field per marker
role"). -/
abbrev CutRecord := String → Int

/-- Modelled from the spec: the CUTS table of the catalog collaborator, the record of each
cut name that exists. -/
abbrev Catalog := String → Option CutRecord

/-- A statement `update CUTS set f1=v1,...,fn=vn where CUT_NAME="name"`. -/
structure UpdateCuts where
  assignments : List (String × Int)
  cut_name : String

/-- The text of an update statement: the assignments `field=value` separated by commas. -/
def UpdateCuts.text (u : UpdateCuts) : String :=
  "update CUTS set " ++ ",".intercalate (u.assignments.map fun a => a.1 ++ ("=" ++ toString a.2))
    ++ " where " ++ "CUT_NAME=\"" ++ u.cut_name ++ "\""

/-- Modelled from the spec: the effect of `RDSqlQuery::apply` for an update statement is a
record-level write; the record of the named cut, when it exists, takes the assigned values
from left to right. -/
def RDSqlQuery.apply (u : UpdateCuts) (db : Catalog) : Catalog :=
  fun name =>
    if name = u.cut_name then
      (db name).map fun r => u.assignments.foldl (fun r a => Function.update r a.1 a.2) r
    else db name

/-- The update statement of `RDMarkerView::save()`: for each `i`, field
`d_pointer_fields.at(i)` is assigned `d_pointers[i]`. -/
def RDMarkerView.saveStatement (v : RDMarkerView) (cut_name : String) : UpdateCuts :=
  { assignments := allSlots.map fun i => (RDMarkerView.d_pointer_fields.getD i.val "", v.d_pointers i)
    cut_name := cut_name }

/-- `RDMarkerView::save()`: the catalog after the update, and the new state. -/
def RDMarkerView.save (v : RDMarkerView) (db : Catalog) (cut_name : String) :
    Catalog × RDMarkerView :=
  (RDSqlQuery.apply (v.saveStatement cut_name) db, { v with d_has_unsaved_changes := false })

/-- `RDMarkerView::LoadCutData()`: the query selects `d_pointer_fields.join(",")` and
`CHANNELS` of the cut; when a record is found, column `i` goes to `d_pointers[i]` and
column 10 to `d_channels`. -/
def RDMarkerView.LoadCutData (v : RDMarkerView) (db : Catalog) (cut_name : String) :
    Bool × RDMarkerView :=
  match db cut_name with
  | none => (false, v)
  | some r =>
    (true, { v with
      d_pointers := fun i => r (RDMarkerView.d_pointer_fields.getD i.val "")
      d_channels := r "CHANNELS" })

/-! ## Notions used in the statements and proofs about the marker view -/

/-- A handle with its four limit-stop fields blanked. -/
def RDMarkerHandle.clearStops (h : RDMarkerHandle) : RDMarkerHandle :=
  { h with d_minimum_pos := none, d_minimum_ptr := none,
           d_maximum_pos := none, d_maximum_ptr := none }

/-- Two states that differ at most in the limit stops stored in their handles. -/
def RDMarkerView.sameButStops (v w : RDMarkerView) : Prop :=
  ∃ hs, w = { v with d_handles := hs } ∧
    ∀ a b, (hs a b).map RDMarkerHandle.clearStops =
      (v.d_handles a b).map RDMarkerHandle.clearStops

/-- Two states that differ at most in the handle table. -/
def RDMarkerView.sameButHandles (v w : RDMarkerView) : Prop :=
  ∃ hs, w = { v with d_handles := hs }

/-- Both handles of Cut Start and of Cut End exist. -/
def RDMarkerView.cutHandles (v : RDMarkerView) : Prop :=
  ∀ j : Fin 2, (v.d_handles ixCutStart j).isSome = true ∧ (v.d_handles ixCutEnd j).isSome = true

/-- The state after `RemoveMarker` on slot `i`. -/
def RDMarkerView.removed (v : RDMarkerView) (i : Fin 10) : RDMarkerView :=
  { v with
    d_pointers := Function.update v.d_pointers i (-1)
    d_handles := Function.update v.d_handles i (fun _ => none) }

/-- What the swipe loop may change: pointers and handles of slots 2..9 may be cleared. -/
def RDMarkerView.swipeRel (v w : RDMarkerView) : Prop :=
  ∃ p hs, w = { v with d_pointers := p, d_handles := hs } ∧
    (∀ j, p j = v.d_pointers j ∨ (2 ≤ j.val ∧ p j = -1)) ∧
    (∀ a b, hs a b = v.d_handles a b ∨ (2 ≤ a.val ∧ hs a b = none))

/-- Slot `j` is unset (negative) or lies within `[CutStart, CutEnd]`. -/
def RDMarkerView.inCut (v : RDMarkerView) (j : Fin 10) : Prop :=
  v.d_pointers j < 0 ∨
    (v.d_pointers ixCutStart ≤ v.d_pointers j ∧ v.d_pointers j ≤ v.d_pointers ixCutEnd)

/-- A view 1000 pixels wide, of sample rate 44100, opened by `setCut` on a cut whose row
holds the given ten pointers and whose audio has energy size 500 (waveform 500 pixels wide
at shrink factor 1): the constructor, the assignments of `LoadCutData` and `setCut`, then
`WriteWave`. -/
def viewOfRow (row : Fin 10 → Int) : Option RDMarkerView :=
  RDMarkerView.WriteWave
    { RDMarkerView.new 1000 100 44100 with
      d_pointers := row, d_right_margin := LEFT_MARGIN, d_audio_length := 13061,
      d_max_shrink_factor := 1, d_pad_size := 499, d_shrink_factor := 1 }
    500

/-- The pointer row Cut 0..10000, Talk 100..200, all other markers unset. -/
def talkRow : Fin 10 → Int :=
  fun i => if i = ixCutStart then 0 else if i = ixCutEnd then 10000
    else if i = ixTalkStart then 100 else if i = ixTalkEnd then 200 else -1

/-- A catalog with the single cut `000001_001`, all of whose integer fields are 0. -/
def oneCutCatalog : Catalog :=
  fun name => if name = "000001_001" then some (fun _ => 0) else none

/-! ## rdimport: dropbox constants and the stability tracker -/

/-- The constant `RDIMPORT_DROPBOX_SCAN_INTERVAL` of rdimport.h (seconds between polls). -/
def RDIMPORT_DROPBOX_SCAN_INTERVAL : Nat := 5

/-- The constant `RDIMPORT_DROPBOX_PASSES` of rdimport.h. -/
def RDIMPORT_DROPBOX_PASSES : Nat := 3

/-- The entry `MainObject::DropboxList` of rdimport.h (the spec's WatchedFile: path,
observed_size, pass_count, checked, failed). -/
structure DropboxList where
  filename : String
  size : Nat
  pass : Nat
  checked : Bool
  failed : Bool
  deriving DecidableEq, Repr

/-- Modelled from the spec: the store of the dropbox run, which rdimport.h declares as
`import_dropbox_list` and, behind `GetCachedTimestamp`/`WriteTimestampCache`, the per-file
timestamp cache keyed by filename (spec 6); the list is held as the lookup of the entry of
a filename. -/
structure Dropbox where
  import_dropbox_list : String → Option DropboxList
  timestamp_cache : String → Option Nat

/-- Replace the entry of `filename` in `import_dropbox_list` (`none` removes the file from
tracking). -/
def Dropbox.setEntry (d : Dropbox) (filename : String) (e : Option DropboxList) : Dropbox :=
  { d with import_dropbox_list := Function.update d.import_dropbox_list filename e }

/-- The empty dropbox store: nothing tracked, nothing cached. -/
def Dropbox.empty : Dropbox :=
  { import_dropbox_list := fun _ => none, timestamp_cache := fun _ => none }

/-! ## rdimport: the metadata pattern engine -/

/-- The fixed field set of a MetadataRecord (spec 3). -/
inductive MetadataField where
  | artist
  | title
  | album
  | composer
  | conductor
  | publisher
  | label
  | client
  | agency
  | song_id
  | description
  | outcue
  | year
  | bpm
  | user_defined
  deriving DecidableEq, Repr, Fintype

/-- A field value: string fields pass through verbatim, `year` and `bpm` are integers. -/
inductive FieldValue where
  | text (s : String)
  | number (n : Int)
  deriving DecidableEq, Repr

/-- A MetadataRecord: each field of the fixed field set is a value or unset (`none`). -/
abbrev MetadataRecord := MetadataField → Option FieldValue

/-- The record with every field unset. -/
def MetadataRecord.empty : MetadataRecord := fun _ => none

/-- The table from placeholder letters to metadata fields. The spec gives `%a` (artist) and
`%t` (title) and uses `%y`; the letters of the other fields are not given, so the engine
takes the table as an argument. -/
abbrev PlaceholderTable := Char → Option MetadataField

/-- The placeholder letters that the spec names: `%a` artist, `%t` title, `%y` year. -/
def specLetters : PlaceholderTable := fun c =>
  if c = 'a' then some .artist else if c = 't' then some .title
  else if c = 'y' then some .year else none

/-- An element of a compiled pattern: a literal character or the placeholder of a field. -/
inductive PatternToken where
  | literal (c : Char)
  | placeholder (f : MetadataField)
  deriving DecidableEq, Repr

/-- The compile error of the pattern engine. -/
inductive PatternError where
  | InvalidPattern
  deriving DecidableEq, Repr

/-- Modelled from the spec: the pattern engine is in rdimport.cpp, which is not part of
this source. Splits a pattern into literal characters and placeholders `%x`, left to
right; a `%` that is not followed by the letter of a field has no tokenization. -/
def tokenize (letters : PlaceholderTable) : List Char → Option (List PatternToken)
  | [] => some []
  | c :: rest =>
    if c = '%' then
      match rest with
      | [] => none
      | x :: rest2 =>
        match letters x with
        | none => none
        | some f => (tokenize letters rest2).map fun ts => PatternToken.placeholder f :: ts
    else (tokenize letters rest).map fun ts => PatternToken.literal c :: ts

/-- Whether some placeholder is immediately followed by another placeholder. -/
def adjacentPlaceholders : List PatternToken → Bool
  | [] => false
  | [_] => false
  | a :: b :: rest =>
    match a, b with
    | .placeholder _, .placeholder _ => true
    | _, _ => adjacentPlaceholders (b :: rest)

/-- Modelled from the spec: `compile(pattern)` (spec 4.4) yields the compiled pattern or
fails with `InvalidPattern`; a placeholder immediately followed by another placeholder with
no literal separator is a compile-time error. -/
def compile (letters : PlaceholderTable) (pattern : String) :
    Except PatternError (List PatternToken) :=
  match tokenize letters pattern.toList with
  | none => .error .InvalidPattern
  | some ts => if adjacentPlaceholders ts = true then .error .InvalidPattern else .ok ts

/-- Modelled from the spec: `MainObject::VerifyPattern(pattern)` of rdimport.h, whose body
is not part of this source: whether the pattern compiles. -/
def VerifyPattern (letters : PlaceholderTable) (pattern : String) : Bool :=
  match compile letters pattern with
  | .ok _ => true
  | .error _ => false

/-- The value stored for a field: `year` and `bpm` parse as integers and stay unset on
non-numeric content, the other fields take the text verbatim. -/
def fieldValue (f : MetadataField) (s : List Char) : Option FieldValue :=
  if f = .year ∨ f = .bpm then (String.mk s).toInt?.map FieldValue.number
  else some (FieldValue.text (String.mk s))

/-- Modelled from the spec: `extract(compiled, filename)` (spec 4.4), left to right. A
literal must equal the next character of the filename. A placeholder that is followed by a
literal takes the characters up to the first occurrence of that literal; a placeholder at
the end of the pattern takes the rest of the filename, and is left unset when nothing is
left. A literal that does not match, or text left over after the pattern, makes the result
absent (`none`): extraction is all-or-nothing. -/
def extract : List PatternToken → List Char → MetadataRecord → Option MetadataRecord
  | [], [], r => some r
  | [], _ :: _, _ => none
  | .literal c :: ts, name, r =>
    match name with
    | [] => none
    | d :: name2 => if c = d then extract ts name2 r else none
  | .placeholder f :: ts, name, r =>
    match ts with
    | [] => if name = [] then some r else some (Function.update r f (fieldValue f name))
    | .literal c :: _ =>
      extract ts (name.dropWhile fun d => d != c)
        (Function.update r f (fieldValue f (name.takeWhile fun d => d != c)))
    | .placeholder _ :: _ => none

/-- Modelled from the spec: `MainObject::RunPattern(pattern,filename,...)` of rdimport.h,
whose body is not part of this source: compile the pattern and extract the record from the
filename; `none` is the absent record. -/
def RunPattern (letters : PlaceholderTable) (pattern filename : String) :
    Option MetadataRecord :=
  match compile letters pattern with
  | .error _ => none
  | .ok ts => extract ts filename.toList MetadataRecord.empty

/-! ## Notions used in the statements about swipe removal -/

/-- The explicit pair table of the marker slots: Talk Start with Talk End, Segue Start with
Segue End, Hook Start with Hook End; every other slot has no partner and is mapped to
itself. -/
def partnerSlot (i : Fin 10) : Fin 10 :=
  if i = ixTalkStart then ixTalkEnd else if i = ixTalkEnd then ixTalkStart
  else if i = ixSegueStart then ixSegueEnd else if i = ixSegueEnd then ixSegueStart
  else if i = ixHookStart then ixHookEnd else if i = ixHookEnd then ixHookStart
  else i

/-- The swipe test of `updateInterlocks` on a pointer table: slot `i` is set and lies
outside `[CutStart, CutEnd]`. -/
def swiped (p : Fin 10 → Int) (i : Fin 10) : Prop :=
  0 ≤ p i ∧ (p i < p ixCutStart ∨ p ixCutEnd < p i)

/-- The pointer table after one pass of the swipe loop. -/
def swipePtr (p : Fin 10 → Int) (i : Fin 10) : Fin 10 → Int :=
  if 0 ≤ p i ∧ (p i < p ixCutStart ∨ p ixCutEnd < p i) then
    Function.update (Function.update p i (-1)) (partnerSlot i) (-1)
  else p

/-! ## The explicit pair table of the design notes -/

/-- The explicit adjacency table of marker-pair relationships that the design notes ask
for in place of `role+1` / `role-1`: (start role, end role). -/
def markerPairs : List (PointerRole × PointerRole) :=
  [(.TalkStart, .TalkEnd), (.SegueStart, .SegueEnd), (.HookStart, .HookEnd)]

/-- The partner of a role in `markerPairs`, if the table holds the role. -/
def pairPartner (role : PointerRole) : Option PointerRole :=
  match markerPairs.find? (fun pr => decide (pr.1 = role ∨ pr.2 = role)) with
  | some pr => some (if pr.1 = role then pr.2 else pr.1)
  | none => none

/-- The roles to delete for a right-clicked role according to the pair table: the role
itself, and its partner when it has one. -/
def deletingRolesByTable (role : PointerRole) : List PointerRole :=
  role :: (pairPartner role).toList

/-- The Talk End handle of the view opened on `talkRow`: drawn at scene x 27, with the
stops `(3, 100)` (Talk Start) and `(382, 10000)` (Cut End). -/
def talkEndHandle : RDMarkerHandle :=
  { d_role := .TalkEnd, pos_x := 27, d_x_diff := 0, d_minimum_pos := some 3,
    d_minimum_ptr := some 100, d_maximum_pos := some 382, d_maximum_ptr := some 10000,
    d_peers := [] }

/-- The pointer row Cut 100..10000, Talk 150..200, all other markers unset. -/
def lateCutRow : Fin 10 → Int :=
  fun i => if i = ixCutStart then 100 else if i = ixCutEnd then 10000
    else if i = ixTalkStart then 150 else if i = ixTalkEnd then 200 else -1

/-- The pointer row Cut 0..80000000, Talk 100..200, all other markers unset. -/
def longCutRow : Fin 10 → Int :=
  fun i => if i = ixCutStart then 0 else if i = ixCutEnd then 80000000
    else if i = ixTalkStart then 100 else if i = ixTalkEnd then 200 else -1

/-! ## RDMarkerView::setCut -/

/-- The loop `while(energySize()>=(d_width*d_max_shrink_factor)) d_max_shrink_factor*=2`
of `setCut`, started with `d_max_shrink_factor = p`; the product and the doubling are
formed in `int`; `energy` is the value of `d_wave_factory->energySize()`, an `int`.
`fuel` bounds the number of passes through the body: the result is `none` when the
condition still holds after `fuel` passes. -/
def shrinkLoop : Nat → Int → Int → Int → Option Int
  | 0, energy, width, p => if energy ≥ toInt32 (width * p) then none else some p
  | fuel + 1, energy, width, p =>
    if energy ≥ toInt32 (width * p) then shrinkLoop fuel energy width (toInt32 (p * 2))
    else some p

/-- The expression `(d_width*d_max_shrink_factor-energySize())/d_max_shrink_factor-1` that
`setCut` stores in `d_pad_size`, formed in `int`, for a factor `p` other than 0. -/
def padSize (width p energy : Int) : Int :=
  toInt32 (Int.tdiv (toInt32 (toInt32 (width * p) - energy)) p - 1)

/-- The assignments of `setCut` between the wave factory call and `WriteWave()`: the audio
length, the loop for `d_max_shrink_factor`, the pad size and the initial shrink factor, for
the energy size `e`. There is no result when a divisor is 0 (the sample rate in the audio
length, the factor in the pad size) or when the loop does not end within `fuel` passes. -/
def RDMarkerView.setCutFactors (v : RDMarkerView) (fuel : Nat) (e : Int) :
    Option RDMarkerView :=
  if toInt64 (v.d_sample_rate : Int) = 0 then none
  else
    (shrinkLoop fuel e v.d_width 1).bind fun p =>
      if p = 0 then none
      else
        some { v with
          d_audio_length :=
            toInt32 (Int.tdiv (toInt64 (e * 1152000)) (toInt64 (v.d_sample_rate : Int)))
          d_max_shrink_factor := p
          d_pad_size := padSize v.d_width p e
          d_shrink_factor := p }

/-- `RDMarkerView::setCut(err_msg,cartnum,cutnum)`. `cut_name` stands for the escaped cut
name of the query; `energySize` is the energy size that the wave factory reports for the
cut, `none` when `d_wave_factory->setCut` fails; `wave_width` is the width of the waveform
pixmap. The result is the return value and the new state; there is none when the loop
does not end within `fuel` passes, a division has no result or a `NULL` handle is
dereferenced. -/
def RDMarkerView.setCut (v : RDMarkerView) (fuel : Nat) (db : Catalog) (cut_name : String)
    (cartnum : Nat) (cutnum : Int) (energySize : Option Int) (wave_width : Int) :
    Option (Bool × RDMarkerView) :=
  if (RDMarkerView.LoadCutData
      { v.clear with d_cart_number := cartnum, d_cut_number := cutnum,
                     d_right_margin := LEFT_MARGIN } db cut_name).1 = true then
    match energySize with
    | none =>
      some (false, (RDMarkerView.LoadCutData
        { v.clear with d_cart_number := cartnum, d_cut_number := cutnum,
                       d_right_margin := LEFT_MARGIN } db cut_name).2)
    | some e =>
      (RDMarkerView.setCutFactors (RDMarkerView.LoadCutData
          { v.clear with d_cart_number := cartnum, d_cut_number := cutnum,
                         d_right_margin := LEFT_MARGIN } db cut_name).2 fuel e).bind fun v1 =>
        (v1.WriteWave wave_width).bind fun v2 =>
        v2.updateInterlocks.map fun v3 => (true, v3)
  else
    some (false, (RDMarkerView.LoadCutData
      { v.clear with d_cart_number := cartnum, d_cut_number := cutnum,
                     d_right_margin := LEFT_MARGIN } db cut_name).2)

/-! ## Theorems -/

theorem sameButStops_refl (v : RDMarkerView) : v.sameButStops v :=
  ⟨v.d_handles, rfl, fun _ _ => rfl⟩

theorem sameButStops_trans {u v w : RDMarkerView} (h1 : u.sameButStops v)
    (h2 : v.sameButStops w) : u.sameButStops w := by
  obtain ⟨a, rfl, ha⟩ := h1
  obtain ⟨b, rfl, hb⟩ := h2
  exact ⟨b, rfl, fun x y => (hb x y).trans (ha x y)⟩

theorem sameButStops_setHandle (v : RDMarkerView) (i : Fin 10) (j : Fin 2)
    (h0 h : RDMarkerHandle) (hv : v.d_handles i j = some h0)
    (hh : h.clearStops = h0.clearStops) : v.sameButStops (v.setHandle i j h) := by
  refine ⟨_, rfl, fun a b => ?_⟩
  by_cases ha : a = i
  · subst ha
    by_cases hb : b = j
    · subst hb
      simp [hv, hh]
    · simp [Function.update_noteq hb]
  · simp [Function.update_noteq ha]

theorem sameButStops_pointers {v w : RDMarkerView} (h : v.sameButStops w) :
    w.d_pointers = v.d_pointers := by
  obtain ⟨a, rfl, -⟩ := h
  rfl

theorem sameButStops_isSome {v w : RDMarkerView} (h : v.sameButStops w) (a : Fin 10)
    (b : Fin 2) : (w.d_handles a b).isSome = (v.d_handles a b).isSome := by
  obtain ⟨hs, rfl, ha⟩ := h
  have := congrArg Option.isSome (ha a b)
  simpa using this

theorem sameButStops_cutHandles {v w : RDMarkerView} (h : v.sameButStops w)
    (hc : v.cutHandles) : w.cutHandles := by
  intro j
  rw [sameButStops_isSome h, sameButStops_isSome h]
  exact hc j

theorem interlockStartAt_same {v w : RDMarkerView} {s e : Fin 10} {i : Fin 2}
    (h : v.interlockStartAt s e i = some w) : v.sameButStops w := by
  unfold RDMarkerView.interlockStartAt at h
  split at h
  · cases h; exact sameButStops_refl v
  · next hs hhs =>
    simp only [Option.bind_eq_some] at h
    obtain ⟨cs, -, h⟩ := h
    split at h
    · simp only [Option.bind_eq_some] at h
      obtain ⟨ce, -, h⟩ := h
      cases h; exact sameButStops_setHandle _ _ _ hs _ hhs rfl
    · cases h; exact sameButStops_setHandle _ _ _ hs _ hhs rfl

theorem interlockEndAt_same {v w : RDMarkerView} {s e : Fin 10} {i : Fin 2}
    (h : v.interlockEndAt s e i = some w) : v.sameButStops w := by
  unfold RDMarkerView.interlockEndAt at h
  split at h
  · cases h; exact sameButStops_refl v
  · next he hhe =>
    split at h
    · simp only [Option.bind_eq_some] at h
      obtain ⟨cs, -, ce, -, h⟩ := h
      cases h; exact sameButStops_setHandle _ _ _ he _ hhe rfl
    · simp only [Option.bind_eq_some] at h
      obtain ⟨ce, -, h⟩ := h
      cases h; exact sameButStops_setHandle _ _ _ he _ hhe rfl

theorem interlockMarkerPairAt_same {v w : RDMarkerView} {s e : Fin 10} {i : Fin 2}
    (h : v.interlockMarkerPairAt s e i = some w) : v.sameButStops w := by
  unfold RDMarkerView.interlockMarkerPairAt at h
  simp only [Option.bind_eq_some] at h
  obtain ⟨v1, h1, h2⟩ := h
  exact sameButStops_trans (interlockStartAt_same h1) (interlockEndAt_same h2)

theorem InterlockMarkerPair_same {v w : RDMarkerView} {r : PointerRole}
    (h : v.InterlockMarkerPair r = some w) : v.sameButStops w := by
  unfold RDMarkerView.InterlockMarkerPair at h
  simp only [Option.bind_eq_some] at h
  obtain ⟨s, -, e, -, v0, h0, h1⟩ := h
  exact sameButStops_trans (interlockMarkerPairAt_same h0) (interlockMarkerPairAt_same h1)

theorem interlockFadeUpAt_same {v w : RDMarkerView} {i : Fin 2}
    (h : v.interlockFadeUpAt i = some w) : v.sameButStops w := by
  unfold RDMarkerView.interlockFadeUpAt at h
  split at h
  · cases h; exact sameButStops_refl v
  · next hu hhu =>
    simp only [Option.bind_eq_some] at h
    obtain ⟨cs, -, h⟩ := h
    split at h
    · cases h; exact sameButStops_setHandle _ _ _ hu _ hhu rfl
    · simp only [Option.bind_eq_some] at h
      obtain ⟨ce, -, h⟩ := h
      cases h; exact sameButStops_setHandle _ _ _ hu _ hhu rfl

theorem interlockFadeDownAt_same {v w : RDMarkerView} {i : Fin 2}
    (h : v.interlockFadeDownAt i = some w) : v.sameButStops w := by
  unfold RDMarkerView.interlockFadeDownAt at h
  split at h
  · cases h; exact sameButStops_refl v
  · next hd hhd =>
    simp only [Option.bind_eq_some] at h
    obtain ⟨ce, -, h⟩ := h
    split at h
    · cases h; exact sameButStops_setHandle _ _ _ hd _ hhd rfl
    · simp only [Option.bind_eq_some] at h
      obtain ⟨cs, -, h⟩ := h
      cases h; exact sameButStops_setHandle _ _ _ hd _ hhd rfl

theorem InterlockFadeMarkerPair_same {v w : RDMarkerView}
    (h : v.InterlockFadeMarkerPair = some w) : v.sameButStops w := by
  unfold RDMarkerView.InterlockFadeMarkerPair at h
  simp only [Option.bind_eq_some] at h
  obtain ⟨v0, h0, v1, h1, v2, h2, h3⟩ := h
  exact sameButStops_trans (interlockFadeUpAt_same h0)
    (sameButStops_trans (interlockFadeUpAt_same h1)
      (sameButStops_trans (interlockFadeDownAt_same h2) (interlockFadeDownAt_same h3)))

theorem cutStopsAt_same {v w : RDMarkerView} {i : Fin 2}
    (h : v.cutStopsAt i = some w) : v.sameButStops w := by
  unfold RDMarkerView.cutStopsAt at h
  simp only [Option.bind_eq_some] at h
  obtain ⟨hs, hhs, he, hhe, h⟩ := h
  cases h
  have h1 := sameButStops_setHandle v ixCutStart i hs
    ((hs.setMinimum 0 0).setMaximum (he.pos_x - LEFT_MARGIN) (v.d_pointers ixCutEnd)) hhs rfl
  refine sameButStops_trans h1 (sameButStops_setHandle _ ixCutEnd i he _ ?_ rfl)
  simp [RDMarkerView.setHandle, hhe]

theorem limitStops_same {v w : RDMarkerView}
    (h : v.limitStops = some w) : v.sameButStops w := by
  unfold RDMarkerView.limitStops at h
  simp only [Option.bind_eq_some] at h
  obtain ⟨v2, h2, v3, h3, v4, h4, v5, h5, v6, h6, h7⟩ := h
  exact sameButStops_trans (cutStopsAt_same h2)
    (sameButStops_trans (cutStopsAt_same h3)
      (sameButStops_trans (InterlockMarkerPair_same h4)
        (sameButStops_trans (InterlockMarkerPair_same h5)
          (sameButStops_trans (InterlockMarkerPair_same h6)
            (InterlockFadeMarkerPair_same h7)))))

theorem RemoveMarker_eq_some {v w : RDMarkerView} {role : PointerRole}
    (h : v.RemoveMarker role = some w) :
    ∃ i, role.slot = some i ∧ v.d_scene = true ∧ w = v.removed i := by
  unfold RDMarkerView.RemoveMarker at h
  split at h
  · cases h
  · next i hi =>
    split at h
    · next hs => cases h; exact ⟨i, hi, hs, rfl⟩
    · cases h

theorem RemoveMarker_of_slot {v : RDMarkerView} {role : PointerRole} {i : Fin 10}
    (hi : role.slot = some i) (hs : v.d_scene = true) :
    v.RemoveMarker role = some (v.removed i) := by
  unfold RDMarkerView.RemoveMarker
  simp [hi, hs, RDMarkerView.removed]

theorem slot_cast (i : Fin 10) : (PointerRole.cast i.val).slot = some i := by
  fin_cases i <;> rfl

theorem swipeRel_refl (v : RDMarkerView) : v.swipeRel v :=
  ⟨v.d_pointers, v.d_handles, rfl, fun _ => Or.inl rfl, fun _ _ => Or.inl rfl⟩

theorem swipeRel_trans {u v w : RDMarkerView} (h1 : u.swipeRel v) (h2 : v.swipeRel w) :
    u.swipeRel w := by
  obtain ⟨p1, a1, rfl, hp1, ha1⟩ := h1
  obtain ⟨p2, a2, rfl, hp2, ha2⟩ := h2
  refine ⟨p2, a2, rfl, fun j => ?_, fun a b => ?_⟩
  · rcases hp2 j with h | h
    · rcases hp1 j with g | g
      · exact Or.inl (h.trans g)
      · exact Or.inr ⟨g.1, h.trans g.2⟩
    · exact Or.inr h
  · rcases ha2 a b with h | h
    · rcases ha1 a b with g | g
      · exact Or.inl (h.trans g)
      · exact Or.inr ⟨g.1, h.trans g.2⟩
    · exact Or.inr h

theorem swipeRel_removed (v : RDMarkerView) (i : Fin 10) (hi : 2 ≤ i.val) :
    v.swipeRel (v.removed i) := by
  refine ⟨_, _, rfl, fun j => ?_, fun a b => ?_⟩
  · by_cases h : j = i
    · subst h; right; simp [hi]
    · left; simp [Function.update_noteq h]
  · by_cases h : a = i
    · subst h; right; simp [hi]
    · left; simp [Function.update_noteq h]

theorem swipeRel_cut {v w : RDMarkerView} (h : v.swipeRel w) :
    w.d_pointers ixCutStart = v.d_pointers ixCutStart ∧
    w.d_pointers ixCutEnd = v.d_pointers ixCutEnd := by
  obtain ⟨p, hs, rfl, hp, -⟩ := h
  constructor
  · rcases hp ixCutStart with h | h
    · exact h
    · exact absurd h.1 (by decide)
  · rcases hp ixCutEnd with h | h
    · exact h
    · exact absurd h.1 (by decide)

theorem swipeRel_cutHandles {v w : RDMarkerView} (h : v.swipeRel w) (hc : v.cutHandles) :
    w.cutHandles := by
  obtain ⟨p, hs, rfl, -, ha⟩ := h
  intro j
  constructor
  · rcases ha ixCutStart j with h | h
    · simp only [h]; exact (hc j).1
    · exact absurd h.1 (by decide)
  · rcases ha ixCutEnd j with h | h
    · simp only [h]; exact (hc j).2
    · exact absurd h.1 (by decide)

theorem swipeRel_scene {v w : RDMarkerView} (h : v.swipeRel w) : w.d_scene = v.d_scene := by
  obtain ⟨p, hs, rfl, -, -⟩ := h
  rfl

theorem swipeRel_inCut {v w : RDMarkerView} (h : v.swipeRel w) (j : Fin 10)
    (hj : v.inCut j) : w.inCut j := by
  have hc := swipeRel_cut h
  obtain ⟨p, hs, rfl, hp, -⟩ := h
  unfold RDMarkerView.inCut at *
  simp only at hc ⊢
  rcases hp j with g | g
  · rw [g, hc.1, hc.2]; exact hj
  · left; rw [g.2]; decide

theorem slot_succ_ge : ∀ i i2 : Fin 10, 2 ≤ i.val →
    (PointerRole.cast (i.val + 1)).slot = some i2 → 2 ≤ i2.val := by
  decide

theorem slot_pred_ge : ∀ i i2 : Fin 10, 3 ≤ i.val →
    (PointerRole.cast (i.val - 1)).slot = some i2 → 2 ≤ i2.val := by
  decide

theorem cast_end_ge : ∀ i : Fin 10,
    (PointerRole.cast i.val = .TalkEnd ∨ PointerRole.cast i.val = .SegueEnd ∨
      PointerRole.cast i.val = .HookEnd) → 3 ≤ i.val := by
  decide

theorem swipeStep_spec {v w : RDMarkerView} {i : Fin 10} (hi : 2 ≤ i.val)
    (h : v.swipeStep i = some w) : v.swipeRel w ∧ w.inCut i := by
  unfold RDMarkerView.swipeStep at h
  simp only at h
  split at h
  · simp only [Option.bind_eq_some] at h
    obtain ⟨v1, h1, h2⟩ := h
    obtain ⟨i1, hs1, hsc, rfl⟩ := RemoveMarker_eq_some h1
    rw [slot_cast] at hs1
    cases hs1
    have r1 := swipeRel_removed v i hi
    have g1 : (v.removed i).inCut i := by
      left; simp [RDMarkerView.removed]
    have key : ∀ i2 : Fin 10, 2 ≤ i2.val → w = (v.removed i).removed i2 →
        v.swipeRel w ∧ w.inCut i := by
      intro i2 hi2 hw
      subst hw
      have r2 := swipeRel_removed (v.removed i) i2 hi2
      exact ⟨swipeRel_trans r1 r2, swipeRel_inCut r2 i g1⟩
    split at h2
    · obtain ⟨i2, hs2, -, hw⟩ := RemoveMarker_eq_some h2
      exact key i2 (slot_succ_ge i i2 hi hs2) hw
    · obtain ⟨i2, hs2, -, hw⟩ := RemoveMarker_eq_some h2
      exact key i2 (slot_succ_ge i i2 hi hs2) hw
    · obtain ⟨i2, hs2, -, hw⟩ := RemoveMarker_eq_some h2
      exact key i2 (slot_succ_ge i i2 hi hs2) hw
    · next heq =>
      obtain ⟨i2, hs2, -, hw⟩ := RemoveMarker_eq_some h2
      exact key i2 (slot_pred_ge i i2 (cast_end_ge i (Or.inl heq)) hs2) hw
    · next heq =>
      obtain ⟨i2, hs2, -, hw⟩ := RemoveMarker_eq_some h2
      exact key i2 (slot_pred_ge i i2 (cast_end_ge i (Or.inr (Or.inl heq))) hs2) hw
    · next heq =>
      obtain ⟨i2, hs2, -, hw⟩ := RemoveMarker_eq_some h2
      exact key i2 (slot_pred_ge i i2 (cast_end_ge i (Or.inr (Or.inr heq))) hs2) hw
    all_goals
      cases h2
      exact ⟨r1, g1⟩
  · next hc =>
    cases h
    refine ⟨swipeRel_refl v, ?_⟩
    unfold RDMarkerView.inCut
    omega

theorem swipeFold_spec (l : List (Fin 10)) (hl : ∀ i ∈ l, 2 ≤ i.val) :
    ∀ v w : RDMarkerView, l.foldlM RDMarkerView.swipeStep v = some w →
      v.swipeRel w ∧ ∀ i ∈ l, w.inCut i := by
  induction l with
  | nil =>
    intro v w h
    simp only [List.foldlM, Option.pure_def, Option.some.injEq] at h
    subst h
    exact ⟨swipeRel_refl v, fun i hi => absurd hi (List.not_mem_nil i)⟩
  | cons a l ih =>
    intro v w h
    simp only [List.foldlM, Option.bind_eq_bind, Option.bind_eq_some] at h
    obtain ⟨v1, h1, h2⟩ := h
    have s1 := swipeStep_spec (hl a (List.mem_cons_self a l)) h1
    have s2 := ih (fun i hi => hl i (List.mem_cons_of_mem a hi)) v1 w h2
    refine ⟨swipeRel_trans s1.1 s2.1, fun i hi => ?_⟩
    rcases List.mem_cons.mp hi with rfl | hi
    · exact swipeRel_inCut s2.1 _ s1.2
    · exact s2.2 i hi

theorem swipeLoop_spec {v w : RDMarkerView} (h : v.swipeLoop = some w) :
    v.swipeRel w ∧ ∀ i : Fin 10, 2 ≤ i.val → w.inCut i := by
  have := swipeFold_spec [2, 3, 4, 5, 6, 7, 8, 9] (by decide) v w h
  refine ⟨this.1, fun i hi => this.2 i ?_⟩
  revert hi
  revert i
  decide

theorem cast_start_slot : ∀ i : Fin 10,
    (PointerRole.cast i.val = .TalkStart ∨ PointerRole.cast i.val = .SegueStart ∨
      PointerRole.cast i.val = .HookStart) →
    ∃ k, (PointerRole.cast (i.val + 1)).slot = some k := by
  decide

theorem cast_end_slot : ∀ i : Fin 10,
    (PointerRole.cast i.val = .TalkEnd ∨ PointerRole.cast i.val = .SegueEnd ∨
      PointerRole.cast i.val = .HookEnd) →
    ∃ k, (PointerRole.cast (i.val - 1)).slot = some k := by
  decide

theorem swipeStep_isSome {v : RDMarkerView} (i : Fin 10) (_hi : 2 ≤ i.val)
    (hs : v.d_scene = true) : ∃ w, v.swipeStep i = some w := by
  unfold RDMarkerView.swipeStep
  simp only
  split
  · rw [RemoveMarker_of_slot (slot_cast i) hs]
    simp only [Option.some_bind]
    have hs1 : (v.removed i).d_scene = true := hs
    have succ := cast_start_slot i
    have pred := cast_end_slot i
    split
    · next heq =>
      obtain ⟨k, hk⟩ := succ (Or.inl heq)
      exact ⟨_, RemoveMarker_of_slot hk hs1⟩
    · next heq =>
      obtain ⟨k, hk⟩ := succ (Or.inr (Or.inl heq))
      exact ⟨_, RemoveMarker_of_slot hk hs1⟩
    · next heq =>
      obtain ⟨k, hk⟩ := succ (Or.inr (Or.inr heq))
      exact ⟨_, RemoveMarker_of_slot hk hs1⟩
    · next heq =>
      obtain ⟨k, hk⟩ := pred (Or.inl heq)
      exact ⟨_, RemoveMarker_of_slot hk hs1⟩
    · next heq =>
      obtain ⟨k, hk⟩ := pred (Or.inr (Or.inl heq))
      exact ⟨_, RemoveMarker_of_slot hk hs1⟩
    · next heq =>
      obtain ⟨k, hk⟩ := pred (Or.inr (Or.inr heq))
      exact ⟨_, RemoveMarker_of_slot hk hs1⟩
    all_goals exact ⟨_, rfl⟩
  · exact ⟨v, rfl⟩

theorem swipeFold_isSome (l : List (Fin 10)) (hl : ∀ i ∈ l, 2 ≤ i.val) :
    ∀ v : RDMarkerView, v.d_scene = true →
      ∃ w, l.foldlM RDMarkerView.swipeStep v = some w := by
  induction l with
  | nil => intro v _; exact ⟨v, rfl⟩
  | cons a l ih =>
    intro v hs
    obtain ⟨v1, h1⟩ := swipeStep_isSome a (hl a (List.mem_cons_self a l)) hs
    have hs1 : v1.d_scene = true :=
      (swipeRel_scene (swipeStep_spec (hl a (List.mem_cons_self a l)) h1).1).trans hs
    obtain ⟨w, hw⟩ := ih (fun i hi => hl i (List.mem_cons_of_mem a hi)) v1 hs1
    refine ⟨w, ?_⟩
    simp only [List.foldlM, Option.bind_eq_bind, h1, Option.some_bind, hw]

theorem swipeLoop_isSome {v : RDMarkerView} (hs : v.d_scene = true) :
    ∃ w, v.swipeLoop = some w :=
  swipeFold_isSome _ (by decide) v hs

theorem cutHandles_get {v : RDMarkerView} (hc : v.cutHandles) (i : Fin 2) :
    (∃ cs, v.d_handles ixCutStart i = some cs) ∧ (∃ ce, v.d_handles ixCutEnd i = some ce) :=
  ⟨Option.isSome_iff_exists.mp (hc i).1, Option.isSome_iff_exists.mp (hc i).2⟩

theorem interlockStartAt_isSome {v : RDMarkerView} (hc : v.cutHandles) (s e : Fin 10)
    (i : Fin 2) : ∃ w, v.interlockStartAt s e i = some w := by
  obtain ⟨⟨cs, hcs⟩, ⟨ce, hce⟩⟩ := cutHandles_get hc i
  unfold RDMarkerView.interlockStartAt
  cases v.d_handles s i with
  | none => exact ⟨v, rfl⟩
  | some hs =>
    simp only [hcs, hce, Option.some_bind]
    cases v.d_handles e i with
    | none => exact ⟨_, rfl⟩
    | some he => exact ⟨_, rfl⟩

theorem interlockEndAt_isSome {v : RDMarkerView} (hc : v.cutHandles) (s e : Fin 10)
    (i : Fin 2) : ∃ w, v.interlockEndAt s e i = some w := by
  obtain ⟨⟨cs, hcs⟩, ⟨ce, hce⟩⟩ := cutHandles_get hc i
  unfold RDMarkerView.interlockEndAt
  cases v.d_handles e i with
  | none => exact ⟨v, rfl⟩
  | some he =>
    cases v.d_handles s i with
    | none => simp only [hcs, hce, Option.some_bind]; exact ⟨_, rfl⟩
    | some hs => simp only [hce, Option.some_bind]; exact ⟨_, rfl⟩

theorem interlockMarkerPairAt_isSome {v : RDMarkerView} (hc : v.cutHandles) (s e : Fin 10)
    (i : Fin 2) : ∃ w, v.interlockMarkerPairAt s e i = some w := by
  obtain ⟨v1, h1⟩ := interlockStartAt_isSome hc s e i
  obtain ⟨w, h2⟩ :=
    interlockEndAt_isSome (sameButStops_cutHandles (interlockStartAt_same h1) hc) s e i
  exact ⟨w, by simp only [RDMarkerView.interlockMarkerPairAt, h1, Option.some_bind, h2]⟩

theorem InterlockMarkerPair_isSome {v : RDMarkerView} (hc : v.cutHandles)
    (r : PointerRole) (hr : r = .TalkStart ∨ r = .SegueStart ∨ r = .HookStart) :
    ∃ w, v.InterlockMarkerPair r = some w := by
  have hse : ∃ s e, r.slot = some s ∧ (PointerRole.cast (r.toNat + 1)).slot = some e := by
    rcases hr with rfl | rfl | rfl
    · exact ⟨ixTalkStart, ixTalkEnd, rfl, rfl⟩
    · exact ⟨ixSegueStart, ixSegueEnd, rfl, rfl⟩
    · exact ⟨ixHookStart, ixHookEnd, rfl, rfl⟩
  obtain ⟨s, e, hs, he⟩ := hse
  obtain ⟨v0, h0⟩ := interlockMarkerPairAt_isSome hc s e 0
  obtain ⟨w, h1⟩ :=
    interlockMarkerPairAt_isSome (sameButStops_cutHandles (interlockMarkerPairAt_same h0) hc)
      s e 1
  exact ⟨w, by simp only [RDMarkerView.InterlockMarkerPair, hs, he, Option.some_bind, h0, h1]⟩

theorem interlockFadeUpAt_isSome {v : RDMarkerView} (hc : v.cutHandles) (i : Fin 2) :
    ∃ w, v.interlockFadeUpAt i = some w := by
  obtain ⟨⟨cs, hcs⟩, ⟨ce, hce⟩⟩ := cutHandles_get hc i
  unfold RDMarkerView.interlockFadeUpAt
  cases v.d_handles ixFadeUp i with
  | none => exact ⟨v, rfl⟩
  | some hu =>
    simp only [hcs, hce, Option.some_bind]
    cases v.d_handles ixFadeDown i with
    | none => exact ⟨_, rfl⟩
    | some hd => exact ⟨_, rfl⟩

theorem interlockFadeDownAt_isSome {v : RDMarkerView} (hc : v.cutHandles) (i : Fin 2) :
    ∃ w, v.interlockFadeDownAt i = some w := by
  obtain ⟨⟨cs, hcs⟩, ⟨ce, hce⟩⟩ := cutHandles_get hc i
  unfold RDMarkerView.interlockFadeDownAt
  cases v.d_handles ixFadeDown i with
  | none => exact ⟨v, rfl⟩
  | some hd =>
    simp only [hcs, hce, Option.some_bind]
    cases v.d_handles ixFadeUp i with
    | none => exact ⟨_, rfl⟩
    | some hu => exact ⟨_, rfl⟩

theorem InterlockFadeMarkerPair_isSome {v : RDMarkerView} (hc : v.cutHandles) :
    ∃ w, v.InterlockFadeMarkerPair = some w := by
  obtain ⟨v0, h0⟩ := interlockFadeUpAt_isSome hc 0
  have c0 := sameButStops_cutHandles (interlockFadeUpAt_same h0) hc
  obtain ⟨v1, h1⟩ := interlockFadeUpAt_isSome c0 1
  have c1 := sameButStops_cutHandles (interlockFadeUpAt_same h1) c0
  obtain ⟨v2, h2⟩ := interlockFadeDownAt_isSome c1 0
  have c2 := sameButStops_cutHandles (interlockFadeDownAt_same h2) c1
  obtain ⟨w, h3⟩ := interlockFadeDownAt_isSome c2 1
  exact ⟨w, by
    simp only [RDMarkerView.InterlockFadeMarkerPair, h0, h1, h2, h3, Option.some_bind]⟩

theorem cutStopsAt_isSome {v : RDMarkerView} (hc : v.cutHandles) (i : Fin 2) :
    ∃ w, v.cutStopsAt i = some w := by
  obtain ⟨⟨cs, hcs⟩, ⟨ce, hce⟩⟩ := cutHandles_get hc i
  unfold RDMarkerView.cutStopsAt
  simp only [hcs, hce, Option.some_bind]
  exact ⟨_, rfl⟩

theorem limitStops_isSome {v : RDMarkerView} (hc : v.cutHandles) :
    ∃ w, v.limitStops = some w := by
  obtain ⟨v2, h2⟩ := cutStopsAt_isSome hc 0
  have c2 := sameButStops_cutHandles (cutStopsAt_same h2) hc
  obtain ⟨v3, h3⟩ := cutStopsAt_isSome c2 1
  have c3 := sameButStops_cutHandles (cutStopsAt_same h3) c2
  obtain ⟨v4, h4⟩ := InterlockMarkerPair_isSome c3 .TalkStart (Or.inl rfl)
  have c4 := sameButStops_cutHandles (InterlockMarkerPair_same h4) c3
  obtain ⟨v5, h5⟩ := InterlockMarkerPair_isSome c4 .SegueStart (Or.inr (Or.inl rfl))
  have c5 := sameButStops_cutHandles (InterlockMarkerPair_same h5) c4
  obtain ⟨v6, h6⟩ := InterlockMarkerPair_isSome c5 .HookStart (Or.inr (Or.inr rfl))
  have c6 := sameButStops_cutHandles (InterlockMarkerPair_same h6) c5
  obtain ⟨w, h7⟩ := InterlockFadeMarkerPair_isSome c6
  exact ⟨w, by
    simp only [RDMarkerView.limitStops, h2, h3, h4, h5, h6, h7, Option.some_bind]⟩

theorem updateInterlocks_isSome {v : RDMarkerView} (hs : v.d_scene = true)
    (hc : v.cutHandles) : ∃ w, v.updateInterlocks = some w := by
  obtain ⟨v1, h1⟩ := swipeLoop_isSome hs
  obtain ⟨w, h2⟩ := limitStops_isSome (swipeRel_cutHandles (swipeLoop_spec h1).1 hc)
  exact ⟨w, by simp only [RDMarkerView.updateInterlocks, h1, Option.some_bind, h2]⟩

theorem updateInterlocks_spec {v w : RDMarkerView} (h : v.updateInterlocks = some w) :
    w.d_pointers ixCutStart = v.d_pointers ixCutStart ∧
    w.d_pointers ixCutEnd = v.d_pointers ixCutEnd ∧
    ∀ i : Fin 10, 2 ≤ i.val → w.inCut i := by
  unfold RDMarkerView.updateInterlocks at h
  simp only [Option.bind_eq_some] at h
  obtain ⟨v1, h1, h2⟩ := h
  have s1 := swipeLoop_spec h1
  have hp := sameButStops_pointers (limitStops_same h2)
  have hc := swipeRel_cut s1.1
  refine ⟨by rw [hp]; exact hc.1, by rw [hp]; exact hc.2, fun i hi => ?_⟩
  have := s1.2 i hi
  unfold RDMarkerView.inCut at this ⊢
  rw [hp]
  exact this

theorem slot_ge_two {r : PointerRole} {i : Fin 10} (h : r.slot = some i)
    (h1 : r ≠ .CutStart) (h2 : r ≠ .CutEnd) : 2 ≤ i.val := by
  cases r <;> simp_all [PointerRole.slot, PointerRole.toNat] <;> subst h <;> decide

theorem slot_isSome {r : PointerRole} (h : r ≠ .LastRole) : ∃ i, r.slot = some i := by
  cases r <;> first | exact absurd rfl h | exact ⟨_, rfl⟩

/-- C1: after `updatePosition(role, ptr)` every role other than CutStart and CutEnd holds a
negative (unset) pointer or a value between the resulting CutStart and CutEnd pointers;
`updateInterlocks` never changes the CutStart or CutEnd pointer; and `updatePosition`
completes for each of the ten marker roles when the scene and the Cut handles exist. -/
theorem updatePosition_roles_within_cut (v : RDMarkerView) (role : PointerRole) (ptr : Int) :
    (∀ w, v.updatePosition role ptr = some w →
      ∀ r x, r ≠ PointerRole.CutStart → r ≠ PointerRole.CutEnd → w.pointerValue r = some x →
        x < 0 ∨ (w.d_pointers ixCutStart ≤ x ∧ x ≤ w.d_pointers ixCutEnd)) ∧
    (∀ w, v.updateInterlocks = some w →
      w.d_pointers ixCutStart = v.d_pointers ixCutStart ∧
      w.d_pointers ixCutEnd = v.d_pointers ixCutEnd) ∧
    (role ≠ PointerRole.LastRole → v.d_scene = true → v.cutHandles →
      ∃ w, v.updatePosition role ptr = some w) := by
  refine ⟨fun w h r x h1 h2 hx => ?_, fun w h => ?_, fun hr hs hc => ?_⟩
  · unfold RDMarkerView.updatePosition at h
    simp only [Option.bind_eq_some] at h
    obtain ⟨i, -, h⟩ := h
    unfold RDMarkerView.pointerValue at hx
    simp only [Option.map_eq_some'] at hx
    obtain ⟨k, hk, rfl⟩ := hx
    exact (updateInterlocks_spec h).2.2 k (slot_ge_two hk h1 h2)
  · exact ⟨(updateInterlocks_spec h).1, (updateInterlocks_spec h).2.1⟩
  · obtain ⟨i, hi⟩ := slot_isSome hr
    unfold RDMarkerView.updatePosition
    simp only [hi, Option.some_bind]
    exact updateInterlocks_isSome hs hc

/-- Witness for C1: in the view opened on the row Cut 0..10000, Talk 100..200, moving Cut
Start to 150 swipes the Talk pair, and the statement of C1 applies to the result. -/
theorem updatePosition_roles_within_cut_witness :
    ∃ v w, viewOfRow talkRow = some v ∧ v.updatePosition .CutStart 150 = some w ∧
      w.pointerValue .TalkStart = some (-1) ∧
      ∀ r x, r ≠ PointerRole.CutStart → r ≠ PointerRole.CutEnd → w.pointerValue r = some x →
        x < 0 ∨ (w.d_pointers ixCutStart ≤ x ∧ x ≤ w.d_pointers ixCutEnd) := by
  have hv : (viewOfRow talkRow).isSome = true := by decide
  obtain ⟨v, hv⟩ := Option.isSome_iff_exists.mp hv
  have hs : v.d_scene = true := by
    have : (viewOfRow talkRow).map (fun u => u.d_scene) = some true := by decide
    simpa [hv] using this
  have hc : v.cutHandles := by
    have : (viewOfRow talkRow).map
        (fun u => decide (∀ j : Fin 2, (u.d_handles ixCutStart j).isSome = true ∧
          (u.d_handles ixCutEnd j).isSome = true)) = some true := by decide
    simpa [hv] using this
  obtain ⟨w, hw⟩ :=
    (updatePosition_roles_within_cut v .CutStart 150).2.2 (by decide) hs hc
  refine ⟨v, w, hv, hw, ?_, (updatePosition_roles_within_cut v .CutStart 150).1 w hw⟩
  have : ((viewOfRow talkRow).bind fun u => u.updatePosition .CutStart 150).bind
      (fun u => u.pointerValue .TalkStart) = some (-1) := by decide
  simpa [hv, hw] using this

theorem sameButHandles_refl (v : RDMarkerView) : v.sameButHandles v :=
  ⟨v.d_handles, rfl⟩

theorem sameButHandles_trans {u v w : RDMarkerView} (h1 : u.sameButHandles v)
    (h2 : v.sameButHandles w) : u.sameButHandles w := by
  obtain ⟨a, rfl⟩ := h1
  obtain ⟨b, rfl⟩ := h2
  exact ⟨b, rfl⟩

theorem setHandle_isSome (v : RDMarkerView) (i : Fin 10) (j : Fin 2) (h : RDMarkerHandle)
    (a : Fin 10) (b : Fin 2) (hab : (v.d_handles a b).isSome = true) :
    ((v.setHandle i j h).d_handles a b).isSome = true := by
  unfold RDMarkerView.setHandle
  by_cases ha : a = i
  · subst ha
    by_cases hb : b = j
    · subst hb; simp
    · simpa [Function.update_noteq hb] using hab
  · simpa [Function.update_noteq ha] using hab

theorem setHandle_cutHandles (v : RDMarkerView) (i : Fin 10) (j : Fin 2) (h : RDMarkerHandle)
    (hc : v.cutHandles) : (v.setHandle i j h).cutHandles :=
  fun b => ⟨setHandle_isSome v i j h _ b (hc b).1, setHandle_isSome v i j h _ b (hc b).2⟩

theorem DrawMarker_spec {v w : RDMarkerView} {t : PointerType} {r : PointerRole} {p : Int}
    (h : v.DrawMarker t r p = some w) :
    v.sameButHandles w ∧ (v.cutHandles → w.cutHandles) := by
  unfold RDMarkerView.DrawMarker at h
  split at h
  · cases h
  · next i hi =>
    split at h
    · split at h
      · simp only [Option.map_eq_some'] at h
        obtain ⟨x, -, rfl⟩ := h
        exact ⟨⟨_, rfl⟩, fun hc =>
          setHandle_cutHandles _ _ _ _ (setHandle_cutHandles _ _ _ _ hc)⟩
      · cases h
    · cases h
      exact ⟨sameButHandles_refl v, id⟩

theorem DrawMarker_isSome {v : RDMarkerView} (t : PointerType) {r : PointerRole} (p : Int)
    (hr : r ≠ .LastRole) (hs : v.d_scene = true)
    (hd : toInt32 (v.d_shrink_factor * 1152000) ≠ 0) : ∃ w, v.DrawMarker t r p = some w := by
  obtain ⟨i, hi⟩ := slot_isSome hr
  unfold RDMarkerView.DrawMarker
  simp only [hi, hs, if_true, RDMarkerView.Frame, if_neg hd, Option.map_some']
  split
  · exact ⟨_, rfl⟩
  · exact ⟨_, rfl⟩

/-- The view opened on the row Cut 0..10000, Talk 100..200 exists, with its scene and its
Cut handles. -/
theorem viewOfRow_talkRow_ready :
    ∃ v, viewOfRow talkRow = some v ∧ v.d_scene = true ∧ v.cutHandles := by
  have hv : (viewOfRow talkRow).isSome = true := by decide
  obtain ⟨v, hv⟩ := Option.isSome_iff_exists.mp hv
  refine ⟨v, hv, ?_, ?_⟩
  · have : (viewOfRow talkRow).map (fun u => u.d_scene) = some true := by decide
    simpa [hv] using this
  · have : (viewOfRow talkRow).map
        (fun u => decide (∀ j : Fin 2, (u.d_handles ixCutStart j).isSome = true ∧
          (u.d_handles ixCutEnd j).isSome = true)) = some true := by decide
    simpa [hv] using this

theorem updateMenuData_same (v : RDMarkerView) :
    v.updateMenuData.d_pointers = v.d_pointers ∧ v.updateMenuData.d_mouse_pos = v.d_mouse_pos ∧
    v.updateMenuData.d_scene = v.d_scene ∧ v.updateMenuData.d_handles = v.d_handles ∧
    ∀ x, v.updateMenuData.Msec x = v.Msec x :=
  ⟨rfl, rfl, rfl, rfl, fun _ => rfl⟩

theorem slot_val {r : PointerRole} {i : Fin 10} (h : r.slot = some i) : i.val = r.toNat := by
  unfold PointerRole.slot at h
  split at h
  · cases h; rfl
  · cases h

theorem toNat_injective (r r2 : PointerRole) (h : r.toNat = r2.toNat) : r = r2 := by
  cases r <;> cases r2 <;> first | rfl | exact absurd h (by decide)

theorem slot_injective {r r2 : PointerRole} {i : Fin 10} (h : r.slot = some i)
    (h2 : r2.slot = some i) : r = r2 :=
  toNat_injective r r2 ((slot_val h).symm.trans (slot_val h2))

/-- C6: after `clear()` every one of the ten marker roles has pointer value -1, no change is
unsaved and no marker is selected; `RemoveMarker(role)` sets exactly that role's pointer to
-1 and leaves all other pointers unchanged, and completes for each of the ten roles when
the scene exists. -/
theorem clear_and_RemoveMarker (v : RDMarkerView) :
    (∀ r, r ≠ PointerRole.LastRole → v.clear.pointerValue r = some (-1)) ∧
    v.clear.hasUnsavedChanges = false ∧
    v.clear.selectedMarker = PointerRole.LastRole ∧
    (∀ r w, v.RemoveMarker r = some w →
      w.pointerValue r = some (-1) ∧
      ∀ r2, r2 ≠ r → w.pointerValue r2 = v.pointerValue r2) ∧
    (∀ r, r ≠ PointerRole.LastRole → v.d_scene = true → ∃ w, v.RemoveMarker r = some w) := by
  refine ⟨fun r hr => ?_, rfl, rfl, fun r w h => ?_, fun r hr hs => ?_⟩
  · obtain ⟨i, hi⟩ := slot_isSome hr
    simp [RDMarkerView.pointerValue, hi, RDMarkerView.clear]
  · obtain ⟨i, hi, -, rfl⟩ := RemoveMarker_eq_some h
    refine ⟨by simp [RDMarkerView.pointerValue, hi, RDMarkerView.removed], fun r2 hr2 => ?_⟩
    unfold RDMarkerView.pointerValue
    cases h2 : r2.slot with
    | none => rfl
    | some k =>
      have hk : k ≠ i := by
        intro hki
        subst hki
        exact hr2 (slot_injective h2 hi)
      simp [RDMarkerView.removed, Function.update_noteq hk]
  · obtain ⟨i, hi⟩ := slot_isSome hr
    exact ⟨_, RemoveMarker_of_slot hi hs⟩

/-- Witness for C6: in the view opened on the row Cut 0..10000, Talk 100..200,
`RemoveMarker(TalkEnd)` completes, unsets Talk End and keeps Talk Start at 100. -/
theorem clear_and_RemoveMarker_witness :
    ∃ v w, viewOfRow talkRow = some v ∧ v.RemoveMarker .TalkEnd = some w ∧
      w.pointerValue .TalkEnd = some (-1) ∧ w.pointerValue .TalkStart = some 100 ∧
      v.clear.pointerValue .TalkStart = some (-1) := by
  obtain ⟨v, hv, hs, -⟩ := viewOfRow_talkRow_ready
  have c6 := clear_and_RemoveMarker v
  obtain ⟨w, hw⟩ := c6.2.2.2.2 .TalkEnd (by decide) hs
  have r := c6.2.2.2.1 _ w hw
  have h100 : v.pointerValue .TalkStart = some 100 := by
    have : (viewOfRow talkRow).bind (fun u => u.pointerValue .TalkStart) = some 100 := by
      decide
    simpa [hv] using this
  exact ⟨v, w, hv, hw, r.1, (r.2 .TalkStart (by decide)).trans h100,
    c6.1 .TalkStart (by decide)⟩

/-- C2, the code at the failing input: in the view opened on the row Cut 0..10000,
Talk 100..200 (sample rate 44100, shrink factor 1) the Talk End handle is drawn at pixel
`Frame(200) = 7` with the minimum stop `(Frame(100), 100) = (3, 100)` that
`InterlockMarkerPair` installs. Pressing it at its own position (scene x 27) and moving it
to scene x 23, the pixel of the Talk Start marker, is not below the stop, so the pointer is
computed from the pixel: Talk End becomes 78, below Talk Start = 100, and both stay set. -/
theorem drag_talk_end_onto_talk_start :
    (viewOfRow talkRow).map (fun v =>
      (v.d_pointers ixTalkStart, v.d_pointers ixTalkEnd, v.Frame 100,
        (v.d_handles ixTalkEnd 0).map fun h =>
          (h.pos_x, h.d_minimum_pos, h.d_minimum_ptr, h.d_maximum_pos, h.d_maximum_ptr))) =
      some (100, 200, some 3, some (27, some 3, some 100, some 382, some 10000)) ∧
    ((viewOfRow talkRow).bind fun v =>
      (RDMarkerHandle.mousePressEvent v .TalkEnd 0 27).bind fun v1 =>
        (RDMarkerHandle.mouseMoveEvent v1 .TalkEnd 0 23).map fun w =>
          (w.d_pointers ixTalkStart, w.d_pointers ixTalkEnd)) = some (100, 78) := by
  constructor
  · rfl
  · decide

theorem QString_left_append_comma (y : String) :
    QString.left (y ++ ",") (((y ++ ",").length : Int) - 1) = y := by
  unfold QString.left
  have hl : (y ++ ",").length = y.length + 1 := by
    rw [String.length_append]; rfl
  rw [hl]
  have h1 : ¬ (((y.length + 1 : Nat) : Int) - 1 < 0 ∨
      ((y.length + 1 : Nat) : Int) - 1 ≥ ((y.length + 1 : Nat) : Int)) := by
    omega
  rw [if_neg h1]
  have h2 : (((y.length + 1 : Nat) : Int) - 1).toNat = y.data.length := by
    have : y.length = y.data.length := rfl
    omega
  rw [h2, String.data_append, List.take_left]

theorem saveSql_text (v : RDMarkerView) (cut_name : String) :
    v.saveSql cut_name = (v.saveStatement cut_name).text := by
  unfold RDMarkerView.saveSql
  have hf : allSlots.foldl (fun sql i => sql ++ v.saveField i) "update CUTS set " =
      ("update CUTS set " ++
        ",".intercalate ((v.saveStatement cut_name).assignments.map
          fun a => a.1 ++ ("=" ++ toString a.2))) ++ "," := by
    simp only [allSlots, List.foldl, RDMarkerView.saveField, RDMarkerView.saveStatement,
      List.map, String.intercalate, String.intercalate.go, String.append_assoc]
  rw [hf, QString_left_append_comma]
  rfl
theorem pointer_field_injective : ∀ i j : Fin 10,
    RDMarkerView.d_pointer_fields.getD i.val "" = RDMarkerView.d_pointer_fields.getD j.val "" →
    i = j := by
  decide

theorem foldl_update_other (f : Fin 10 → String) (p : Fin 10 → Int) (k : String) :
    ∀ (l : List (Fin 10)) (r : CutRecord), (∀ i ∈ l, f i ≠ k) →
      (l.map fun i => (f i, p i)).foldl (fun r a => Function.update r a.1 a.2) r k = r k := by
  intro l
  induction l with
  | nil => intro r _; rfl
  | cons a l ih =>
    intro r h
    simp only [List.map, List.foldl]
    rw [ih _ (fun i hi => h i (List.mem_cons_of_mem a hi))]
    exact Function.update_noteq (Ne.symm (h a (List.mem_cons_self a l))) _ _

theorem foldl_update_lookup (f : Fin 10 → String) (p : Fin 10 → Int)
    (hf : ∀ i j, f i = f j → i = j) :
    ∀ (l : List (Fin 10)) (r : CutRecord), l.Nodup → ∀ i ∈ l,
      (l.map fun i => (f i, p i)).foldl (fun r a => Function.update r a.1 a.2) r (f i) =
        p i := by
  intro l
  induction l with
  | nil => intro r _ i hi; exact absurd hi (List.not_mem_nil i)
  | cons a l ih =>
    intro r hnd i hi
    simp only [List.map, List.foldl]
    have hnd2 := List.nodup_cons.mp hnd
    rcases List.mem_cons.mp hi with rfl | hi
    · rw [foldl_update_other f p (f i) l _ (fun j hj hji => hnd2.1 (hf j i hji ▸ hj))]
      exact Function.update_same _ _ _
    · exact ih _ hnd2.2 i hi

theorem LoadCutData_save (v u : RDMarkerView) (db : Catalog) (cut_name : String)
    (h : (db cut_name).isSome = true) :
    (u.LoadCutData (v.save db cut_name).1 cut_name).1 = true ∧
    (u.LoadCutData (v.save db cut_name).1 cut_name).2.d_pointers = v.d_pointers := by
  obtain ⟨r, hr⟩ := Option.isSome_iff_exists.mp h
  have hdb : (v.save db cut_name).1 cut_name =
      some ((v.saveStatement cut_name).assignments.foldl
        (fun r a => Function.update r a.1 a.2) r) := by
    simp [RDMarkerView.save, RDSqlQuery.apply, RDMarkerView.saveStatement, hr]
  unfold RDMarkerView.LoadCutData
  rw [hdb]
  refine ⟨rfl, ?_⟩
  funext i
  exact foldl_update_lookup (fun i => RDMarkerView.d_pointer_fields.getD i.val "") v.d_pointers
    pointer_field_injective allSlots r (by decide) i (by revert i; decide)

/-- C3: the pointer field table holds exactly ten pairwise distinct names, in role order;
the statement text built by `save()` is `update CUTS set` followed by one assignment
`field=value` per role `i` with the value `d_pointers[i]`, separated by commas with no
trailing comma; `LoadCutData` reads the field of column `i` into `d_pointers[i]`; and, for
a cut that has a record, `LoadCutData` after `save()` yields the saved pointer table. -/
theorem save_LoadCutData_roundtrip (v u : RDMarkerView) (db : Catalog) (cut_name : String) :
    RDMarkerView.d_pointer_fields =
      ["START_POINT", "END_POINT", "TALK_START_POINT", "TALK_END_POINT", "SEGUE_START_POINT",
       "SEGUE_END_POINT", "HOOK_START_POINT", "HOOK_END_POINT", "FADEUP_POINT",
       "FADEDOWN_POINT"] ∧
    RDMarkerView.d_pointer_fields.length = 10 ∧
    RDMarkerView.d_pointer_fields.Nodup ∧
    v.saveSql cut_name = (v.saveStatement cut_name).text ∧
    v.saveSql cut_name =
      "update CUTS set " ++
      "START_POINT" ++ "=" ++ toString (v.d_pointers ixCutStart) ++ "," ++
      "END_POINT" ++ "=" ++ toString (v.d_pointers ixCutEnd) ++ "," ++
      "TALK_START_POINT" ++ "=" ++ toString (v.d_pointers ixTalkStart) ++ "," ++
      "TALK_END_POINT" ++ "=" ++ toString (v.d_pointers ixTalkEnd) ++ "," ++
      "SEGUE_START_POINT" ++ "=" ++ toString (v.d_pointers ixSegueStart) ++ "," ++
      "SEGUE_END_POINT" ++ "=" ++ toString (v.d_pointers ixSegueEnd) ++ "," ++
      "HOOK_START_POINT" ++ "=" ++ toString (v.d_pointers ixHookStart) ++ "," ++
      "HOOK_END_POINT" ++ "=" ++ toString (v.d_pointers ixHookEnd) ++ "," ++
      "FADEUP_POINT" ++ "=" ++ toString (v.d_pointers ixFadeUp) ++ "," ++
      "FADEDOWN_POINT" ++ "=" ++ toString (v.d_pointers ixFadeDown) ++
      " where " ++ "CUT_NAME=\"" ++ cut_name ++ "\"" ∧
    (∀ r, db cut_name = some r →
      (u.LoadCutData db cut_name).1 = true ∧
      ∀ i : Fin 10, (u.LoadCutData db cut_name).2.d_pointers i =
        r (RDMarkerView.d_pointer_fields.getD i.val "")) ∧
    ((db cut_name).isSome = true →
      (u.LoadCutData (v.save db cut_name).1 cut_name).1 = true ∧
      (u.LoadCutData (v.save db cut_name).1 cut_name).2.d_pointers = v.d_pointers) := by
  refine ⟨rfl, rfl, by decide, saveSql_text v cut_name, ?_, fun r hr => ?_,
    LoadCutData_save v u db cut_name⟩
  · rw [saveSql_text]
    simp only [UpdateCuts.text, RDMarkerView.saveStatement, allSlots, List.map,
      String.intercalate, String.intercalate.go, RDMarkerView.d_pointer_fields,
      String.append_assoc]
    rfl
  · unfold RDMarkerView.LoadCutData
    rw [hr]
    exact ⟨rfl, fun _ => rfl⟩

/-- Witness for C3: the pointers of the view opened on the row Cut 0..10000, Talk 100..200
are saved to a catalog that holds the cut and read back by a fresh view. -/
theorem save_LoadCutData_roundtrip_witness :
    ∃ v, viewOfRow talkRow = some v ∧
      ((RDMarkerView.new 1000 100 44100).LoadCutData
        (v.save oneCutCatalog "000001_001").1 "000001_001").2.d_pointers = v.d_pointers := by
  obtain ⟨v, hv, -, -⟩ := viewOfRow_talkRow_ready
  exact ⟨v, hv, ((save_LoadCutData_roundtrip v (RDMarkerView.new 1000 100 44100)
    oneCutCatalog "000001_001").2.2.2.2.2.2 (by decide)).2⟩

/-- C7: the dropbox pass threshold `RDIMPORT_DROPBOX_PASSES` is at least 2 and the poll
interval `RDIMPORT_DROPBOX_SCAN_INTERVAL` is positive. -/
theorem dropbox_passes_at_least_two :
    2 ≤ RDIMPORT_DROPBOX_PASSES ∧ 0 < RDIMPORT_DROPBOX_SCAN_INTERVAL := by
  decide
theorem setEntry_cache (d : Dropbox) (fn : String) (e : Option DropboxList) :
    (d.setEntry fn e).timestamp_cache = d.timestamp_cache := rfl

theorem tokenize_example (letters : PlaceholderTable) (ha : letters 'a' = some .artist)
    (ht : letters 't' = some .title) :
    tokenize letters "%a_%t.wav".toList =
      some [.placeholder .artist, .literal '_', .placeholder .title, .literal '.',
        .literal 'w', .literal 'a', .literal 'v'] := by
  have : "%a_%t.wav".toList = ['%', 'a', '_', '%', 't', '.', 'w', 'a', 'v'] := rfl
  rw [this]
  simp [tokenize, ha, ht]

/-- C9: with a placeholder table in which `%a` is the artist and `%t` the title, the pattern
`%a_%t.wav` applied to `Sting_Intro.wav` yields a record with artist `Sting`, title `Intro`
and every other field unset; applied to `Sting-Intro.wav` it yields the absent record, so
no field is set. -/
theorem RunPattern_sting_intro (letters : PlaceholderTable)
    (ha : letters 'a' = some .artist) (ht : letters 't' = some .title) :
    (∃ r, RunPattern letters "%a_%t.wav" "Sting_Intro.wav" = some r ∧
      r .artist = some (.text "Sting") ∧ r .title = some (.text "Intro") ∧
      ∀ f, f ≠ .artist → f ≠ .title → r f = none) ∧
    RunPattern letters "%a_%t.wav" "Sting-Intro.wav" = none ∧
    (∀ f, ((RunPattern letters "%a_%t.wav" "Sting-Intro.wav").getD MetadataRecord.empty) f =
      none) := by
  have hc : compile letters "%a_%t.wav" =
      .ok [.placeholder .artist, .literal '_', .placeholder .title, .literal '.',
        .literal 'w', .literal 'a', .literal 'v'] := by
    unfold compile
    rw [tokenize_example letters ha ht]
    rfl
  have h2 : RunPattern letters "%a_%t.wav" "Sting-Intro.wav" = none := by
    unfold RunPattern
    rw [hc]
    decide
  refine ⟨?_, h2, fun f => by rw [h2]; rfl⟩
  unfold RunPattern
  rw [hc]
  have : (extract [.placeholder .artist, .literal '_', .placeholder .title, .literal '.',
        .literal 'w', .literal 'a', .literal 'v'] "Sting_Intro.wav".toList
        MetadataRecord.empty).map
      (fun r => decide (r .artist = some (.text "Sting") ∧ r .title = some (.text "Intro") ∧
        ∀ f, f ≠ .artist → f ≠ .title → r f = none)) = some true := by decide
  simp only [Option.map_eq_some', decide_eq_true_eq] at this
  obtain ⟨r, hr, h⟩ := this
  exact ⟨r, hr, h⟩

/-- Witness for C9, with the placeholder letters that the spec names. -/
theorem RunPattern_sting_intro_witness :
    (RunPattern specLetters "%a_%t.wav" "Sting_Intro.wav").isSome = true ∧
    RunPattern specLetters "%a_%t.wav" "Sting-Intro.wav" = none := by
  have h := RunPattern_sting_intro specLetters (by decide) (by decide)
  obtain ⟨⟨r, hr, -⟩, h2, -⟩ := h
  exact ⟨by rw [hr]; rfl, h2⟩

theorem tokenize_literal (letters : PlaceholderTable) (c : Char) (rest : List Char)
    (hc : c ≠ '%') :
    tokenize letters (c :: rest) =
      (tokenize letters rest).map fun ts => PatternToken.literal c :: ts := by
  cases rest with
  | nil => simp [tokenize, hc]
  | cons x r => simp [tokenize, hc]

theorem tokenize_percent (letters : PlaceholderTable) (x : Char) (rest : List Char) :
    tokenize letters ('%' :: x :: rest) =
      match letters x with
      | none => none
      | some f => (tokenize letters rest).map fun ts => PatternToken.placeholder f :: ts := by
  simp [tokenize]

theorem tokenize_append (letters : PlaceholderTable) :
    ∀ (n : Nat) (pre : List Char), pre.length ≤ n → ∀ ts, tokenize letters pre = some ts →
      ∀ rest, tokenize letters (pre ++ rest) =
        (tokenize letters rest).map fun us => ts ++ us := by
  intro n
  induction n with
  | zero =>
    intro pre hl ts h rest
    have : pre = [] := List.length_eq_zero.mp (Nat.le_zero.mp hl)
    subst this
    simp only [tokenize, Option.some.injEq] at h
    subst h
    simp
  | succ n ih =>
    intro pre hl ts h rest
    cases pre with
    | nil =>
      simp only [tokenize, Option.some.injEq] at h
      subst h
      simp
    | cons c r =>
      by_cases hc : c = '%'
      · subst hc
        cases r with
        | nil => simp [tokenize] at h
        | cons x r2 =>
          rw [tokenize_percent] at h
          cases hx : letters x with
          | none => simp [hx] at h
          | some f =>
            simp only [hx, Option.map_eq_some'] at h
            obtain ⟨ts2, h2, rfl⟩ := h
            have hl2 : r2.length ≤ n := by
              simp only [List.length_cons] at hl
              omega
            have := ih r2 hl2 ts2 h2 rest
            have e : ('%' :: x :: r2) ++ rest = '%' :: x :: (r2 ++ rest) := rfl
            rw [e, tokenize_percent]
            simp only [hx]
            rw [this, Option.map_map]
            rfl
      · rw [tokenize_literal letters c r hc] at h
        simp only [Option.map_eq_some'] at h
        obtain ⟨ts2, h2, rfl⟩ := h
        have hl2 : r.length ≤ n := by
          simp only [List.length_cons] at hl
          omega
        have := ih r hl2 ts2 h2 rest
        have e : (c :: r) ++ rest = c :: (r ++ rest) := rfl
        rw [e, tokenize_literal letters c _ hc, this, Option.map_map]
        rfl

theorem adjacentPlaceholders_append (f g : MetadataField) (us : List PatternToken) :
    ∀ ts : List PatternToken,
      adjacentPlaceholders (ts ++ PatternToken.placeholder f :: PatternToken.placeholder g :: us)
        = true := by
  intro ts
  induction ts with
  | nil => rfl
  | cons a ts ih =>
    cases ts with
    | nil =>
      cases a with
      | literal c => exact ih
      | placeholder h => rfl
    | cons b ts2 =>
      cases a with
      | literal c => exact ih
      | placeholder h =>
        cases b with
        | literal c => exact ih
        | placeholder k => rfl

/-- C10: for every placeholder table, a pattern in which a placeholder `%x` is immediately
followed by another placeholder `%y` (after a prefix that splits into literals and
placeholders) fails to compile with `InvalidPattern` and is rejected by `VerifyPattern`; in
particular `%a%t.wav` fails with `InvalidPattern`, while `%a_%t.wav` is accepted when `%a`
and `%t` are placeholders of the table. -/
theorem VerifyPattern_rejects_adjacent (letters : PlaceholderTable) :
    (∀ (pre post : List Char) (x y : Char), (tokenize letters pre).isSome = true →
      compile letters (String.mk (pre ++ '%' :: x :: '%' :: y :: post)) =
        .error .InvalidPattern ∧
      VerifyPattern letters (String.mk (pre ++ '%' :: x :: '%' :: y :: post)) = false) ∧
    compile letters "%a%t.wav" = .error .InvalidPattern ∧
    VerifyPattern letters "%a%t.wav" = false ∧
    (letters 'a' = some .artist → letters 't' = some .title →
      VerifyPattern letters "%a_%t.wav" = true) := by
  have main : ∀ (pre post : List Char) (x y : Char), (tokenize letters pre).isSome = true →
      compile letters (String.mk (pre ++ '%' :: x :: '%' :: y :: post)) =
        .error .InvalidPattern := by
    intro pre post x y hpre
    obtain ⟨ts, hts⟩ := Option.isSome_iff_exists.mp hpre
    unfold compile
    have hl : (String.mk (pre ++ '%' :: x :: '%' :: y :: post)).toList =
        pre ++ '%' :: x :: '%' :: y :: post := rfl
    rw [hl, tokenize_append letters pre.length pre (le_refl _) ts hts, tokenize_percent,
      tokenize_percent]
    cases letters x with
    | none => rfl
    | some f =>
      cases letters y with
      | none => rfl
      | some g =>
        cases tokenize letters post with
        | none => rfl
        | some us =>
          simp only [Option.map_some']
          rw [adjacentPlaceholders_append]
          rfl
  have hv : ∀ s, compile letters s = .error .InvalidPattern → VerifyPattern letters s = false := by
    intro s h
    unfold VerifyPattern
    rw [h]
  have h1 : compile letters "%a%t.wav" = .error .InvalidPattern :=
    main [] ['.', 'w', 'a', 'v'] 'a' 't' rfl
  refine ⟨fun pre post x y h => ⟨main pre post x y h, hv _ (main pre post x y h)⟩, h1,
    hv _ h1, fun ha ht => ?_⟩
  unfold VerifyPattern compile
  rw [tokenize_example letters ha ht]
  rfl

/-- Witness for C10, with the placeholder letters that the spec names: `%t%y` after the
prefix `%a-` is rejected, and `%a_%t.wav` is accepted. -/
theorem VerifyPattern_rejects_adjacent_witness :
    VerifyPattern specLetters "%a-%t%y.wav" = false ∧
    VerifyPattern specLetters "%a_%t.wav" = true :=
  ⟨((VerifyPattern_rejects_adjacent specLetters).1 ['%', 'a', '-'] ['.', 'w', 'a', 'v'] 't' 'y'
      (by decide)).2,
    (VerifyPattern_rejects_adjacent specLetters).2.2.2 (by decide) (by decide)⟩

theorem succ_partner : ∀ i i2 : Fin 10,
    (PointerRole.cast i.val = .TalkStart ∨ PointerRole.cast i.val = .SegueStart ∨
      PointerRole.cast i.val = .HookStart) →
    (PointerRole.cast (i.val + 1)).slot = some i2 → i2 = partnerSlot i := by
  decide

theorem pred_partner : ∀ i i2 : Fin 10,
    (PointerRole.cast i.val = .TalkEnd ∨ PointerRole.cast i.val = .SegueEnd ∨
      PointerRole.cast i.val = .HookEnd) →
    (PointerRole.cast (i.val - 1)).slot = some i2 → i2 = partnerSlot i := by
  decide

theorem self_partner : ∀ i : Fin 10,
    (PointerRole.cast i.val = .CutStart ∨ PointerRole.cast i.val = .CutEnd ∨
      PointerRole.cast i.val = .FadeUp ∨ PointerRole.cast i.val = .FadeDown ∨
      PointerRole.cast i.val = .LastRole) → partnerSlot i = i := by
  decide

theorem swipeStep_pointers {v w : RDMarkerView} {i : Fin 10}
    (h : v.swipeStep i = some w) : w.d_pointers = swipePtr v.d_pointers i := by
  unfold RDMarkerView.swipeStep at h
  unfold swipePtr
  simp only at h
  by_cases hc : v.d_pointers i ≥ 0 ∧
      (v.d_pointers i < v.d_pointers ixCutStart ∨ v.d_pointers i > v.d_pointers ixCutEnd)
  · rw [if_pos hc] at h
    rw [if_pos (show 0 ≤ v.d_pointers i ∧ (v.d_pointers i < v.d_pointers ixCutStart ∨
      v.d_pointers ixCutEnd < v.d_pointers i) from hc)]
    simp only [Option.bind_eq_some] at h
    obtain ⟨v1, h1, h2⟩ := h
    obtain ⟨i1, hs1, hsc, rfl⟩ := RemoveMarker_eq_some h1
    rw [slot_cast] at hs1
    cases hs1
    have key : ∀ i2 : Fin 10, i2 = partnerSlot i → w = (v.removed i).removed i2 →
        w.d_pointers =
          Function.update (Function.update v.d_pointers i (-1)) (partnerSlot i) (-1) := by
      intro i2 hi2 hw
      subst hw
      subst hi2
      rfl
    have self : partnerSlot i = i → w = v.removed i →
        w.d_pointers =
          Function.update (Function.update v.d_pointers i (-1)) (partnerSlot i) (-1) := by
      intro hp hw
      subst hw
      rw [hp, Function.update_idem]
      rfl
    split at h2
    · next heq =>
      obtain ⟨i2, hs2, -, hw⟩ := RemoveMarker_eq_some h2
      exact key i2 (succ_partner i i2 (Or.inl heq) hs2) hw
    · next heq =>
      obtain ⟨i2, hs2, -, hw⟩ := RemoveMarker_eq_some h2
      exact key i2 (succ_partner i i2 (Or.inr (Or.inl heq)) hs2) hw
    · next heq =>
      obtain ⟨i2, hs2, -, hw⟩ := RemoveMarker_eq_some h2
      exact key i2 (succ_partner i i2 (Or.inr (Or.inr heq)) hs2) hw
    · next heq =>
      obtain ⟨i2, hs2, -, hw⟩ := RemoveMarker_eq_some h2
      exact key i2 (pred_partner i i2 (Or.inl heq) hs2) hw
    · next heq =>
      obtain ⟨i2, hs2, -, hw⟩ := RemoveMarker_eq_some h2
      exact key i2 (pred_partner i i2 (Or.inr (Or.inl heq)) hs2) hw
    · next heq =>
      obtain ⟨i2, hs2, -, hw⟩ := RemoveMarker_eq_some h2
      exact key i2 (pred_partner i i2 (Or.inr (Or.inr heq)) hs2) hw
    · next heq =>
      cases h2
      exact self (self_partner i (Or.inl heq)) rfl
    · next heq =>
      cases h2
      exact self (self_partner i (Or.inr (Or.inl heq))) rfl
    · next heq =>
      cases h2
      exact self (self_partner i (Or.inr (Or.inr (Or.inl heq)))) rfl
    · next heq =>
      cases h2
      exact self (self_partner i (Or.inr (Or.inr (Or.inr (Or.inl heq))))) rfl
    · next heq =>
      cases h2
      exact self (self_partner i (Or.inr (Or.inr (Or.inr (Or.inr heq))))) rfl
  · rw [if_neg hc] at h
    rw [if_neg (show ¬ (0 ≤ v.d_pointers i ∧ (v.d_pointers i < v.d_pointers ixCutStart ∨
      v.d_pointers ixCutEnd < v.d_pointers i)) from hc)]
    cases h
    rfl

theorem swipeFold_pointers (l : List (Fin 10)) :
    ∀ v w : RDMarkerView, l.foldlM RDMarkerView.swipeStep v = some w →
      w.d_pointers = l.foldl swipePtr v.d_pointers := by
  induction l with
  | nil =>
    intro v w h
    simp only [List.foldlM, Option.pure_def, Option.some.injEq] at h
    subst h
    rfl
  | cons a l ih =>
    intro v w h
    simp only [List.foldlM, Option.bind_eq_bind, Option.bind_eq_some] at h
    obtain ⟨v1, h1, h2⟩ := h
    rw [ih v1 w h2, swipeStep_pointers h1]
    rfl
theorem swipePtr_other (p : Fin 10 → Int) (i j : Fin 10) (h1 : j ≠ i)
    (h2 : j ≠ partnerSlot i) : swipePtr p i j = p j := by
  unfold swipePtr
  split
  · rw [Function.update_noteq h2, Function.update_noteq h1]
  · rfl

theorem foldl_swipePtr_other (j : Fin 10) :
    ∀ (l : List (Fin 10)) (p : Fin 10 → Int), (∀ i ∈ l, j ≠ i ∧ j ≠ partnerSlot i) →
      l.foldl swipePtr p j = p j := by
  intro l
  induction l with
  | nil => intro p _; rfl
  | cons a l ih =>
    intro p h
    simp only [List.foldl]
    rw [ih _ (fun i hi => h i (List.mem_cons_of_mem a hi))]
    exact swipePtr_other p a j (h a (List.mem_cons_self a l)).1 (h a (List.mem_cons_self a l)).2

theorem swiped_congr {p q : Fin 10 → Int} {i : Fin 10} (hi : q i = p i)
    (h0 : q ixCutStart = p ixCutStart) (h1 : q ixCutEnd = p ixCutEnd) :
    swiped q i ↔ swiped p i := by
  unfold swiped
  rw [hi, h0, h1]

theorem swipePtr_pos {p : Fin 10 → Int} {i : Fin 10} (h : swiped p i) :
    swipePtr p i = Function.update (Function.update p i (-1)) (partnerSlot i) (-1) := by
  unfold swipePtr
  exact if_pos h

theorem swipePtr_neg {p : Fin 10 → Int} {i : Fin 10} (h : ¬ swiped p i) :
    swipePtr p i = p := by
  unfold swipePtr
  exact if_neg h

theorem swipePtr_pair (p : Fin 10 → Int) (s e : Fin 10) (hse : partnerSlot s = e)
    (hes : partnerSlot e = s) (hne : s ≠ e) :
    (swiped p s ∨ swiped p e →
      swipePtr (swipePtr p s) e s = -1 ∧ swipePtr (swipePtr p s) e e = -1) ∧
    (¬ swiped p s → ¬ swiped p e →
      swipePtr (swipePtr p s) e s = p s ∧ swipePtr (swipePtr p s) e e = p e) := by
  by_cases h1 : swiped p s
  · have e1 : swipePtr p s = Function.update (Function.update p s (-1)) e (-1) := by
      rw [swipePtr_pos h1, hse]
    have e2 : swipePtr (swipePtr p s) e = swipePtr p s := by
      rw [e1]
      apply swipePtr_neg
      intro h
      unfold swiped at h
      rw [Function.update_same] at h
      exact absurd h.1 (by decide)
    rw [e2, e1]
    refine ⟨fun _ => ⟨?_, ?_⟩, fun h => absurd h1 h⟩
    · rw [Function.update_noteq hne, Function.update_same]
    · rw [Function.update_same]
  · have e1 : swipePtr p s = p := swipePtr_neg h1
    rw [e1]
    by_cases h2 : swiped p e
    · have e2 : swipePtr p e = Function.update (Function.update p e (-1)) s (-1) := by
        rw [swipePtr_pos h2, hes]
      rw [e2]
      refine ⟨fun _ => ⟨?_, ?_⟩, fun _ h => absurd h2 h⟩
      · rw [Function.update_same]
      · rw [Function.update_noteq (Ne.symm hne), Function.update_same]
    · have e2 : swipePtr p e = p := swipePtr_neg h2
      rw [e2]
      exact ⟨fun h => (h.elim (fun a => absurd a h1) (fun a => absurd a h2)),
        fun _ _ => ⟨rfl, rfl⟩⟩

theorem swipePtr_single (p : Fin 10 → Int) (f : Fin 10) (hf : partnerSlot f = f) :
    (swiped p f → swipePtr p f f = -1) ∧ (¬ swiped p f → swipePtr p f f = p f) := by
  constructor
  · intro h
    rw [swipePtr_pos h, hf, Function.update_same]
  · intro h
    rw [swipePtr_neg h]

theorem foldl_swipePtr_pair (p : Fin 10 → Int) (pre post : List (Fin 10)) (s e : Fin 10)
    (hse : partnerSlot s = e) (hes : partnerSlot e = s) (hne : s ≠ e)
    (hpre : ∀ j, (j = ixCutStart ∨ j = ixCutEnd ∨ j = s ∨ j = e) →
      ∀ i ∈ pre, j ≠ i ∧ j ≠ partnerSlot i)
    (hpost : ∀ j, (j = s ∨ j = e) → ∀ i ∈ post, j ≠ i ∧ j ≠ partnerSlot i) :
    (swiped p s ∨ swiped p e →
      (pre ++ s :: e :: post).foldl swipePtr p s = -1 ∧
      (pre ++ s :: e :: post).foldl swipePtr p e = -1) ∧
    (¬ swiped p s → ¬ swiped p e →
      (pre ++ s :: e :: post).foldl swipePtr p s = p s ∧
      (pre ++ s :: e :: post).foldl swipePtr p e = p e) := by
  have a0 := foldl_swipePtr_other ixCutStart pre p (hpre _ (Or.inl rfl))
  have a1 := foldl_swipePtr_other ixCutEnd pre p (hpre _ (Or.inr (Or.inl rfl)))
  have as := foldl_swipePtr_other s pre p (hpre _ (Or.inr (Or.inr (Or.inl rfl))))
  have ae := foldl_swipePtr_other e pre p (hpre _ (Or.inr (Or.inr (Or.inr rfl))))
  have hs : swiped (pre.foldl swipePtr p) s ↔ swiped p s := swiped_congr as a0 a1
  have he : swiped (pre.foldl swipePtr p) e ↔ swiped p e := swiped_congr ae a0 a1
  have key := swipePtr_pair (pre.foldl swipePtr p) s e hse hes hne
  rw [hs, he, as, ae] at key
  simp only [List.foldl_append, List.foldl]
  rw [foldl_swipePtr_other s post _ (hpost _ (Or.inl rfl)),
    foldl_swipePtr_other e post _ (hpost _ (Or.inr rfl))]
  exact key

theorem foldl_swipePtr_single (p : Fin 10 → Int) (pre post : List (Fin 10)) (f : Fin 10)
    (hf : partnerSlot f = f)
    (hpre : ∀ j, (j = ixCutStart ∨ j = ixCutEnd ∨ j = f) →
      ∀ i ∈ pre, j ≠ i ∧ j ≠ partnerSlot i)
    (hpost : ∀ i ∈ post, f ≠ i ∧ f ≠ partnerSlot i) :
    (swiped p f → (pre ++ f :: post).foldl swipePtr p f = -1) ∧
    (¬ swiped p f → (pre ++ f :: post).foldl swipePtr p f = p f) := by
  have a0 := foldl_swipePtr_other ixCutStart pre p (hpre _ (Or.inl rfl))
  have a1 := foldl_swipePtr_other ixCutEnd pre p (hpre _ (Or.inr (Or.inl rfl)))
  have af := foldl_swipePtr_other f pre p (hpre _ (Or.inr (Or.inr rfl)))
  have hs : swiped (pre.foldl swipePtr p) f ↔ swiped p f := swiped_congr af a0 a1
  have key := swipePtr_single (pre.foldl swipePtr p) f hf
  rw [hs, af] at key
  simp only [List.foldl_append, List.foldl]
  rw [foldl_swipePtr_other f post _ hpost]
  exact key
theorem updateInterlocks_pointers {v w : RDMarkerView} (h : v.updateInterlocks = some w) :
    w.d_pointers = ([2, 3, 4, 5, 6, 7, 8, 9] : List (Fin 10)).foldl swipePtr v.d_pointers := by
  unfold RDMarkerView.updateInterlocks at h
  simp only [Option.bind_eq_some] at h
  obtain ⟨v1, h1, h2⟩ := h
  rw [sameButStops_pointers (limitStops_same h2)]
  exact swipeFold_pointers _ v v1 h1

theorem not_swiped_of_inside {p : Fin 10 → Int} {i : Fin 10}
    (h : p ixCutStart ≤ p i ∧ p i ≤ p ixCutEnd) : ¬ swiped p i := by
  unfold swiped
  omega

/-- C11: after `updateInterlocks`, for each of the Talk, Segue and Hook pairs: a pair that
was fully set or fully unset is again fully set or fully unset; when either member is set
and lies outside `[CutStart, CutEnd]` both members are removed (-1); a pair whose two
members both lie inside `[CutStart, CutEnd]`, and more generally a pair neither of whose
members is swiped, is left unchanged. Fade Up and Fade Down are each removed exactly when
they themselves are set and lie outside the range, and are unchanged otherwise.
`updateInterlocks` completes when the scene and the Cut handles exist. -/
theorem swipe_removal_pairwise (v : RDMarkerView) :
    (∀ w, v.updateInterlocks = some w → ∀ s e : Fin 10,
      ((s = ixTalkStart ∧ e = ixTalkEnd) ∨ (s = ixSegueStart ∧ e = ixSegueEnd) ∨
        (s = ixHookStart ∧ e = ixHookEnd)) →
      (((0 ≤ v.d_pointers s ∧ 0 ≤ v.d_pointers e) ∨
          (v.d_pointers s < 0 ∧ v.d_pointers e < 0)) →
        ((0 ≤ w.d_pointers s ∧ 0 ≤ w.d_pointers e) ∨
          (w.d_pointers s < 0 ∧ w.d_pointers e < 0))) ∧
      (swiped v.d_pointers s ∨ swiped v.d_pointers e →
        w.d_pointers s = -1 ∧ w.d_pointers e = -1) ∧
      ((v.d_pointers ixCutStart ≤ v.d_pointers s ∧ v.d_pointers s ≤ v.d_pointers ixCutEnd) ∧
        (v.d_pointers ixCutStart ≤ v.d_pointers e ∧ v.d_pointers e ≤ v.d_pointers ixCutEnd) →
        w.d_pointers s = v.d_pointers s ∧ w.d_pointers e = v.d_pointers e) ∧
      (¬ swiped v.d_pointers s → ¬ swiped v.d_pointers e →
        w.d_pointers s = v.d_pointers s ∧ w.d_pointers e = v.d_pointers e)) ∧
    (∀ w, v.updateInterlocks = some w → ∀ f : Fin 10, (f = ixFadeUp ∨ f = ixFadeDown) →
      (swiped v.d_pointers f → w.d_pointers f = -1) ∧
      (¬ swiped v.d_pointers f → w.d_pointers f = v.d_pointers f)) ∧
    (v.d_scene = true → v.cutHandles → ∃ w, v.updateInterlocks = some w) := by
  refine ⟨fun w h s e hse => ?_, fun w h f hf => ?_, fun hs hc =>
    updateInterlocks_isSome hs hc⟩
  · have hp := updateInterlocks_pointers h
    have key : (swiped v.d_pointers s ∨ swiped v.d_pointers e →
          w.d_pointers s = -1 ∧ w.d_pointers e = -1) ∧
        (¬ swiped v.d_pointers s → ¬ swiped v.d_pointers e →
          w.d_pointers s = v.d_pointers s ∧ w.d_pointers e = v.d_pointers e) := by
      rw [hp]
      rcases hse with ⟨rfl, rfl⟩ | ⟨rfl, rfl⟩ | ⟨rfl, rfl⟩
      · exact foldl_swipePtr_pair v.d_pointers [] [4, 5, 6, 7, 8, 9] ixTalkStart ixTalkEnd
          (by decide) (by decide) (by decide) (by decide) (by decide)
      · exact foldl_swipePtr_pair v.d_pointers [2, 3] [6, 7, 8, 9] ixSegueStart ixSegueEnd
          (by decide) (by decide) (by decide) (by decide) (by decide)
      · exact foldl_swipePtr_pair v.d_pointers [2, 3, 4, 5] [8, 9] ixHookStart ixHookEnd
          (by decide) (by decide) (by decide) (by decide) (by decide)
    refine ⟨fun hfull => ?_, key.1, fun hin => key.2 (not_swiped_of_inside hin.1)
      (not_swiped_of_inside hin.2), key.2⟩
    by_cases h1 : swiped v.d_pointers s ∨ swiped v.d_pointers e
    · obtain ⟨a, b⟩ := key.1 h1
      right
      rw [a, b]
      decide
    · obtain ⟨a, b⟩ := key.2 (fun x => h1 (Or.inl x)) (fun x => h1 (Or.inr x))
      rw [a, b]
      exact hfull
  · have hp := updateInterlocks_pointers h
    rw [hp]
    rcases hf with rfl | rfl
    · exact foldl_swipePtr_single v.d_pointers [2, 3, 4, 5, 6, 7] [9] ixFadeUp
        (by decide) (by decide) (by decide)
    · exact foldl_swipePtr_single v.d_pointers [2, 3, 4, 5, 6, 7, 8] [] ixFadeDown
        (by decide) (by decide) (by decide)
/-- The view opened on the row Cut 0..10000, Talk 100..200 holds that row, with its scene
and its Cut handles. -/
theorem viewOfRow_talkRow_pointers :
    ∃ v, viewOfRow talkRow = some v ∧ v.d_scene = true ∧ v.cutHandles ∧
      ∀ i, v.d_pointers i = talkRow i := by
  obtain ⟨v, hv, hs, hc⟩ := viewOfRow_talkRow_ready
  refine ⟨v, hv, hs, hc, ?_⟩
  have : (viewOfRow talkRow).map
      (fun u => decide (∀ i : Fin 10, u.d_pointers i = talkRow i)) = some true := by decide
  simpa [hv] using this

/-- Witness for C11: in the view opened on the row Cut 0..10000, Talk 100..200, with the
Cut Start pointer then set to 150, `updateInterlocks` completes and removes Talk Start
(100, outside the cut) together with Talk End (200, inside the cut). -/
theorem swipe_removal_pairwise_witness :
    ∃ v w, viewOfRow talkRow = some v ∧
      RDMarkerView.updateInterlocks
        { v with d_pointers := Function.update v.d_pointers ixCutStart 150 } = some w ∧
      w.d_pointers ixTalkStart = -1 ∧ w.d_pointers ixTalkEnd = -1 := by
  obtain ⟨v, hv, hs, hc, hp⟩ := viewOfRow_talkRow_pointers
  have c11 := swipe_removal_pairwise
    { v with d_pointers := Function.update v.d_pointers ixCutStart 150 }
  obtain ⟨w, hw⟩ := c11.2.2 hs hc
  have hsw : swiped (Function.update v.d_pointers ixCutStart 150) ixTalkStart := by
    unfold swiped
    rw [Function.update_same, Function.update_noteq (by decide), hp ixTalkStart]
    exact ⟨by decide, Or.inl (by decide)⟩
  have r := (c11.1 w hw ixTalkStart ixTalkEnd (Or.inl ⟨rfl, rfl⟩)).2.1 (Or.inl hsw)
  exact ⟨v, w, hv, hw, r.1, r.2⟩

theorem RemoveMarker_pointerValue {u w : RDMarkerView} {a : PointerRole}
    (h : u.RemoveMarker a = some w) :
    w.pointerValue a = some (-1) ∧ (∀ r, r ≠ a → w.pointerValue r = u.pointerValue r) ∧
    w.d_scene = u.d_scene := by
  obtain ⟨i, hi, -, rfl⟩ := RemoveMarker_eq_some h
  refine ⟨by simp [RDMarkerView.pointerValue, hi, RDMarkerView.removed], fun r hr => ?_, rfl⟩
  unfold RDMarkerView.pointerValue
  cases h2 : r.slot with
  | none => rfl
  | some k =>
    have hk : k ≠ i := by
      intro hki
      subst hki
      exact hr (slot_injective h2 hi)
    simp [RDMarkerView.removed, Function.update_noteq hk]

theorem removeFold_spec (l : List PointerRole) :
    ∀ u w : RDMarkerView, l.foldlM RDMarkerView.RemoveMarker u = some w →
      (∀ r ∈ l, w.pointerValue r = some (-1)) ∧
      (∀ r, r ∉ l → w.pointerValue r = u.pointerValue r) := by
  induction l with
  | nil =>
    intro u w h
    simp only [List.foldlM, Option.pure_def, Option.some.injEq] at h
    subst h
    exact ⟨fun r hr => absurd hr (List.not_mem_nil r), fun _ _ => rfl⟩
  | cons a l ih =>
    intro u w h
    simp only [List.foldlM, Option.bind_eq_bind, Option.bind_eq_some] at h
    obtain ⟨u1, h1, h2⟩ := h
    have s1 := RemoveMarker_pointerValue h1
    have s2 := ih u1 w h2
    refine ⟨fun r hr => ?_, fun r hr => ?_⟩
    · by_cases hl : r ∈ l
      · exact s2.1 r hl
      · rcases List.mem_cons.mp hr with rfl | hr
        · rw [s2.2 r hl]; exact s1.1
        · exact absurd hr hl
    · have hra : r ≠ a := fun e => hr (e ▸ List.mem_cons_self a l)
      have hrl : r ∉ l := fun e => hr (List.mem_cons_of_mem a e)
      rw [s2.2 r hrl]
      exact s1.2.1 r hra

theorem removeFold_isSome (l : List PointerRole) :
    ∀ u : RDMarkerView, u.d_scene = true → (∀ r ∈ l, r ≠ PointerRole.LastRole) →
      ∃ w, l.foldlM RDMarkerView.RemoveMarker u = some w := by
  induction l with
  | nil => intro u _ _; exact ⟨u, rfl⟩
  | cons a l ih =>
    intro u hs hl
    obtain ⟨i, hi⟩ := slot_isSome (hl a (List.mem_cons_self a l))
    have h1 := RemoveMarker_of_slot (v := u) hi hs
    obtain ⟨w, hw⟩ := ih (u.removed i) hs (fun r hr => hl r (List.mem_cons_of_mem a hr))
    exact ⟨w, by simp only [List.foldlM, Option.bind_eq_bind, h1, Option.some_bind, hw]⟩

theorem processRightClick_roles (v : RDMarkerView) (role : PointerRole) :
    (v.processRightClick role).d_deleting_roles = deletingRolesByTable role := by
  cases role <;> rfl

/-- C12: with the roles numbered in the order of the pointer field table, the roles that
`processRightClick` selects by `role+1` / `role-1` are, for every role, the role itself
plus its partner in the explicit pair table (Talk, Segue, Hook; no partner for the Cut and
Fade roles); a following `deleteMarkerData` sets the pointers of exactly those roles to -1,
leaves every other pointer unchanged and empties the list of roles to delete; it completes
for each of the ten marker roles when the scene exists. -/
theorem processRightClick_agrees_with_pair_table (v : RDMarkerView) (role : PointerRole) :
    [PointerRole.CutStart, .CutEnd, .TalkStart, .TalkEnd, .SegueStart, .SegueEnd, .HookStart,
      .HookEnd, .FadeUp, .FadeDown].map PointerRole.toNat = [0, 1, 2, 3, 4, 5, 6, 7, 8, 9] ∧
    (v.processRightClick role).d_deleting_roles = deletingRolesByTable role ∧
    (pairPartner .CutStart = none ∧ pairPartner .CutEnd = none ∧ pairPartner .FadeUp = none ∧
      pairPartner .FadeDown = none) ∧
    (pairPartner .TalkStart = some .TalkEnd ∧ pairPartner .TalkEnd = some .TalkStart ∧
      pairPartner .SegueStart = some .SegueEnd ∧ pairPartner .SegueEnd = some .SegueStart ∧
      pairPartner .HookStart = some .HookEnd ∧ pairPartner .HookEnd = some .HookStart) ∧
    (∀ w, (v.processRightClick role).deleteMarkerData = some w →
      (∀ r ∈ deletingRolesByTable role, w.pointerValue r = some (-1)) ∧
      (∀ r, r ∉ deletingRolesByTable role → w.pointerValue r = v.pointerValue r) ∧
      w.d_deleting_roles = []) ∧
    (role ≠ PointerRole.LastRole → v.d_scene = true →
      ∃ w, (v.processRightClick role).deleteMarkerData = some w) := by
  refine ⟨rfl, processRightClick_roles v role, ⟨rfl, rfl, rfl, rfl⟩,
    ⟨rfl, rfl, rfl, rfl, rfl, rfl⟩, fun w h => ?_, fun hr hs => ?_⟩
  · unfold RDMarkerView.deleteMarkerData at h
    simp only [Option.map_eq_some'] at h
    obtain ⟨u, hu, rfl⟩ := h
    rw [processRightClick_roles] at hu
    have s := removeFold_spec _ _ _ hu
    exact ⟨s.1, s.2, rfl⟩
  · have hl : ∀ r ∈ deletingRolesByTable role, r ≠ PointerRole.LastRole := by
      cases role <;> first | exact absurd rfl hr | decide
    obtain ⟨u, hu⟩ := removeFold_isSome (deletingRolesByTable role)
      (v.processRightClick role) hs hl
    unfold RDMarkerView.deleteMarkerData
    rw [processRightClick_roles, hu]
    exact ⟨_, rfl⟩

/-- Witness for C12: in the view opened on the row Cut 0..10000, Talk 100..200, a right
click on the Talk End handle followed by `deleteMarkerData` unsets Talk End and Talk Start
and keeps Cut End. -/
theorem processRightClick_agrees_with_pair_table_witness :
    ∃ v w, viewOfRow talkRow = some v ∧
      (v.processRightClick .TalkEnd).d_deleting_roles = [.TalkEnd, .TalkStart] ∧
      (v.processRightClick .TalkEnd).deleteMarkerData = some w ∧
      w.pointerValue .TalkStart = some (-1) ∧ w.pointerValue .TalkEnd = some (-1) ∧
      w.pointerValue .CutEnd = v.pointerValue .CutEnd := by
  obtain ⟨v, hv, hs, -⟩ := viewOfRow_talkRow_ready
  have c12 := processRightClick_agrees_with_pair_table v .TalkEnd
  obtain ⟨w, hw⟩ := c12.2.2.2.2.2 (by decide) hs
  have r := c12.2.2.2.2.1 w hw
  exact ⟨v, w, hv, c12.2.1, hw, r.1 _ (by decide), r.1 _ (by decide), r.2.1 _ (by decide)⟩
theorem toInt32_of_range {z : Int} (h1 : -2147483648 ≤ z) (h2 : z < 2147483648) :
    toInt32 z = z := by
  unfold toInt32
  omega

theorem toInt64_of_range {z : Int} (h1 : -9223372036854775808 ≤ z)
    (h2 : z < 9223372036854775808) : toInt64 z = z := by
  unfold toInt64
  omega

theorem movePeers_pos (s : RDMarkerView) (i : Fin 10) (peers : List (Fin 2)) (x : Int)
    (b : Fin 2) (hb : b ∈ peers) (hs : (s.d_handles i b).isSome = true) :
    ((s.movePeers i peers x).d_handles i b).map (fun g => g.pos_x) = some x := by
  obtain ⟨g, hg⟩ := Option.isSome_iff_exists.mp hs
  simp [RDMarkerView.movePeers, hb, hg]

theorem movePeers_isSome (s : RDMarkerView) (i : Fin 10) (peers : List (Fin 2)) (x : Int)
    (a : Fin 10) (b : Fin 2) :
    ((s.movePeers i peers x).d_handles a b).isSome = (s.d_handles a b).isSome := by
  unfold RDMarkerView.movePeers
  simp only
  split
  · rw [Option.isSome_map']
  · rfl

theorem movePeers_x_diff (s : RDMarkerView) (i : Fin 10) (peers : List (Fin 2)) (x : Int)
    (a : Fin 10) (b : Fin 2) :
    ((s.movePeers i peers x).d_handles a b).map (fun g => g.d_x_diff) =
      (s.d_handles a b).map (fun g => g.d_x_diff) := by
  unfold RDMarkerView.movePeers
  simp only
  split
  · rw [Option.map_map]
    rfl
  · rfl

theorem updateInterlocks_handles {v w : RDMarkerView} (h : v.updateInterlocks = some w)
    (a : Fin 10) (b : Fin 2) :
    w.d_handles a b = none ∨
      (w.d_handles a b).map (fun g => g.pos_x) = (v.d_handles a b).map (fun g => g.pos_x) := by
  unfold RDMarkerView.updateInterlocks at h
  simp only [Option.bind_eq_some] at h
  obtain ⟨v1, h1, h2⟩ := h
  obtain ⟨p, hs, rfl, -, hh⟩ := (swipeLoop_spec h1).1
  obtain ⟨hs2, rfl, h3⟩ := limitStops_same h2
  have h4 : (hs2 a b).map RDMarkerHandle.clearStops =
      (hs a b).map RDMarkerHandle.clearStops := h3 a b
  have h5 : (hs2 a b).map (fun g => g.pos_x) = (hs a b).map (fun g => g.pos_x) := by
    have := congrArg (Option.map (fun g : RDMarkerHandle => g.pos_x)) h4
    rw [Option.map_map, Option.map_map] at this
    exact this
  rcases hh a b with e | ⟨-, e⟩
  · right
    show (hs2 a b).map (fun g => g.pos_x) = (v.d_handles a b).map (fun g => g.pos_x)
    rw [h5, e]
  · left
    show hs2 a b = none
    rw [e] at h4
    simpa using h4

theorem drag_positions (v : RDMarkerView) (role : PointerRole) (i : Fin 10) (j : Fin 2)
    (h : RDMarkerHandle) (x_diff x ptr : Int) (hslot : role.slot = some i)
    (hh : v.d_handles i j = some h) :
    ((((v.setHandle i j { h with d_x_diff := x_diff }).movePeers i h.d_peers x).d_handles
        i j).map (fun g => g.d_x_diff) = some x_diff) ∧
    (∀ b ∈ h.d_peers, (v.d_handles i b).isSome = true →
      ((((v.setHandle i j { h with d_x_diff := x_diff }).movePeers i h.d_peers x).d_handles
        i b).map (fun g => g.pos_x) = some x)) ∧
    (∀ w, RDMarkerView.updatePosition
        ((v.setHandle i j { h with d_x_diff := x_diff }).movePeers i h.d_peers x) role ptr =
          some w →
      ∀ b ∈ h.d_peers, w.d_handles i b = none ∨
        (w.d_handles i b).map (fun g => g.pos_x) = some x) ∧
    (v.d_scene = true → v.cutHandles →
      ∃ w, RDMarkerView.updatePosition
        ((v.setHandle i j { h with d_x_diff := x_diff }).movePeers i h.d_peers x) role ptr =
          some w) := by
  have hsome : ∀ a b, (v.d_handles a b).isSome = true →
      (((v.setHandle i j { h with d_x_diff := x_diff }).movePeers i h.d_peers x).d_handles
        a b).isSome = true := by
    intro a b hab
    rw [movePeers_isSome]
    exact setHandle_isSome _ _ _ _ _ _ hab
  have hpos : ∀ b ∈ h.d_peers, (v.d_handles i b).isSome = true →
      ((((v.setHandle i j { h with d_x_diff := x_diff }).movePeers i h.d_peers x).d_handles
        i b).map (fun g => g.pos_x) = some x) := fun b hb hab =>
    movePeers_pos _ _ _ _ _ hb (setHandle_isSome _ _ _ _ _ _ hab)
  refine ⟨?_, hpos, fun w hw b hb => ?_, fun hs hc => ?_⟩
  · rw [movePeers_x_diff]
    simp [RDMarkerView.setHandle]
  · unfold RDMarkerView.updatePosition at hw
    rw [hslot, Option.some_bind] at hw
    rcases updateInterlocks_handles hw i b with e | e
    · exact Or.inl e
    · cases hv : v.d_handles i b with
      | none =>
        by_cases hbj : b = j
        · subst hbj
          rw [hh] at hv
          cases hv
        · left
          have hn : (((v.setHandle i j { h with d_x_diff := x_diff }).movePeers i h.d_peers
              x).d_handles i b) = none := by
            simp [RDMarkerView.movePeers, RDMarkerView.setHandle, hb, hv,
              Function.update_noteq hbj]
          have e2 : (w.d_handles i b).map (fun g => g.pos_x) = none := by
            rw [e]
            show Option.map (fun g => g.pos_x)
              (((v.setHandle i j { h with d_x_diff := x_diff }).movePeers i h.d_peers
                x).d_handles i b) = none
            rw [hn]
            rfl
          simpa using e2
      | some g =>
        right
        rw [e]
        exact hpos b hb (by rw [hv]; rfl)
  · unfold RDMarkerView.updatePosition
    rw [hslot, Option.some_bind]
    exact updateInterlocks_isSome hs
      (fun b => ⟨hsome _ _ (hc b).1, hsome _ _ (hc b).2⟩)

/-- What `mouseMoveEvent` does with the limit stops, and where its value is the plain
quotient: for a handle whose stops are `(min_pos, min_ptr)` and `(max_pos, max_ptr)` with
`0 <= min_pos <= max_pos` and both stop pointers `>= 0`, and the raw position
`x = scene x + d_x_diff - LEFT_MARGIN`: `mouseMoveEvent` uses a position `pos` in
`[min_pos, max_pos]`; the handle stores the `d_x_diff` that puts it there
(`scene x + d_x_diff = LEFT_MARGIN + pos`), its peer items are moved to `LEFT_MARGIN + pos`
and are there (or removed by the swipe check) when the event is done, which it is when the
scene and the Cut handles exist. `updatePosition` is handed exactly `min_ptr` when
`x < min_pos`, exactly `max_ptr` when `x > max_pos`, and otherwise the value computed from
`x` by the source expression with its casts, which is `1000*(1152*x*shrinkFactor)/sampleRate`
when `1152*x*shrinkFactor` and that quotient fit an `int` (the sample rate being an
unsigned value). -/
theorem limit_stops_clamp (v : RDMarkerView) (role : PointerRole) (j : Fin 2) (i : Fin 10)
    (h : RDMarkerHandle) (scene_x min_pos min_ptr max_pos max_ptr : Int)
    (hslot : role.slot = some i) (hh : v.d_handles i j = some h) (hrole : h.d_role = role)
    (e1 : h.d_minimum_pos = some min_pos) (e2 : h.d_minimum_ptr = some min_ptr)
    (e3 : h.d_maximum_pos = some max_pos) (e4 : h.d_maximum_ptr = some max_ptr)
    (hmin : 0 ≤ min_pos) (hle : min_pos ≤ max_pos) (hp1 : 0 ≤ min_ptr) (hp2 : 0 ≤ max_ptr) :
    ∃ pos x_diff limit_ptr,
      h.checkLimitStops scene_x = some (pos, x_diff, limit_ptr) ∧
      RDMarkerHandle.mouseMoveEvent v role j scene_x =
        RDMarkerView.updatePosition
          ((v.setHandle i j { h with d_x_diff := x_diff }).movePeers i h.d_peers
            (scene_x + x_diff))
          role (RDMarkerHandle.dragPointer v pos limit_ptr) ∧
      scene_x + x_diff = LEFT_MARGIN + pos ∧
      ((((v.setHandle i j { h with d_x_diff := x_diff }).movePeers i h.d_peers
          (scene_x + x_diff)).d_handles i j).map (fun g => g.d_x_diff) = some x_diff) ∧
      (∀ b ∈ h.d_peers, (v.d_handles i b).isSome = true →
        ((((v.setHandle i j { h with d_x_diff := x_diff }).movePeers i h.d_peers
          (scene_x + x_diff)).d_handles i b).map (fun g => g.pos_x) =
            some (LEFT_MARGIN + pos))) ∧
      (∀ w, RDMarkerHandle.mouseMoveEvent v role j scene_x = some w →
        ∀ b ∈ h.d_peers, w.d_handles i b = none ∨
          (w.d_handles i b).map (fun g => g.pos_x) = some (LEFT_MARGIN + pos)) ∧
      (v.d_scene = true → v.cutHandles →
        ∃ w, RDMarkerHandle.mouseMoveEvent v role j scene_x = some w) ∧
      (min_pos ≤ pos ∧ pos ≤ max_pos) ∧
      (scene_x + h.d_x_diff - LEFT_MARGIN < min_pos →
        pos = min_pos ∧ RDMarkerHandle.dragPointer v pos limit_ptr = min_ptr) ∧
      (scene_x + h.d_x_diff - LEFT_MARGIN > max_pos →
        pos = max_pos ∧ RDMarkerHandle.dragPointer v pos limit_ptr = max_ptr) ∧
      (min_pos ≤ scene_x + h.d_x_diff - LEFT_MARGIN →
        scene_x + h.d_x_diff - LEFT_MARGIN ≤ max_pos →
        pos = scene_x + h.d_x_diff - LEFT_MARGIN ∧
        RDMarkerHandle.dragPointer v pos limit_ptr =
          toInt32 (Int.tdiv (toInt64 (1000 * toInt64 (toInt32 (1152 * pos * v.shrinkFactor))))
            (toInt64 (v.sampleRate : Int))) ∧
        (-2147483648 ≤ 1152 * pos * v.shrinkFactor → 1152 * pos * v.shrinkFactor < 2147483648 →
          (v.sampleRate : Int) < 4294967296 →
          -2147483648 ≤ Int.tdiv (1000 * (1152 * pos * v.shrinkFactor)) (v.sampleRate : Int) →
          Int.tdiv (1000 * (1152 * pos * v.shrinkFactor)) (v.sampleRate : Int) < 2147483648 →
          RDMarkerHandle.dragPointer v pos limit_ptr =
            Int.tdiv (1000 * (1152 * pos * v.shrinkFactor)) (v.sampleRate : Int))) := by
  have hmax : 0 ≤ max_pos := le_trans hmin hle
  have link : ∀ pos xd lp, h.checkLimitStops scene_x = some (pos, xd, lp) →
      RDMarkerHandle.mouseMoveEvent v role j scene_x =
        RDMarkerView.updatePosition
          ((v.setHandle i j { h with d_x_diff := xd }).movePeers i h.d_peers
            (scene_x + xd))
          role (RDMarkerHandle.dragPointer v pos lp) := by
    intro pos xd lp hr
    unfold RDMarkerHandle.mouseMoveEvent
    simp only [hslot, hh, hr, Option.some_bind, hrole]
  have moved : ∀ pos xd lp, h.checkLimitStops scene_x = some (pos, xd, lp) →
      scene_x + xd = LEFT_MARGIN + pos →
      ((((v.setHandle i j { h with d_x_diff := xd }).movePeers i h.d_peers
          (scene_x + xd)).d_handles i j).map (fun g => g.d_x_diff) = some xd) ∧
      (∀ b ∈ h.d_peers, (v.d_handles i b).isSome = true →
        ((((v.setHandle i j { h with d_x_diff := xd }).movePeers i h.d_peers
          (scene_x + xd)).d_handles i b).map (fun g => g.pos_x) =
            some (LEFT_MARGIN + pos))) ∧
      (∀ w, RDMarkerHandle.mouseMoveEvent v role j scene_x = some w →
        ∀ b ∈ h.d_peers, w.d_handles i b = none ∨
          (w.d_handles i b).map (fun g => g.pos_x) = some (LEFT_MARGIN + pos)) ∧
      (v.d_scene = true → v.cutHandles →
        ∃ w, RDMarkerHandle.mouseMoveEvent v role j scene_x = some w) := by
    intro pos xd lp hr hx
    rw [link pos xd lp hr, ← hx]
    exact drag_positions v role i j h xd (scene_x + xd)
      (RDMarkerHandle.dragPointer v pos lp) hslot hh
  by_cases c1 : scene_x + h.d_x_diff - LEFT_MARGIN < min_pos
  · have hc : h.checkLimitStops scene_x =
        some (min_pos, min_pos - scene_x + LEFT_MARGIN, min_ptr) := by
      unfold RDMarkerHandle.checkLimitStops
      simp only [e1, e2, Option.some_bind]
      rw [if_pos ⟨hmin, c1⟩]
    have hd : RDMarkerHandle.dragPointer v min_pos min_ptr = min_ptr := by
      unfold RDMarkerHandle.dragPointer
      rw [if_neg (not_lt.mpr hp1)]
    have hx : scene_x + (min_pos - scene_x + LEFT_MARGIN) = LEFT_MARGIN + min_pos := by
      omega
    obtain ⟨m1, m2, m3, m4⟩ := moved _ _ _ hc hx
    refine ⟨min_pos, min_pos - scene_x + LEFT_MARGIN, min_ptr, hc, link _ _ _ hc, hx,
      m1, m2, m3, m4, ⟨le_refl _, hle⟩, fun _ => ⟨rfl, hd⟩, fun c => ?_, fun c _ => ?_⟩
    · exact False.elim (by omega)
    · exact False.elim (by omega)
  · by_cases c2 : scene_x + h.d_x_diff - LEFT_MARGIN > max_pos
    · have hc : h.checkLimitStops scene_x =
          some (max_pos, max_pos - scene_x + LEFT_MARGIN, max_ptr) := by
        unfold RDMarkerHandle.checkLimitStops
        simp only [e1, e2, e3, e4, Option.some_bind]
        rw [if_neg (fun c => c1 c.2), if_pos ⟨hmax, c2⟩]
      have hd : RDMarkerHandle.dragPointer v max_pos max_ptr = max_ptr := by
        unfold RDMarkerHandle.dragPointer
        rw [if_neg (not_lt.mpr hp2)]
      have hx : scene_x + (max_pos - scene_x + LEFT_MARGIN) = LEFT_MARGIN + max_pos := by
        omega
      obtain ⟨m1, m2, m3, m4⟩ := moved _ _ _ hc hx
      refine ⟨max_pos, max_pos - scene_x + LEFT_MARGIN, max_ptr, hc, link _ _ _ hc, hx,
        m1, m2, m3, m4, ⟨hle, le_refl _⟩, fun c => absurd c c1, fun _ => ⟨rfl, hd⟩,
        fun _ c => ?_⟩
      exact False.elim (by omega)
    · have hc : h.checkLimitStops scene_x =
          some (scene_x + h.d_x_diff - LEFT_MARGIN, h.d_x_diff, -1) := by
        unfold RDMarkerHandle.checkLimitStops
        simp only [e1, e2, e3, e4, Option.some_bind]
        rw [if_neg (fun c => c1 c.2), if_neg (fun c => c2 c.2)]
      have hd : RDMarkerHandle.dragPointer v (scene_x + h.d_x_diff - LEFT_MARGIN) (-1) =
          toInt32 (Int.tdiv (toInt64 (1000 * toInt64 (toInt32
            (1152 * (scene_x + h.d_x_diff - LEFT_MARGIN) * v.shrinkFactor))))
            (toInt64 (v.sampleRate : Int))) := by
        unfold RDMarkerHandle.dragPointer
        rw [if_pos (show (-1 : Int) < 0 by decide)]
      have hx : scene_x + h.d_x_diff = LEFT_MARGIN + (scene_x + h.d_x_diff - LEFT_MARGIN) := by
        omega
      obtain ⟨m1, m2, m3, m4⟩ := moved _ _ _ hc hx
      refine ⟨scene_x + h.d_x_diff - LEFT_MARGIN, h.d_x_diff, -1, hc, link _ _ _ hc, hx,
        m1, m2, m3, m4, ⟨by omega, by omega⟩, fun c => absurd c c1,
        fun c => absurd c c2, fun _ _ => ⟨rfl, hd, fun b1 b2 b3 b4 b5 => ?_⟩⟩
      have g1 := toInt32_of_range b1 b2
      have g2 : toInt64 (1152 * (scene_x + h.d_x_diff - LEFT_MARGIN) * v.shrinkFactor) =
          1152 * (scene_x + h.d_x_diff - LEFT_MARGIN) * v.shrinkFactor :=
        toInt64_of_range (by omega) (by omega)
      have g3 : toInt64 (1000 * (1152 * (scene_x + h.d_x_diff - LEFT_MARGIN) *
          v.shrinkFactor)) =
          1000 * (1152 * (scene_x + h.d_x_diff - LEFT_MARGIN) * v.shrinkFactor) :=
        toInt64_of_range (by omega) (by omega)
      have g4 : toInt64 (v.sampleRate : Int) = (v.sampleRate : Int) :=
        toInt64_of_range (by omega) (by omega)
      rw [hd, g1, g2, g3, g4, toInt32_of_range b4 b5]

/-- An instance of `limit_stops_clamp`: the Talk End handle of the view opened on the row
Cut 0..10000, Talk 100..200 has the stops (3, 100) and (382, 10000); moved to scene x 21 (raw position 1,
below the minimum stop) it is held at position 3, stores the `d_x_diff` 2 that puts it at
scene x 23, reports the stop pointer 100, and the event completes. -/
theorem limit_stops_clamp_witness :
    ∃ v pos x_diff limit_ptr w, viewOfRow talkRow = some v ∧
      v.d_handles ixTalkEnd 0 = some talkEndHandle ∧
      talkEndHandle.checkLimitStops 21 = some (pos, x_diff, limit_ptr) ∧
      pos = 3 ∧ 21 + x_diff = LEFT_MARGIN + 3 ∧
      RDMarkerHandle.dragPointer v pos limit_ptr = 100 ∧
      RDMarkerHandle.mouseMoveEvent v .TalkEnd 0 21 = some w := by
  obtain ⟨v, hv, hs, hcut⟩ := viewOfRow_talkRow_ready
  have hh : v.d_handles ixTalkEnd 0 = some talkEndHandle := by
    have : (viewOfRow talkRow).map (fun u => u.d_handles ixTalkEnd 0) =
        some (some talkEndHandle) := by decide
    simpa [hv] using this
  obtain ⟨pos, xd, lp, hc, -, hx, -, -, -, hdone, -, hlo, -, -⟩ :=
    limit_stops_clamp v .TalkEnd 0 ixTalkEnd talkEndHandle 21 3 100 382 10000 rfl hh rfl rfl
      rfl rfl rfl (by decide) (by decide) (by decide) (by decide)
  have r := hlo (by decide)
  obtain ⟨w, hw⟩ := hdone hs hcut
  exact ⟨v, pos, xd, lp, w, hv, hh, hc, r.1, by rw [← r.1]; exact hx, r.2, hw⟩

/-- C13, the code at the failing input: in the view on the row Cut 0..80000000,
Talk 100..200 at sample rate 44100 and shrink factor 1, the Talk End handle, pressed at
its own position (scene x 27), has the stops (3, 100) and (3062500, 80000000). Moved to
scene x 2000020 its raw position 2000000 is inside the stops, so the value is computed
from it: the `int` product `1152*2000000*1` wraps to -1990967296 before it is widened and
`updatePosition` is handed -45146650, while `1000*(1152*2000000*1)/44100` is 52244897,
the value that `Msec(2000000)` gives. Talk End ends at -45146650. -/
theorem drag_inside_stops_wraps :
    ((viewOfRow longCutRow).bind fun v =>
      (RDMarkerHandle.mousePressEvent v .TalkEnd 0 27).bind fun v1 =>
        (v1.d_handles ixTalkEnd 0).bind fun h =>
          (h.checkLimitStops 2000020).map fun r =>
            (h.d_minimum_pos, h.d_minimum_ptr, h.d_maximum_pos, h.d_maximum_ptr,
              2000020 + h.d_x_diff - LEFT_MARGIN, r.1, r.2.2,
              RDMarkerHandle.dragPointer v1 r.1 r.2.2,
              Int.tdiv (1000 * (1152 * r.1 * v1.shrinkFactor)) (v1.sampleRate : Int),
              v1.Msec r.1)) =
      some (some 3, some 100, some 3062500, some 80000000, 2000000, 2000000, -1,
        -45146650, 52244897, 52244897) ∧
    ((viewOfRow longCutRow).bind fun v =>
      (RDMarkerHandle.mousePressEvent v .TalkEnd 0 27).bind fun v1 =>
        (RDMarkerHandle.mouseMoveEvent v1 .TalkEnd 0 2000020).map fun w =>
          (w.d_pointers ixTalkStart, w.d_pointers ixTalkEnd)) = some (100, -45146650) := by
  constructor
  · rfl
  · rfl

/-- C14, the code at the failing input: in the view opened on the row Cut 100..10000,
Talk 150..200 (sample rate 44100, shrink factor 1) `updateInterlocks` gives the Talk Start
handle, drawn at pixel `Frame(150) = 5`, the minimum stop `(Frame(100), 100) = (3, 100)` of
the Cut Start marker and the maximum stop `(Frame(200), 200) = (7, 200)`. Pressing the
handle at its own position (scene x 25) and moving it to scene x 23, the pixel of the Cut
Start marker, is inside the stops, so the pointer is computed from the pixel: 78, below
Cut Start = 100. `updatePosition` therefore swipes the dragged marker: Talk Start and
Talk End both end up unset. -/
theorem drag_talk_start_onto_cut_start :
    (viewOfRow lateCutRow).map (fun v =>
      (v.d_pointers ixCutStart, v.d_pointers ixCutEnd, v.d_pointers ixTalkStart,
        v.d_pointers ixTalkEnd, v.Frame 100,
        (v.d_handles ixTalkStart 0).map fun h =>
          (h.pos_x, h.d_minimum_pos, h.d_minimum_ptr, h.d_maximum_pos, h.d_maximum_ptr))) =
      some (100, 10000, 150, 200, some 3, some (25, some 3, some 100, some 7, some 200)) ∧
    ((viewOfRow lateCutRow).bind fun v =>
      (RDMarkerHandle.mousePressEvent v .TalkStart 0 25).bind fun v1 =>
        (v1.d_handles ixTalkStart 0).bind fun h =>
          (h.checkLimitStops 23).map fun r =>
            (r.1, r.2.2, RDMarkerHandle.dragPointer v1 r.1 r.2.2)) = some (3, -1, 78) ∧
    ((viewOfRow lateCutRow).bind fun v =>
      (RDMarkerHandle.mousePressEvent v .TalkStart 0 25).bind fun v1 =>
        (RDMarkerHandle.mouseMoveEvent v1 .TalkStart 0 23).map fun w =>
          (w.d_pointers ixCutStart, w.d_pointers ixCutEnd, w.d_pointers ixTalkStart,
            w.d_pointers ixTalkEnd)) = some (100, 10000, -1, -1) := by
  refine ⟨?_, ?_, ?_⟩
  · rfl
  · rfl
  · rfl
/-- C15: `updateMenuData` enables the Delete Marker action if and only if the menu was
opened from a marker handle (`d_marker_menu_used`) and the roles selected for deletion
contain neither CutStart nor CutEnd; after `processRightClick(CutStart)` or
`processRightClick(CutEnd)` the action is disabled, and after `processRightClick` on any
other role it is enabled. -/
theorem delete_action_enabled_iff (v : RDMarkerView) :
    (v.updateMenuData.d_delete_marker_action = true ↔
      (v.d_marker_menu_used = true ∧ PointerRole.CutStart ∉ v.d_deleting_roles ∧
        PointerRole.CutEnd ∉ v.d_deleting_roles)) ∧
    (v.processRightClick .CutStart).d_delete_marker_action = false ∧
    (v.processRightClick .CutEnd).d_delete_marker_action = false ∧
    (∀ role, role ≠ PointerRole.CutStart → role ≠ PointerRole.CutEnd →
      (v.processRightClick role).d_delete_marker_action = true) := by
  refine ⟨?_, rfl, rfl, fun role h1 h2 => ?_⟩
  · simp only [RDMarkerView.updateMenuData, Bool.and_eq_true, Bool.not_eq_true',
      decide_eq_false_iff_not, and_assoc]
  · cases role <;> first | exact absurd rfl h1 | exact absurd rfl h2 | rfl

/-- Witness for C15: in the view opened on the row Cut 0..10000, Talk 100..200, the Delete
Marker action is enabled after a right click on the Talk Start handle and disabled after a
right click on the Cut End handle. -/
theorem delete_action_enabled_iff_witness :
    ∃ v, viewOfRow talkRow = some v ∧
      (v.processRightClick .TalkStart).d_delete_marker_action = true ∧
      (v.processRightClick .CutEnd).d_delete_marker_action = false := by
  obtain ⟨v, hv, -, -⟩ := viewOfRow_talkRow_ready
  exact ⟨v, hv, (delete_action_enabled_iff v).2.2.2 .TalkStart (by decide) (by decide),
    (delete_action_enabled_iff v).2.2.1⟩

theorem shrinkLoop_stop {fuel : Nat} {e w p : Int} (h : ¬ e ≥ toInt32 (w * p)) :
    shrinkLoop fuel e w p = some p := by
  cases fuel with
  | zero => unfold shrinkLoop; rw [if_neg h]
  | succ n => unfold shrinkLoop; rw [if_neg h]

theorem shrinkLoop_continue {fuel : Nat} {e w p : Int} (h : e ≥ toInt32 (w * p)) :
    shrinkLoop (fuel + 1) e w p = shrinkLoop fuel e w (toInt32 (p * 2)) := by
  rw [shrinkLoop, if_pos h]

theorem two_pow_pos (k : Nat) : (1 : Int) ≤ 2 ^ k :=
  one_le_pow₀ (by decide)

theorem width_pow_mono {w : Int} (hw1 : 1 ≤ w) {a b : Nat} (h : a ≤ b) :
    w * 2 ^ a ≤ w * 2 ^ b :=
  mul_le_mul_of_nonneg_left (pow_le_pow_right₀ (by norm_num) h) (by omega)

theorem shrinkLoop_run (e w : Int) (hw1 : 1 ≤ w) :
    ∀ (n fuel k : Nat), n ≤ fuel → (k = 0 ∨ w * 2 ^ k ≤ 2 * e) → e < w * 2 ^ (k + n) →
      w * 2 ^ (k + n) < 2147483648 →
      ∃ k2, shrinkLoop fuel e w (2 ^ k) = some (2 ^ k2) ∧ e < w * 2 ^ k2 ∧
        (k2 = 0 ∨ w * 2 ^ k2 ≤ 2 * e) ∧ w * 2 ^ k2 < 2147483648 := by
  intro n
  induction n with
  | zero =>
    intro fuel k _ hinv hlt hr
    rw [Nat.add_zero] at hlt hr
    have hpos : 0 ≤ w * 2 ^ k := by have := two_pow_pos k; positivity
    refine ⟨k, shrinkLoop_stop ?_, hlt, hinv, hr⟩
    rw [toInt32_of_range (by omega) hr]
    omega
  | succ n ih =>
    intro fuel k hf hinv hlt hbig
    have hr : w * 2 ^ k < 2147483648 :=
      lt_of_le_of_lt (width_pow_mono hw1 (by omega)) hbig
    have hpos : 0 ≤ w * 2 ^ k := by have := two_pow_pos k; positivity
    have h32 : toInt32 (w * 2 ^ k) = w * 2 ^ k := toInt32_of_range (by omega) hr
    by_cases hc : e < w * 2 ^ k
    · refine ⟨k, shrinkLoop_stop ?_, hc, hinv, hr⟩
      rw [h32]
      omega
    · obtain ⟨f, rfl⟩ : ∃ f, fuel = f + 1 := ⟨fuel - 1, by omega⟩
      have hp2 : (1 : Int) ≤ 2 ^ (k + 1) := two_pow_pos (k + 1)
      have hp1 : (2 : Int) ^ (k + 1) ≤ w * 2 ^ (k + 1) :=
        le_mul_of_one_le_left (by positivity) hw1
      have hp3 : w * 2 ^ (k + 1) < 2147483648 :=
        lt_of_le_of_lt (width_pow_mono hw1 (by omega)) hbig
      have hdouble : toInt32 (2 ^ k * 2) = (2 : Int) ^ (k + 1) := by
        rw [← pow_succ]
        exact toInt32_of_range (by omega) (by omega)
      rw [shrinkLoop_continue (by rw [h32]; omega), hdouble]
      have e1 : w * 2 ^ (k + 1) = 2 * (w * 2 ^ k) := by ring
      exact ih f (k + 1) (by omega) (Or.inr (by rw [e1]; omega))
        (by rw [show k + 1 + n = k + (n + 1) by omega]; exact hlt)
        (by rw [show k + 1 + n = k + (n + 1) by omega]; exact hbig)

theorem shrinkLoop_mono (e w : Int) : ∀ (fuel : Nat) (p r : Int),
    shrinkLoop fuel e w p = some r → ∀ m, fuel ≤ m → shrinkLoop m e w p = some r := by
  intro fuel
  induction fuel with
  | zero =>
    intro p r h m _
    by_cases hc : e ≥ toInt32 (w * p)
    · rw [shrinkLoop, if_pos hc] at h
      cases h
    · rw [shrinkLoop_stop hc] at h
      rw [shrinkLoop_stop hc, h]
  | succ n ih =>
    intro p r h m hm
    by_cases hc : e ≥ toInt32 (w * p)
    · obtain ⟨f, rfl⟩ : ∃ f, m = f + 1 := ⟨m - 1, by omega⟩
      rw [shrinkLoop_continue hc] at h ⊢
      exact ih _ _ h f (by omega)
    · rw [shrinkLoop_stop hc] at h
      rw [shrinkLoop_stop hc, h]

theorem padSize_eq {w e : Int} {k : Nat} (hw1 : 1 ≤ w) (he0 : 0 ≤ e)
    (hlt : e < w * 2 ^ k) (hr : w * 2 ^ k < 2147483648) :
    padSize w (2 ^ k) e = (w * 2 ^ k - e) / 2 ^ k - 1 ∧
      -1 ≤ padSize w (2 ^ k) e ∧ padSize w (2 ^ k) e ≤ w - 1 := by
  have hP : (0 : Int) < 2 ^ k := by have := two_pow_pos k; omega
  have q0 : 0 ≤ (w * 2 ^ k - e) / 2 ^ k := Int.ediv_nonneg (by omega) (by omega)
  have q1 : (w * 2 ^ k - e) / 2 ^ k ≤ w := by
    have := Int.ediv_le_ediv hP (show w * 2 ^ k - e ≤ w * 2 ^ k by omega)
    rwa [Int.mul_ediv_cancel _ (by omega)] at this
  have hw2 : w < 2147483648 := by
    have := width_pow_mono hw1 (Nat.zero_le k)
    rw [pow_zero, mul_one] at this
    omega
  have key : padSize w (2 ^ k) e = (w * 2 ^ k - e) / 2 ^ k - 1 := by
    have g1 : toInt32 (w * 2 ^ k) = w * 2 ^ k := toInt32_of_range (by omega) hr
    have g2 : toInt32 (w * 2 ^ k - e) = w * 2 ^ k - e :=
      toInt32_of_range (by omega) (by omega)
    have g3 : Int.tdiv (w * 2 ^ k - e) (2 ^ k) = (w * 2 ^ k - e) / 2 ^ k :=
      Int.tdiv_eq_ediv (by omega) (by omega)
    have g4 : toInt32 ((w * 2 ^ k - e) / 2 ^ k - 1) = (w * 2 ^ k - e) / 2 ^ k - 1 :=
      toInt32_of_range (by omega) (by omega)
    unfold padSize
    rw [g1, g2, g3, g4]
  rw [key]
  exact ⟨rfl, by omega, by omega⟩

theorem sameButHandles_scene {v w : RDMarkerView} (h : v.sameButHandles w) :
    w.d_scene = v.d_scene := by
  obtain ⟨hs, rfl⟩ := h
  rfl

theorem sameButHandles_pointers {v w : RDMarkerView} (h : v.sameButHandles w) :
    w.d_pointers = v.d_pointers := by
  obtain ⟨hs, rfl⟩ := h
  rfl

theorem sameButHandles_shrink {v w : RDMarkerView} (h : v.sameButHandles w) :
    w.d_shrink_factor = v.d_shrink_factor := by
  obtain ⟨hs, rfl⟩ := h
  rfl

theorem DrawMarker_sets {v : RDMarkerView} (t : PointerType) {r : PointerRole} (p : Int)
    {i : Fin 10} (hi : r.slot = some i) (hp : 0 ≤ v.d_pointers i) (hs : v.d_scene = true)
    (hd : toInt32 (v.d_shrink_factor * 1152000) ≠ 0) :
    ∃ w, v.DrawMarker t r p = some w ∧ (∀ j, (w.d_handles i j).isSome = true) ∧
      ∀ a b, (v.d_handles a b).isSome = true → (w.d_handles a b).isSome = true := by
  unfold RDMarkerView.DrawMarker
  simp only [hi, hs, if_true, ge_iff_le, hp, RDMarkerView.Frame, if_neg hd, Option.map_some']
  refine ⟨_, rfl, fun j => ?_, fun a b hab =>
    setHandle_isSome _ _ _ _ _ _ (setHandle_isSome _ _ _ _ _ _ hab)⟩
  by_cases hj : j = 1
  · subst hj
    simp [RDMarkerView.setHandle]
  · have hj0 : j = 0 := by omega
    subst hj0
    simp [RDMarkerView.setHandle]

theorem DrawMarker_stopped {v : RDMarkerView} (t : PointerType) (r : PointerRole) (p : Int)
    (hd : toInt32 (v.d_shrink_factor * 1152000) = 0) :
    v.DrawMarker t r p = none ∨ v.DrawMarker t r p = some v := by
  unfold RDMarkerView.DrawMarker
  split
  · exact Or.inl rfl
  · split
    · split
      · left
        simp only [RDMarkerView.Frame, if_pos hd, Option.map_none']
      · exact Or.inl rfl
    · exact Or.inr rfl

theorem DrawMarker_stopped_set {v : RDMarkerView} (t : PointerType) {r : PointerRole}
    (p : Int) {i : Fin 10} (hi : r.slot = some i) (hp : 0 ≤ v.d_pointers i)
    (hd : toInt32 (v.d_shrink_factor * 1152000) = 0) : v.DrawMarker t r p = none := by
  unfold RDMarkerView.DrawMarker
  simp only [hi, ge_iff_le, hp, if_true, RDMarkerView.Frame, if_pos hd, Option.map_none']
  split <;> rfl

theorem drawMarkers_stopped {v : RDMarkerView}
    (hd : toInt32 (v.d_shrink_factor * 1152000) = 0) (h0 : 0 ≤ v.d_pointers ixCutStart) :
    v.drawMarkers = none := by
  unfold RDMarkerView.drawMarkers
  rcases DrawMarker_stopped (v := v) .Start .FadeDown 100 hd with h | h
  · rw [h]; rfl
  rw [h, Option.some_bind]
  rcases DrawMarker_stopped (v := v) .End .FadeUp 100 hd with h | h
  · rw [h]; rfl
  rw [h, Option.some_bind]
  rcases DrawMarker_stopped (v := v) .Start .HookStart 80 hd with h | h
  · rw [h]; rfl
  rw [h, Option.some_bind]
  rcases DrawMarker_stopped (v := v) .End .HookEnd 80 hd with h | h
  · rw [h]; rfl
  rw [h, Option.some_bind]
  rcases DrawMarker_stopped (v := v) .Start .TalkStart 60 hd with h | h
  · rw [h]; rfl
  rw [h, Option.some_bind]
  rcases DrawMarker_stopped (v := v) .End .TalkEnd 60 hd with h | h
  · rw [h]; rfl
  rw [h, Option.some_bind]
  rcases DrawMarker_stopped (v := v) .Start .SegueStart 40 hd with h | h
  · rw [h]; rfl
  rw [h, Option.some_bind]
  rcases DrawMarker_stopped (v := v) .End .SegueEnd 40 hd with h | h
  · rw [h]; rfl
  rw [h, Option.some_bind]
  rw [DrawMarker_stopped_set .Start 20 (r := .CutStart) (i := ixCutStart) rfl h0 hd]
  rfl

theorem drawMarkers_spec {v w : RDMarkerView} (h : v.drawMarkers = some w) :
    v.sameButHandles w := by
  unfold RDMarkerView.drawMarkers at h
  simp only [Option.bind_eq_some] at h
  obtain ⟨v1, h1, v2, h2, v3, h3, v4, h4, v5, h5, v6, h6, v7, h7, v8, h8, v9, h9, h10⟩ := h
  exact sameButHandles_trans (DrawMarker_spec h1).1 (sameButHandles_trans (DrawMarker_spec h2).1
    (sameButHandles_trans (DrawMarker_spec h3).1 (sameButHandles_trans (DrawMarker_spec h4).1
    (sameButHandles_trans (DrawMarker_spec h5).1 (sameButHandles_trans (DrawMarker_spec h6).1
    (sameButHandles_trans (DrawMarker_spec h7).1 (sameButHandles_trans (DrawMarker_spec h8).1
    (sameButHandles_trans (DrawMarker_spec h9).1 (DrawMarker_spec h10).1))))))))

theorem drawMarkers_ready {v : RDMarkerView} (hs : v.d_scene = true)
    (hd : toInt32 (v.d_shrink_factor * 1152000) ≠ 0)
    (h0 : 0 ≤ v.d_pointers ixCutStart) (h1 : 0 ≤ v.d_pointers ixCutEnd) :
    ∃ w, v.drawMarkers = some w ∧ w.cutHandles := by
  have key : ∀ {u : RDMarkerView}, v.sameButHandles u →
      u.d_scene = true ∧ toInt32 (u.d_shrink_factor * 1152000) ≠ 0 := fun b =>
    ⟨(sameButHandles_scene b).trans hs, by rw [sameButHandles_shrink b]; exact hd⟩
  obtain ⟨v1, e1⟩ := DrawMarker_isSome (v := v) .Start 100 (r := .FadeDown) (by decide) hs hd
  have b1 := (DrawMarker_spec e1).1
  obtain ⟨v2, e2⟩ := DrawMarker_isSome (v := v1) .End 100 (r := .FadeUp) (by decide)
    (key b1).1 (key b1).2
  have b2 := sameButHandles_trans b1 (DrawMarker_spec e2).1
  obtain ⟨v3, e3⟩ := DrawMarker_isSome (v := v2) .Start 80 (r := .HookStart) (by decide)
    (key b2).1 (key b2).2
  have b3 := sameButHandles_trans b2 (DrawMarker_spec e3).1
  obtain ⟨v4, e4⟩ := DrawMarker_isSome (v := v3) .End 80 (r := .HookEnd) (by decide)
    (key b3).1 (key b3).2
  have b4 := sameButHandles_trans b3 (DrawMarker_spec e4).1
  obtain ⟨v5, e5⟩ := DrawMarker_isSome (v := v4) .Start 60 (r := .TalkStart) (by decide)
    (key b4).1 (key b4).2
  have b5 := sameButHandles_trans b4 (DrawMarker_spec e5).1
  obtain ⟨v6, e6⟩ := DrawMarker_isSome (v := v5) .End 60 (r := .TalkEnd) (by decide)
    (key b5).1 (key b5).2
  have b6 := sameButHandles_trans b5 (DrawMarker_spec e6).1
  obtain ⟨v7, e7⟩ := DrawMarker_isSome (v := v6) .Start 40 (r := .SegueStart) (by decide)
    (key b6).1 (key b6).2
  have b7 := sameButHandles_trans b6 (DrawMarker_spec e7).1
  obtain ⟨v8, e8⟩ := DrawMarker_isSome (v := v7) .End 40 (r := .SegueEnd) (by decide)
    (key b7).1 (key b7).2
  have b8 := sameButHandles_trans b7 (DrawMarker_spec e8).1
  obtain ⟨v9, e9, s9, -⟩ := DrawMarker_sets (v := v8) .Start 20 (r := .CutStart)
    (i := ixCutStart) rfl (by rw [sameButHandles_pointers b8]; exact h0)
    (key b8).1 (key b8).2
  have b9 := sameButHandles_trans b8 (DrawMarker_spec e9).1
  obtain ⟨w, e10, s10, k10⟩ := DrawMarker_sets (v := v9) .End 20 (r := .CutEnd)
    (i := ixCutEnd) rfl (by rw [sameButHandles_pointers b9]; exact h1)
    (key b9).1 (key b9).2
  refine ⟨w, ?_, fun j => ⟨k10 _ _ (s9 j), s10 j⟩⟩
  simp only [RDMarkerView.drawMarkers, e1, e2, e3, e4, e5, e6, e7, e8, e9, e10,
    Option.some_bind]

theorem updateInterlocks_shrink {v w : RDMarkerView} (h : v.updateInterlocks = some w) :
    w.d_max_shrink_factor = v.d_max_shrink_factor ∧ w.d_shrink_factor = v.d_shrink_factor ∧
      w.d_pad_size = v.d_pad_size := by
  unfold RDMarkerView.updateInterlocks at h
  simp only [Option.bind_eq_some] at h
  obtain ⟨v1, h1, h2⟩ := h
  obtain ⟨p, hs, rfl, -, -⟩ := (swipeLoop_spec h1).1
  obtain ⟨hs2, rfl, -⟩ := limitStops_same h2
  exact ⟨rfl, rfl, rfl⟩

theorem updateInterlocks_ready {v w : RDMarkerView} (h : v.updateInterlocks = some w)
    (hs : v.d_scene = true) (hc : v.cutHandles) : w.d_scene = true ∧ w.cutHandles := by
  unfold RDMarkerView.updateInterlocks at h
  simp only [Option.bind_eq_some] at h
  obtain ⟨v1, h1, h2⟩ := h
  have r1 := (swipeLoop_spec h1).1
  have c1 := swipeRel_cutHandles r1 hc
  have s1 := (swipeRel_scene r1).trans hs
  refine ⟨?_, sameButStops_cutHandles (limitStops_same h2) c1⟩
  obtain ⟨hs2, rfl, -⟩ := limitStops_same h2
  exact s1

theorem WriteWave_updateInterlocks_shrink {u r : RDMarkerView} {wave_width : Int}
    (h : ((u.WriteWave wave_width).bind fun v1 =>
        v1.updateInterlocks.map fun v2 => (true, v2)) = some (true, r)) :
    r.d_max_shrink_factor = u.d_max_shrink_factor ∧
      r.d_shrink_factor = u.d_shrink_factor ∧ r.d_pad_size = u.d_pad_size := by
  simp only [RDMarkerView.WriteWave, Option.bind_eq_some, Option.map_eq_some',
    Prod.mk.injEq, true_and] at h
  obtain ⟨w2, ⟨w1, e1, e2⟩, w3, e3, rfl⟩ := h
  obtain ⟨f1, f2, f3⟩ := updateInterlocks_shrink e2
  obtain ⟨g1, g2, g3⟩ := updateInterlocks_shrink e3
  obtain ⟨hs, rfl⟩ := drawMarkers_spec e1
  exact ⟨g1.trans f1, g2.trans f2, g3.trans f3⟩

theorem WriteWave_then_updateInterlocks (u : RDMarkerView) (wave_width : Int)
    (hd : toInt32 (u.d_shrink_factor * 1152000) ≠ 0)
    (h0 : 0 ≤ u.d_pointers ixCutStart) (h1 : 0 ≤ u.d_pointers ixCutEnd) :
    ∃ r, ((u.WriteWave wave_width).bind fun v1 =>
        v1.updateInterlocks.map fun v2 => (true, v2)) = some (true, r) := by
  obtain ⟨w1, e1, c1⟩ := drawMarkers_ready
    (v := { u with d_scene := true, d_right_margin := LEFT_MARGIN + wave_width }) rfl hd h0 h1
  have b1 := drawMarkers_spec e1
  have s1 : w1.d_scene = true := sameButHandles_scene b1
  obtain ⟨w2, e2⟩ := updateInterlocks_isSome s1 c1
  obtain ⟨s2, c2⟩ := updateInterlocks_ready e2 s1 c1
  obtain ⟨w3, e3⟩ := updateInterlocks_isSome s2 c2
  exact ⟨w3, by
    simp only [RDMarkerView.WriteWave, e1, Option.some_bind, e2, e3, Option.map_some']⟩

theorem WriteWave_stopped (u : RDMarkerView) (wave_width : Int)
    (hd : toInt32 (u.d_shrink_factor * 1152000) = 0) (h0 : 0 ≤ u.d_pointers ixCutStart) :
    u.WriteWave wave_width = none := by
  unfold RDMarkerView.WriteWave
  rw [drawMarkers_stopped
    (v := { u with d_scene := true, d_right_margin := LEFT_MARGIN + wave_width }) hd h0]
  rfl

theorem frame_divisor_small : ∀ k : Nat, k < 22 → toInt32 (2 ^ k * 1152000) ≠ 0 := by
  intro k hk
  interval_cases k <;> decide

theorem frame_divisor_large : ∀ k : Nat, 22 ≤ k → k < 31 →
    toInt32 (2 ^ k * 1152000) = 0 := by
  intro k h1 h2
  interval_cases k <;> decide

theorem shrinkLoop_wrapped_values :
    ∀ p ∈ ([1, 2, 4, 8, 16, 32, 64, 128, 256, 512, 1024, 2048, 4096, 8192, 16384, 32768,
        65536, 131072, 262144, 524288, 1048576, 2097152, 4194304, 8388608, 16777216,
        33554432, 67108864, 134217728, 268435456, 536870912, 1073741824, -2147483648, 0] :
        List Int),
      (1073741824 : Int) ≥ toInt32 (1 * p) ∧
      toInt32 (p * 2) ∈ ([1, 2, 4, 8, 16, 32, 64, 128, 256, 512, 1024, 2048, 4096, 8192,
        16384, 32768, 65536, 131072, 262144, 524288, 1048576, 2097152, 4194304, 8388608,
        16777216, 33554432, 67108864, 134217728, 268435456, 536870912, 1073741824,
        -2147483648, 0] : List Int) := by
  decide

theorem shrinkLoop_wrapped : ∀ (fuel : Nat) (p : Int),
    p ∈ ([1, 2, 4, 8, 16, 32, 64, 128, 256, 512, 1024, 2048, 4096, 8192, 16384, 32768,
        65536, 131072, 262144, 524288, 1048576, 2097152, 4194304, 8388608, 16777216,
        33554432, 67108864, 134217728, 268435456, 536870912, 1073741824, -2147483648, 0] :
        List Int) →
    shrinkLoop fuel 1073741824 1 p = none := by
  intro fuel
  induction fuel with
  | zero =>
    intro p hp
    rw [shrinkLoop, if_pos (shrinkLoop_wrapped_values p hp).1]
  | succ n ih =>
    intro p hp
    rw [shrinkLoop_continue (shrinkLoop_wrapped_values p hp).1]
    exact ih _ (shrinkLoop_wrapped_values p hp).2

/-- C16, counterexample to the claim as stated: for width 1 and energy size 2^30 the loop of
`setCut` never ends. The factor is doubled up to 2^30 (where `1*2^30 <= e` still holds),
the next doubling wraps to -2^31 and the one after that to 0, where the condition
`e >= width*0` holds for ever. -/
theorem shrinkLoop_diverges_at_two_pow_30 :
    ¬ ∃ fuel, (shrinkLoop fuel 1073741824 1 1).isSome = true := by
  rintro ⟨fuel, h⟩
  rw [shrinkLoop_wrapped fuel 1 (by decide)] at h
  cases h

theorem setCutFactors_eq {v u : RDMarkerView} {fuel : Nat} {e : Int}
    (h : v.setCutFactors fuel e = some u) :
    ∃ p, shrinkLoop fuel e v.d_width 1 = some p ∧ u.d_max_shrink_factor = p ∧
      u.d_shrink_factor = p ∧ u.d_pad_size = padSize v.d_width p e ∧
      u.d_pointers = v.d_pointers := by
  unfold RDMarkerView.setCutFactors at h
  split at h
  · cases h
  · simp only [Option.bind_eq_some] at h
    obtain ⟨p, hp, h2⟩ := h
    split at h2
    · cases h2
    · cases h2
      exact ⟨p, hp, rfl, rfl, rfl, rfl⟩

theorem setCutFactors_isSome {v : RDMarkerView} {fuel : Nat} {e p : Int}
    (hs : toInt64 (v.d_sample_rate : Int) ≠ 0) (hp : shrinkLoop fuel e v.d_width 1 = some p)
    (hp0 : p ≠ 0) : ∃ u, v.setCutFactors fuel e = some u := by
  unfold RDMarkerView.setCutFactors
  rw [if_neg hs, hp, Option.some_bind, if_neg hp0]
  exact ⟨_, rfl⟩

theorem setCut_true_eq {v r : RDMarkerView} {fuel : Nat} {db : Catalog} {cut_name : String}
    {cartnum : Nat} {cutnum : Int} {e wave_width : Int}
    (h : v.setCut fuel db cut_name cartnum cutnum (some e) wave_width = some (true, r)) :
    ∃ row u, db cut_name = some row ∧
      RDMarkerView.setCutFactors
        { v.clear with
          d_cart_number := cartnum, d_cut_number := cutnum, d_right_margin := LEFT_MARGIN,
          d_pointers := fun i => row (RDMarkerView.d_pointer_fields.getD i.val ""),
          d_channels := row "CHANNELS" } fuel e = some u ∧
      ((u.WriteWave wave_width).bind fun v1 =>
        v1.updateInterlocks.map fun v2 => (true, v2)) = some (true, r) := by
  unfold RDMarkerView.setCut at h
  cases hrow : db cut_name with
  | none =>
    simp only [RDMarkerView.LoadCutData, hrow] at h
    simp at h
  | some row =>
    simp only [RDMarkerView.LoadCutData, hrow, if_true] at h
    obtain ⟨u, hu, h2⟩ := Option.bind_eq_some.mp h
    exact ⟨row, u, rfl, hu, h2⟩

theorem shrinkLoop_unique {e w p a b : Int} {f1 f2 : Nat}
    (h1 : shrinkLoop f1 e w p = some a) (h2 : shrinkLoop f2 e w p = some b) : a = b := by
  rcases Nat.le_total f1 f2 with h | h
  · have := shrinkLoop_mono e w f1 p a h1 f2 h
    rw [h2] at this
    exact (Option.some.inj this).symm
  · have := shrinkLoop_mono e w f2 p b h2 f1 h
    rw [h1] at this
    exact Option.some.inj this

theorem two_pow_lt_exponent {w : Int} (hw1 : 1 ≤ w) {n : Nat}
    (h : w * 2 ^ n < 2147483648) : n < 31 := by
  by_contra hn
  have h1 : (2 : Int) ^ 31 ≤ 2 ^ n := pow_le_pow_right₀ (by norm_num) (by omega)
  have h2 : (2 : Int) ^ n ≤ w * 2 ^ n := le_mul_of_one_le_left (by positivity) hw1
  have h3 : (2 : Int) ^ 31 = 2147483648 := by norm_num
  omega

/-- C16 (amended): for a width `>= 1` and an energy size `e >= 0` such that some power of
two `2^n` has `e < width*2^n < 2^31`, the loop of `setCut` ends (30 passes are enough) and
leaves `d_max_shrink_factor = 2^k`, the least power of two `p` with `e < width*p`: every
smaller power `2^j` has `width*2^j <= e`, `k = 0` when `e < width`, and `width*p/2 <= e`
when `p > 1`. The pad size expression equals `(width*p - e)/p - 1` and lies between `-1` and
`width - 1`. The assignments that follow the loop set `d_shrink_factor` to that maximum and
`d_pad_size` to that pad size, and whenever `setCut` returns true its state has these
values. `setCut` does return true when `p < 2^22`, the sample rate is not 0 and the cut
record exists with Cut Start and Cut End set; for `p >= 2^22` the divisor of `Frame` is 0
and `setCut` has no result when the record has Cut Start set. -/
theorem setCut_max_shrink_factor (v : RDMarkerView) (e : Int) (n : Nat)
    (hw1 : 1 ≤ v.d_width) (he0 : 0 ≤ e) (hn1 : e < v.d_width * 2 ^ n)
    (hn2 : v.d_width * 2 ^ n < 2147483648) :
    ∃ k : Nat,
      (∀ fuel, 30 ≤ fuel → shrinkLoop fuel e v.d_width 1 = some (2 ^ k)) ∧
      e < v.d_width * 2 ^ k ∧
      (∀ j, j < k → v.d_width * 2 ^ j ≤ e) ∧
      (e < v.d_width → k = 0) ∧
      (0 < k → v.d_width * 2 ^ k / 2 ≤ e) ∧
      padSize v.d_width (2 ^ k) e = (v.d_width * 2 ^ k - e) / 2 ^ k - 1 ∧
      -1 ≤ padSize v.d_width (2 ^ k) e ∧ padSize v.d_width (2 ^ k) e ≤ v.d_width - 1 ∧
      (∀ fuel, 30 ≤ fuel → toInt64 (v.d_sample_rate : Int) ≠ 0 →
        ∃ u, v.setCutFactors fuel e = some u ∧ u.d_max_shrink_factor = 2 ^ k ∧
          u.d_shrink_factor = 2 ^ k ∧ u.d_pad_size = padSize v.d_width (2 ^ k) e) ∧
      (∀ (fuel : Nat) (db : Catalog) (cut_name : String) (cartnum : Nat) (cutnum : Int)
        (wave_width : Int) (r : RDMarkerView),
        v.setCut fuel db cut_name cartnum cutnum (some e) wave_width = some (true, r) →
        r.d_max_shrink_factor = 2 ^ k ∧ r.d_shrink_factor = 2 ^ k ∧
          r.d_pad_size = padSize v.d_width (2 ^ k) e) ∧
      (e < v.d_width * 2097152 → k < 22) ∧
      (k < 22 → ∀ (fuel : Nat) (db : Catalog) (cut_name : String) (cartnum : Nat)
        (cutnum : Int) (wave_width : Int) (row : CutRecord), 30 ≤ fuel →
        toInt64 (v.d_sample_rate : Int) ≠ 0 → db cut_name = some row →
        0 ≤ row "START_POINT" → 0 ≤ row "END_POINT" →
        ∃ r, v.setCut fuel db cut_name cartnum cutnum (some e) wave_width = some (true, r)) ∧
      (22 ≤ k → ∀ (fuel : Nat) (db : Catalog) (cut_name : String) (cartnum : Nat)
        (cutnum : Int) (wave_width : Int) (row : CutRecord), db cut_name = some row →
        0 ≤ row "START_POINT" →
        v.setCut fuel db cut_name cartnum cutnum (some e) wave_width = none) := by
  have hn : n < 31 := two_pow_lt_exponent hw1 hn2
  obtain ⟨k, hk, hlt, hinv, hr⟩ := shrinkLoop_run e v.d_width hw1 n 30 0 (by omega)
    (Or.inl rfl) (by rw [Nat.zero_add]; exact hn1) (by rw [Nat.zero_add]; exact hn2)
  rw [pow_zero] at hk
  have hk31 : k < 31 := two_pow_lt_exponent hw1 hr
  have hp0 : (2 : Int) ^ k ≠ 0 := by have := two_pow_pos k; omega
  have hloop : ∀ fuel, 30 ≤ fuel → shrinkLoop fuel e v.d_width 1 = some (2 ^ k) :=
    fun fuel hf => shrinkLoop_mono e v.d_width 30 1 _ hk fuel hf
  have least : ∀ j, j < k → v.d_width * 2 ^ j ≤ e := by
    intro j hj
    rcases hinv with rfl | h
    · omega
    · have h2 : v.d_width * 2 ^ (j + 1) ≤ v.d_width * 2 ^ k :=
        width_pow_mono hw1 (by omega)
      have h3 : v.d_width * 2 ^ (j + 1) = 2 * (v.d_width * 2 ^ j) := by ring
      omega
  obtain ⟨p1, p2, p3⟩ := padSize_eq hw1 he0 hlt hr
  have fields : ∀ (fuel : Nat) (db : Catalog) (cut_name : String) (cartnum : Nat)
      (cutnum : Int) (wave_width : Int) (r : RDMarkerView),
      v.setCut fuel db cut_name cartnum cutnum (some e) wave_width = some (true, r) →
      r.d_max_shrink_factor = 2 ^ k ∧ r.d_shrink_factor = 2 ^ k ∧
        r.d_pad_size = padSize v.d_width (2 ^ k) e := by
    intro fuel db cut_name cartnum cutnum wave_width r h
    obtain ⟨row, u, -, hu, h2⟩ := setCut_true_eq h
    obtain ⟨p, hp, f1, f2, f3, -⟩ := setCutFactors_eq hu
    have hpk : p = 2 ^ k := shrinkLoop_unique hp hk
    obtain ⟨g1, g2, g3⟩ := WriteWave_updateInterlocks_shrink h2
    rw [hpk] at f1 f2 f3
    exact ⟨g1.trans f1, g2.trans f2, g3.trans f3⟩
  refine ⟨k, hloop, hlt, least, ?_, ?_, p1, p2, p3, ?_, fields, ?_, ?_, ?_⟩
  · intro hew
    by_contra hk0
    have := least 0 (by omega)
    rw [pow_zero] at this
    omega
  · intro hk0
    rcases hinv with rfl | h
    · omega
    · omega
  · intro fuel hf hs
    obtain ⟨u, hu⟩ := setCutFactors_isSome hs (hloop fuel hf) hp0
    obtain ⟨p, hp, f1, f2, f3, -⟩ := setCutFactors_eq hu
    have hpk : p = 2 ^ k := shrinkLoop_unique hp hk
    rw [hpk] at f1 f2 f3
    exact ⟨u, hu, f1, f2, f3⟩
  · intro hsmall
    by_contra hk22
    have := least 21 (by omega)
    have h21 : (2 : Int) ^ 21 = 2097152 := by norm_num
    rw [h21] at this
    omega
  · intro hk22 fuel db cut_name cartnum cutnum wave_width row hf hs hrow h0 h1
    obtain ⟨u, hu⟩ := setCutFactors_isSome
      (v := { v.clear with
        d_cart_number := cartnum, d_cut_number := cutnum, d_right_margin := LEFT_MARGIN,
        d_pointers := fun i => row (RDMarkerView.d_pointer_fields.getD i.val ""),
        d_channels := row "CHANNELS" }) hs (hloop fuel hf) hp0
    obtain ⟨p, hp, -, f2, -, f4⟩ := setCutFactors_eq hu
    have hpk : p = 2 ^ k := shrinkLoop_unique hp hk
    obtain ⟨r, hr⟩ := WriteWave_then_updateInterlocks u wave_width
      (by rw [f2, hpk]; exact frame_divisor_small k hk22)
      (by rw [f4]; exact h0) (by rw [f4]; exact h1)
    refine ⟨r, ?_⟩
    simp only [RDMarkerView.setCut, RDMarkerView.LoadCutData, hrow, if_true]
    rw [hu, Option.some_bind]
    exact hr
  · intro hk22 fuel db cut_name cartnum cutnum wave_width row hrow h0
    simp only [RDMarkerView.setCut, RDMarkerView.LoadCutData, hrow, if_true]
    cases hu : RDMarkerView.setCutFactors
      { v.clear with
        d_cart_number := cartnum, d_cut_number := cutnum, d_right_margin := LEFT_MARGIN,
        d_pointers := fun i => row (RDMarkerView.d_pointer_fields.getD i.val ""),
        d_channels := row "CHANNELS" } fuel e with
    | none => rfl
    | some u =>
      obtain ⟨p, hp, -, f2, -, f4⟩ := setCutFactors_eq hu
      have hpk : p = 2 ^ k := shrinkLoop_unique hp hk
      rw [Option.some_bind, WriteWave_stopped u wave_width
        (by rw [f2, hpk]; exact frame_divisor_large k hk22 hk31) (by rw [f4]; exact h0)]
      rfl

/-- Witness for C16: a view of width 1000 on a cut with energy size 2500: the loop stops
at factor 4 (1000*2 <= 2500 < 1000*4), the pad size is (4000-2500)/4 - 1 = 374 and `setCut`
returns true with these values. -/
theorem setCut_max_shrink_factor_witness :
    ∃ r, (RDMarkerView.new 1000 100 44100).setCut 30 oneCutCatalog "000001_001" 1 1
        (some 2500) 625 = some (true, r) ∧
      r.d_max_shrink_factor = 4 ∧ r.d_shrink_factor = 4 ∧ r.d_pad_size = 374 := by
  obtain ⟨k, hk, -, -, -, -, hp, -, -, -, hf, hsmall, hs, -⟩ :=
    setCut_max_shrink_factor (RDMarkerView.new 1000 100 44100) 2500 2 (by decide)
      (by decide) (by decide) (by decide)
  have h4 : ((2 : Int) ^ k) = 4 := by
    have h := hk 30 le_rfl
    have e4 : shrinkLoop 30 2500 (RDMarkerView.new 1000 100 44100).d_width 1 = some 4 := by
      decide
    rw [e4] at h
    exact (Option.some.inj h).symm
  obtain ⟨r, hr⟩ := hs (hsmall (by decide)) 30 oneCutCatalog "000001_001" 1 1 625
    (fun _ => 0) le_rfl (by decide) rfl (by decide) (by decide)
  obtain ⟨r1, r2, r3⟩ := hf _ _ _ _ _ _ _ hr
  rw [h4] at r1 r2 r3
  exact ⟨r, hr, r1, r2, r3.trans (by decide)⟩

theorem Frame_eq (v : RDMarkerView) (hk2 : v.d_shrink_factor * 1152000 < 2147483648)
    (hs0 : 0 < v.d_sample_rate) (hs : (v.d_sample_rate : Int) ≤ 1152000 * v.d_shrink_factor)
    (m : Int) (hm0 : 0 ≤ m) (hm : m < 2147483648) :
    v.Frame m = some (m * (v.d_sample_rate : Int) / (v.d_shrink_factor * 1152000)) ∧
      0 ≤ m * (v.d_sample_rate : Int) / (v.d_shrink_factor * 1152000) ∧
      m * (v.d_sample_rate : Int) / (v.d_shrink_factor * 1152000) ≤ m := by
  have hs1 : (0 : Int) < (v.d_sample_rate : Int) := by exact_mod_cast hs0
  have hD : (0 : Int) < v.d_shrink_factor * 1152000 := by omega
  have h1 : 0 ≤ m * (v.d_sample_rate : Int) := mul_nonneg hm0 (by omega)
  have h2 : m * (v.d_sample_rate : Int) ≤ m * (v.d_shrink_factor * 1152000) :=
    mul_le_mul_of_nonneg_left (by omega) hm0
  have h3 : m * (v.d_shrink_factor * 1152000) ≤ 2147483647 * (v.d_shrink_factor * 1152000) :=
    mul_le_mul_of_nonneg_right (by omega) (by omega)
  have q0 : 0 ≤ m * (v.d_sample_rate : Int) / (v.d_shrink_factor * 1152000) :=
    Int.ediv_nonneg h1 (by omega)
  have q1 : m * (v.d_sample_rate : Int) / (v.d_shrink_factor * 1152000) ≤ m := by
    have := Int.ediv_le_ediv hD h2
    rwa [Int.mul_ediv_cancel _ (by omega)] at this
  have g1 : toInt64 (m * (v.d_sample_rate : Int)) = m * (v.d_sample_rate : Int) :=
    toInt64_of_range (by omega) (by omega)
  have g2 : toInt32 (v.d_shrink_factor * 1152000) = v.d_shrink_factor * 1152000 :=
    toInt32_of_range (by omega) hk2
  have g3 : Int.tdiv (m * (v.d_sample_rate : Int)) (v.d_shrink_factor * 1152000) =
      m * (v.d_sample_rate : Int) / (v.d_shrink_factor * 1152000) :=
    Int.tdiv_eq_ediv h1 (by omega)
  have g4 : toInt32 (m * (v.d_sample_rate : Int) / (v.d_shrink_factor * 1152000)) =
      m * (v.d_sample_rate : Int) / (v.d_shrink_factor * 1152000) :=
    toInt32_of_range (by omega) (by omega)
  have key : v.Frame m =
      some (m * (v.d_sample_rate : Int) / (v.d_shrink_factor * 1152000)) := by
    unfold RDMarkerView.Frame
    rw [g2, if_neg (by omega), g1, g3, g4]
  exact ⟨key, q0, q1⟩

theorem Msec_eq (v : RDMarkerView) (hk2 : v.d_shrink_factor * 1152000 < 2147483648)
    (hs0 : 0 < v.d_sample_rate) (hs : (v.d_sample_rate : Int) ≤ 1152000 * v.d_shrink_factor)
    (f : Int) (hf0 : 0 ≤ f)
    (hq : f * v.d_shrink_factor * 1152000 / (v.d_sample_rate : Int) < 2147483648) :
    v.Msec f = f * (v.d_shrink_factor * 1152000) / (v.d_sample_rate : Int) ∧
      f ≤ v.Msec f := by
  have hs1 : (0 : Int) < (v.d_sample_rate : Int) := by exact_mod_cast hs0
  have hD : (0 : Int) < v.d_shrink_factor * 1152000 := by omega
  have ea : f * v.d_shrink_factor * 1152000 = f * (v.d_shrink_factor * 1152000) :=
    mul_assoc _ _ _
  rw [ea] at hq
  have h1 : 0 ≤ f * (v.d_shrink_factor * 1152000) := mul_nonneg hf0 (by omega)
  have h2 : f * (v.d_sample_rate : Int) ≤ f * (v.d_shrink_factor * 1152000) :=
    mul_le_mul_of_nonneg_left (by omega) hf0
  have q1 : f ≤ f * (v.d_shrink_factor * 1152000) / (v.d_sample_rate : Int) :=
    Int.le_ediv_of_mul_le hs1 h2
  have h3 : f * (v.d_shrink_factor * 1152000) ≤ 2147483647 * (v.d_shrink_factor * 1152000) :=
    mul_le_mul_of_nonneg_right (by omega) (by omega)
  have g1 : toInt64 (f * (v.d_shrink_factor * 1152000)) = f * (v.d_shrink_factor * 1152000) :=
    toInt64_of_range (by omega) (by omega)
  have g3 : Int.tdiv (f * (v.d_shrink_factor * 1152000)) (v.d_sample_rate : Int) =
      f * (v.d_shrink_factor * 1152000) / (v.d_sample_rate : Int) :=
    Int.tdiv_eq_ediv h1 (by omega)
  have g4 : toInt32 (f * (v.d_shrink_factor * 1152000) / (v.d_sample_rate : Int)) =
      f * (v.d_shrink_factor * 1152000) / (v.d_sample_rate : Int) :=
    toInt32_of_range (by omega) hq
  have key : v.Msec f = f * (v.d_shrink_factor * 1152000) / (v.d_sample_rate : Int) := by
    unfold RDMarkerView.Msec
    rw [ea, g1, g3, g4]
  rw [key]
  exact ⟨rfl, q1⟩

/-- C17: for a shrink factor `k` and a sample rate `sr` with `0 < sr <= 1152000*k` (hence
`k >= 1`), as long as nothing overflows (`k*1152000` fits an `int`, times are `int` values
and `Msec` of the frame positions fits an `int`): `Frame` has a result, `Frame(Msec(f))` is
`f` or `f-1` for every frame position `f >= 0`, `Msec(Frame(m)) <= m` for every time
`m >= 0`, and `Frame` and `Msec` are monotonically non-decreasing on non-negative
arguments. -/
theorem Frame_Msec_inverse_up_to_one (v : RDMarkerView)
    (hk2 : v.d_shrink_factor * 1152000 < 2147483648) (hs0 : 0 < v.d_sample_rate)
    (hs : (v.d_sample_rate : Int) ≤ 1152000 * v.d_shrink_factor) :
    (∀ f : Int, 0 ≤ f →
      f * v.d_shrink_factor * 1152000 / (v.d_sample_rate : Int) < 2147483648 →
      (v.Frame (v.Msec f) = some f ∨ v.Frame (v.Msec f) = some (f - 1))) ∧
    (∀ m : Int, 0 ≤ m → m < 2147483648 → ∃ x, v.Frame m = some x ∧ v.Msec x ≤ m) ∧
    (∀ m1 m2 : Int, 0 ≤ m1 → m1 ≤ m2 → m2 < 2147483648 →
      ∃ x1 x2, v.Frame m1 = some x1 ∧ v.Frame m2 = some x2 ∧ x1 ≤ x2) ∧
    (∀ f1 f2 : Int, 0 ≤ f1 → f1 ≤ f2 →
      f2 * v.d_shrink_factor * 1152000 / (v.d_sample_rate : Int) < 2147483648 →
      v.Msec f1 ≤ v.Msec f2) := by
  have hs1 : (0 : Int) < (v.d_sample_rate : Int) := by exact_mod_cast hs0
  have hD : (0 : Int) < v.d_shrink_factor * 1152000 := by omega
  refine ⟨fun f hf0 hq => ?_, fun m hm0 hm => ?_, fun m1 m2 h0 h12 h2 => ?_,
    fun f1 f2 h0 h12 h2 => ?_⟩
  · obtain ⟨eM, hfM⟩ := Msec_eq v hk2 hs0 hs f hf0 hq
    have hM : v.Msec f < 2147483648 := by
      rw [eM, ← mul_assoc]
      exact hq
    obtain ⟨eF, -, -⟩ := Frame_eq v hk2 hs0 hs (v.Msec f) (by omega) hM
    rw [eF, eM]
    simp only [Option.some.injEq]
    have u1 : f * (v.d_shrink_factor * 1152000) / (v.d_sample_rate : Int) *
        (v.d_sample_rate : Int) ≤ f * (v.d_shrink_factor * 1152000) :=
      Int.ediv_mul_le _ (by omega)
    have u2 : f * (v.d_shrink_factor * 1152000) <
        (f * (v.d_shrink_factor * 1152000) / (v.d_sample_rate : Int) + 1) *
          (v.d_sample_rate : Int) :=
      Int.lt_ediv_add_one_mul_self _ hs1
    have u3 : (f * (v.d_shrink_factor * 1152000) / (v.d_sample_rate : Int) + 1) *
        (v.d_sample_rate : Int) =
        f * (v.d_shrink_factor * 1152000) / (v.d_sample_rate : Int) *
          (v.d_sample_rate : Int) + (v.d_sample_rate : Int) := by ring
    have u4 : (f - 1) * (v.d_shrink_factor * 1152000) =
        f * (v.d_shrink_factor * 1152000) - v.d_shrink_factor * 1152000 := by ring
    have up : f * (v.d_shrink_factor * 1152000) / (v.d_sample_rate : Int) *
        (v.d_sample_rate : Int) / (v.d_shrink_factor * 1152000) ≤ f := by
      have := Int.ediv_le_ediv hD u1
      rwa [Int.mul_ediv_cancel _ (by omega)] at this
    have lo : f - 1 ≤ f * (v.d_shrink_factor * 1152000) / (v.d_sample_rate : Int) *
        (v.d_sample_rate : Int) / (v.d_shrink_factor * 1152000) :=
      Int.le_ediv_of_mul_le hD (by rw [u4]; omega)
    omega
  · obtain ⟨eF, hF0, hFm⟩ := Frame_eq v hk2 hs0 hs m hm0 hm
    have u1 : m * (v.d_sample_rate : Int) / (v.d_shrink_factor * 1152000) *
        (v.d_shrink_factor * 1152000) ≤ m * (v.d_sample_rate : Int) :=
      Int.ediv_mul_le _ (by omega)
    have u2 : m * (v.d_sample_rate : Int) / (v.d_shrink_factor * 1152000) *
        (v.d_shrink_factor * 1152000) / (v.d_sample_rate : Int) ≤ m := by
      have := Int.ediv_le_ediv hs1 u1
      rwa [Int.mul_ediv_cancel _ (by omega)] at this
    obtain ⟨eM, -⟩ := Msec_eq v hk2 hs0 hs _ hF0 (by rw [mul_assoc]; omega)
    refine ⟨_, eF, ?_⟩
    rw [eM]
    exact u2
  · obtain ⟨e1, -, -⟩ := Frame_eq v hk2 hs0 hs m1 h0 (by omega)
    obtain ⟨e2, -, -⟩ := Frame_eq v hk2 hs0 hs m2 (by omega) h2
    exact ⟨_, _, e1, e2, Int.ediv_le_ediv hD (mul_le_mul_of_nonneg_right h12 (by omega))⟩
  · have mono : f1 * (v.d_shrink_factor * 1152000) / (v.d_sample_rate : Int) ≤
        f2 * (v.d_shrink_factor * 1152000) / (v.d_sample_rate : Int) :=
      Int.ediv_le_ediv hs1 (mul_le_mul_of_nonneg_right h12 (by omega))
    have h2b := h2
    rw [mul_assoc] at h2b
    obtain ⟨e1, -⟩ := Msec_eq v hk2 hs0 hs f1 h0 (by rw [mul_assoc]; omega)
    obtain ⟨e2, -⟩ := Msec_eq v hk2 hs0 hs f2 (by omega) h2
    rw [e1, e2]
    exact mono

/-- Witness for C17: at sample rate 44100 and shrink factor 1, frame 3 is `Msec` 78 and
comes back as frame 2 or 3; time 100 is frame 3 and comes back as at most 100. -/
theorem Frame_Msec_inverse_up_to_one_witness :
    ((RDMarkerView.new 1000 100 44100).Frame ((RDMarkerView.new 1000 100 44100).Msec 3) =
        some 3 ∨
      (RDMarkerView.new 1000 100 44100).Frame ((RDMarkerView.new 1000 100 44100).Msec 3) =
        some (3 - 1)) ∧
    (∃ x, (RDMarkerView.new 1000 100 44100).Frame 100 = some x ∧
      (RDMarkerView.new 1000 100 44100).Msec x ≤ 100) :=
  ⟨(Frame_Msec_inverse_up_to_one (RDMarkerView.new 1000 100 44100) (by decide) (by decide)
      (by decide)).1 3 (by decide) (by decide),
   (Frame_Msec_inverse_up_to_one (RDMarkerView.new 1000 100 44100) (by decide) (by decide)
      (by decide)).2.1 100 (by decide) (by decide)⟩
